import Mathlib

/-!
# Pre-project advisor workflow: embedding and properties

A shallow embedding of `internal/data/pre_project.go` and of the handlers of
`cmd/api/pre_project.go` that call it.

Conventions of the embedding

* `uuid.UUID` is a natural number, `uuid.Nil` is `0`; a nullable column or a Go
  pointer is an `Option`; `time.Time` is a natural number and the clock is the
  parameter `now`.
* The relational store is a record of tables, every table a list of rows.
* A database statement can fail for a reason the Go code does not control
  (connection loss, a constraint of the schema).  The parameter
  `fault : Nat → Bool` says, for the n-th statement a function issues (`BEGIN`
  is statement 0), whether it fails.  A failed statement leaves the PostgreSQL
  transaction aborted, and `COMMIT` of an aborted transaction rolls it back.
  `COMMIT` of a healthy transaction is taken to succeed.
* The text a driver error contributes to a wrapped error (`%w`) is left out: an
  error is the literal text of the `fmt.Errorf` call that produced it.
* Query building (`ToSql`) and `RowsAffected` are taken not to fail.
-/

namespace CollegeProject

/-! ## Data model -/

/-- Identifier type `uuid.UUID`. -/
abbrev UUID := Nat

/-- The zero identifier `uuid.Nil`. -/
abbrev uuid.Nil : UUID := 0

/-- Struct `PreProject`, also the row type of table `pre_project`. -/
structure PreProject where
  ID : UUID
  Name : String
  Description : Option String
  File : Option String
  FileDescription : Option String
  ProjectOwner : UUID
  AcceptedAdvisor : Option UUID
  Year : Int
  Season : String
  CanUpdate : Bool
  Degree : Option Int
  CreatedAt : Nat
  UpdatedAt : Nat
deriving DecidableEq, Repr

/-- Row of table `advisor_responses` (columns the code reads or writes; the
surrogate key `id` of struct `AdvisorResponse` is never used by it). -/
structure AdvisorResponse where
  PreProjectID : UUID
  AdvisorID : UUID
  Status : String
  CreatedAt : Nat
  UpdatedAt : Nat
deriving DecidableEq, Repr

/-- Row of table `pre_project_students`. -/
structure StudentRow where
  PreProjectID : UUID
  StudentID : UUID
deriving DecidableEq, Repr

/-- Row of table `pre_project_discussants`. -/
structure DiscussantRow where
  PreProjectID : UUID
  DiscussantID : UUID
deriving DecidableEq, Repr

/-- Row of table `users` (columns the join of `GetPreProjectWithAdvisorDetails` reads). -/
structure User where
  ID : UUID
  Name : String
  Email : String
deriving DecidableEq, Repr

/-- The relational store: one list of rows per table. -/
structure Store where
  users : List User
  pre_project : List PreProject
  advisor_responses : List AdvisorResponse
  pre_project_students : List StudentRow
  pre_project_discussants : List DiscussantRow
deriving DecidableEq, Repr

/-- The store with no rows. -/
def Store.empty : Store := ⟨[], [], [], [], []⟩

/-- Modelled from the spec: the column default of `advisor_responses.status`
(the table declaration is not in the sources; the spec has every newly
solicited advisor start in "pending"). -/
def statusDefault : String := "pending"

/-! ## Transactions -/

/-- A running transaction `tx`: its working copy of the store, whether a
statement of it failed, and how many statements were issued so far. -/
structure Tx where
  db : Store
  failed : Bool
  issued : Nat
deriving DecidableEq, Repr

/-- `tx.Exec`: run a write statement.  `stmt` gives the new store and the
number of rows affected, or `none` when a constraint the code relies on is
violated.  The result is `none` for an error. -/
def Tx.Exec (fault : Nat → Bool) (tx : Tx) (stmt : Store → Option (Store × Nat)) :
    Option Nat × Tx :=
  if tx.failed || fault tx.issued then
    (none, { tx with failed := true, issued := tx.issued + 1 })
  else
    match stmt tx.db with
    | none => (none, { tx with failed := true, issued := tx.issued + 1 })
    | some (db, n) => (some n, { tx with db := db, issued := tx.issued + 1 })

/-- `tx.Commit()` for a transaction begun on committed store `s`. -/
def Tx.Commit (s : Store) (tx : Tx) : Store :=
  if tx.failed then s else tx.db

/-! ## Statements of `InsertAdvisorResponse` -/

/-- The message of the two `fmt.Errorf` calls of `InsertAdvisorResponse` that
report a project already taken. -/
def errAlreadyAccepted : String :=
  "pre-project has already been accepted by another advisor"

/-- The check query: `SELECT accepted_advisor FROM pre_project WHERE id = $1`
scanned into a `uuid.UUID` that starts as `uuid.Nil` (a NULL column and
`sql.ErrNoRows` both leave it `uuid.Nil`). -/
def selectAcceptedAdvisor (db : Store) (preProjectID : UUID) : UUID :=
  match db.pre_project.find? (fun p => decide (p.ID = preProjectID)) with
  | some p => p.AcceptedAdvisor.getD uuid.Nil
  | none => uuid.Nil

/-- The table `advisor_responses` after the upsert of one (project, advisor) row. -/
def upsertRows (now : Nat) (preProjectID advisorID : UUID) (status : String)
    (rows : List AdvisorResponse) : List AdvisorResponse :=
  if rows.any (fun r => decide (r.PreProjectID = preProjectID ∧ r.AdvisorID = advisorID)) then
    rows.map fun r =>
      if r.PreProjectID = preProjectID ∧ r.AdvisorID = advisorID then
        { r with Status := status, UpdatedAt := now }
      else r
  else rows ++ [⟨preProjectID, advisorID, status, now, now⟩]

/-- The upsert: `INSERT INTO advisor_responses (pre_project_id, advisor_id, status) ...
ON CONFLICT (pre_project_id, advisor_id) DO UPDATE SET status = EXCLUDED.status,
updated_at = CURRENT_TIMESTAMP`. -/
def upsertResponse (now : Nat) (preProjectID advisorID : UUID) (status : String)
    (db : Store) : Option (Store × Nat) :=
  some ({ db with advisor_responses :=
            upsertRows now preProjectID advisorID status db.advisor_responses }, 1)

/-- The table `pre_project` after the claim of the accepted-advisor slot. -/
def claimRows (now : Nat) (preProjectID advisorID : UUID) (projects : List PreProject) :
    List PreProject :=
  projects.map fun p =>
    if p.ID = preProjectID ∧ p.AcceptedAdvisor = none then
      { p with AcceptedAdvisor := some advisorID, UpdatedAt := now }
    else p

/-- The number of rows the claim updates. -/
def claimCount (preProjectID : UUID) (projects : List PreProject) : Nat :=
  (projects.filter (fun p => decide (p.ID = preProjectID ∧ p.AcceptedAdvisor = none))).length

/-- The claim: `UPDATE pre_project SET accepted_advisor = $1, updated_at = $2
WHERE id = $3 AND accepted_advisor IS NULL`. -/
def claimAcceptedAdvisor (now : Nat) (preProjectID advisorID : UUID)
    (db : Store) : Option (Store × Nat) :=
  some ({ db with pre_project := claimRows now preProjectID advisorID db.pre_project },
        claimCount preProjectID db.pre_project)

/-- The table `advisor_responses` after the sibling rejection. -/
def rejectRows (preProjectID advisorID : UUID) (rows : List AdvisorResponse) :
    List AdvisorResponse :=
  rows.map fun r =>
    if r.PreProjectID = preProjectID ∧ r.AdvisorID ≠ advisorID then
      { r with Status := "rejected" }
    else r

/-- The sibling rejection: `UPDATE advisor_responses SET status = 'rejected'
WHERE pre_project_id = $1 AND advisor_id <> $2`. -/
def rejectOtherResponses (preProjectID advisorID : UUID) (db : Store) :
    Option (Store × Nat) :=
  some ({ db with advisor_responses := rejectRows preProjectID advisorID db.advisor_responses },
        (db.advisor_responses.filter
          (fun r => decide (r.PreProjectID = preProjectID ∧ r.AdvisorID ≠ advisorID))).length)

/-- `InsertAdvisorResponse`, statement by statement.  `atCheck` is the committed
store the check query reads and `s` the committed store the later statements
run on: a READ COMMITTED transaction takes a fresh snapshot per statement, so
another transaction may commit between the two.  The Go function keeps its
error in the local `err`, which the deferred closure inspects: it rolls back
when `err` is set and commits otherwise.  A `return fmt.Errorf(...)` does not
assign `err`, and inside `if status == "accepted"` the name `err` is a new
variable of that block, so every error return of that block reaches the
closure with the outer `err` still nil.  The result is the returned error and
the committed store. -/
def InsertAdvisorResponseRC (fault : Nat → Bool) (now : Nat) (atCheck s : Store)
    (preProjectID advisorID : UUID) (status : String) : Option String × Store :=
  -- tx, err := p.db.Beginx()
  if fault 0 then (some "failed to start transaction", s) else
  -- err = tx.Get(&existingAcceptedAdvisor, checkQuery, checkArgs...)
  if fault 1 then (some "failed to check existing accepted advisor", s) else
  let existingAcceptedAdvisor := selectAcceptedAdvisor atCheck preProjectID
  let tx : Tx := ⟨s, false, 2⟩
  if existingAcceptedAdvisor ≠ uuid.Nil then
    -- outer err is nil: the closure commits (nothing was written)
    (some errAlreadyAccepted, tx.Commit s)
  else
    -- _, err = tx.Exec(responseQuery, responseArgs...)
    match tx.Exec fault (upsertResponse now preProjectID advisorID status) with
    | (none, _) => (some "failed to insert or update advisor response", s)
    | (some _, tx) =>
      if status = "accepted" then
        -- result, err := tx.Exec(updateQuery, updateArgs...)   (err of the block)
        match tx.Exec fault (claimAcceptedAdvisor now preProjectID advisorID) with
        | (none, tx) => (some "failed to set accepted advisor", tx.Commit s)
        | (some rowsAffected, tx) =>
          if rowsAffected = 0 then
            -- outer err is nil: the closure commits the upsert
            (some errAlreadyAccepted, tx.Commit s)
          else
            -- _, err = tx.Exec(updateOtherResponsesQuery, ...)   (err of the block)
            match tx.Exec fault (rejectOtherResponses preProjectID advisorID) with
            | (none, tx) =>
              (some "failed to update other advisors\x27 responses", tx.Commit s)
            | (some _, tx) => (none, tx.Commit s)
      else (none, tx.Commit s)

/-- `InsertAdvisorResponse` run with no other transaction in between. -/
def InsertAdvisorResponse (fault : Nat → Bool) (now : Nat) (s : Store)
    (preProjectID advisorID : UUID) (status : String) : Option String × Store :=
  InsertAdvisorResponseRC fault now s s preProjectID advisorID status

/-- The fault-free environment. -/
def noFault : Nat → Bool := fun _ => false

/-! ## The other writers of `internal/data/pre_project.go` -/

/-- A `for _, id := range ids` loop that issues one statement per id and
returns at the first error; the flag is false when a statement failed. -/
def execEach (fault : Nat → Bool) (stmt : UUID → Store → Option (Store × Nat)) :
    List UUID → Tx → Bool × Tx
  | [], tx => (true, tx)
  | id :: ids, tx =>
    match tx.Exec fault (stmt id) with
    | (none, tx) => (false, tx)
    | (some _, tx) => execEach fault stmt ids tx

/-- The statement `INSERT INTO pre_project (name, description, file, file_description,
project_owner, year, season, can_update) VALUES (..., true) RETURNING id, created_at,
updated_at`.  The database supplies `newID` for the key and `now` for both
timestamps; the columns not listed are NULL.  A key already present violates
the primary key. -/
def insertPreProjectRow (newID now : Nat) (preProject : PreProject) (db : Store) :
    Option (Store × Nat) :=
  if db.pre_project.any (fun p => decide (p.ID = newID)) then none
  else
    some ({ db with pre_project := db.pre_project ++
              [{ ID := newID, Name := preProject.Name, Description := preProject.Description,
                 File := preProject.File, FileDescription := preProject.FileDescription,
                 ProjectOwner := preProject.ProjectOwner, AcceptedAdvisor := none,
                 Year := preProject.Year, Season := preProject.Season, CanUpdate := true,
                 Degree := none, CreatedAt := now, UpdatedAt := now }] }, 1)

/-- The statement `INSERT INTO pre_project_students (pre_project_id, student_id)`. -/
def insertStudentRow (preProjectID studentID : UUID) (db : Store) : Option (Store × Nat) :=
  some ({ db with pre_project_students :=
            db.pre_project_students ++ [⟨preProjectID, studentID⟩] }, 1)

/-- The statement `INSERT INTO pre_project_discussants (pre_project_id, discussant_id)`. -/
def insertDiscussantRow (preProjectID discussantID : UUID) (db : Store) :
    Option (Store × Nat) :=
  some ({ db with pre_project_discussants :=
            db.pre_project_discussants ++ [⟨preProjectID, discussantID⟩] }, 1)

/-- A plain `INSERT INTO advisor_responses` with the given status.  The pair
(pre_project_id, advisor_id) is unique, as the `ON CONFLICT` target of the
upsert requires, so a pair already present is a constraint violation. -/
def insertResponseRow (now : Nat) (status : String) (preProjectID advisorID : UUID)
    (db : Store) : Option (Store × Nat) :=
  if db.advisor_responses.any
      (fun r => decide (r.PreProjectID = preProjectID ∧ r.AdvisorID = advisorID)) then none
  else
    some ({ db with advisor_responses :=
              db.advisor_responses ++ [⟨preProjectID, advisorID, status, now, now⟩] }, 1)

/-- `InsertPreProject`: the project row, one membership row per student and
one "pending" response row per advisor in one transaction (`defer tx.Rollback()`
undoes everything on any error return). -/
def InsertPreProject (fault : Nat → Bool) (newID now : Nat) (s : Store)
    (preProject : PreProject) (studentIDs advisorIDs : List UUID) : Option String × Store :=
  if fault 0 then (some "failed to start transaction", s) else
  let tx : Tx := ⟨s, false, 1⟩
  match tx.Exec fault (insertPreProjectRow newID now preProject) with
  | (none, _) => (some "failed to insert pre-project", s)
  | (some _, tx) =>
    match execEach fault (insertStudentRow newID) studentIDs tx with
    | (false, _) => (some "failed to insert student association", s)
    | (true, tx) =>
      match execEach fault (insertResponseRow now "pending" newID) advisorIDs tx with
      | (false, _) => (some "failed to insert advisor response", s)
      | (true, tx) => (none, tx.Commit s)

/-- The statement `SELECT * FROM pre_project WHERE id = $1 FOR UPDATE`. -/
def lockPreProject (db : Store) : Option (Store × Nat) := some (db, 0)

/-- The table `pre_project` after the `UPDATE` of `UpdatePreProject`. -/
def updatedProjects (now : Nat) (preProject : PreProject) (projects : List PreProject) :
    List PreProject :=
  projects.map fun q =>
    if q.ID = preProject.ID then
      { q with Name := preProject.Name, Description := preProject.Description,
               FileDescription := preProject.FileDescription, File := preProject.File,
               Year := preProject.Year, Season := preProject.Season, UpdatedAt := now,
               CanUpdate := preProject.CanUpdate, Degree := preProject.Degree }
    else q

/-- The statement `UPDATE pre_project SET name, description, file_description, file,
year, season, updated_at, can_update, degree WHERE id = $1`. -/
def updatePreProjectRow (now : Nat) (preProject : PreProject) (db : Store) :
    Option (Store × Nat) :=
  some ({ db with pre_project := updatedProjects now preProject db.pre_project },
        (db.pre_project.filter (fun q => decide (q.ID = preProject.ID))).length)

/-- The statement `DELETE FROM pre_project_students WHERE pre_project_id = $1`. -/
def deleteStudents (preProjectID : UUID) (db : Store) : Option (Store × Nat) :=
  some ({ db with pre_project_students :=
            db.pre_project_students.filter (fun r => decide (r.PreProjectID ≠ preProjectID)) },
        (db.pre_project_students.filter (fun r => decide (r.PreProjectID = preProjectID))).length)

/-- The statement `DELETE FROM pre_project_discussants WHERE pre_project_id = $1`. -/
def deleteDiscussants (preProjectID : UUID) (db : Store) : Option (Store × Nat) :=
  some ({ db with pre_project_discussants :=
            db.pre_project_discussants.filter (fun r => decide (r.PreProjectID ≠ preProjectID)) },
        (db.pre_project_discussants.filter
          (fun r => decide (r.PreProjectID = preProjectID))).length)

/-- The statement `DELETE FROM advisor_responses WHERE pre_project_id = $1`. -/
def deleteResponses (preProjectID : UUID) (db : Store) : Option (Store × Nat) :=
  some ({ db with advisor_responses :=
            db.advisor_responses.filter (fun r => decide (r.PreProjectID ≠ preProjectID)) },
        (db.advisor_responses.filter (fun r => decide (r.PreProjectID = preProjectID))).length)

/-- One `if len(ids) > 0` block of `UpdatePreProject`: delete the rows of the
project, then insert one row per id.  The delete assigns the outer `err`
(rollback); the insert of the loop declares its own `err`, so its error return
reaches the deferred closure with the outer `err` nil and the closure commits
(the transaction is aborted by then).  An error carries the committed store. -/
def replaceRows (fault : Nat → Bool) (s : Store) (tx : Tx) (ids : List UUID)
    (delete : Store → Option (Store × Nat)) (insert : UUID → Store → Option (Store × Nat))
    (errDelete errInsert : String) : Except (String × Store) Tx :=
  if ids.length > 0 then
    match tx.Exec fault delete with
    | (none, _) => .error (errDelete, s)
    | (some _, tx) =>
      match execEach fault insert ids tx with
      | (false, tx) => .error (errInsert, tx.Commit s)
      | (true, tx) => .ok tx
  else .ok tx

/-- `UpdatePreProject`: row lock, update of the project row, then the student,
discussant and advisor blocks, in one transaction.  The advisor rows are
inserted without a status, so they take the column default. -/
def UpdatePreProject (fault : Nat → Bool) (now : Nat) (s : Store) (preProject : PreProject)
    (advisorIDs studentIDs discussantIDs : List UUID) : Option String × Store :=
  if fault 0 then (some "failed to start transaction", s) else
  let tx : Tx := ⟨s, false, 1⟩
  match tx.Exec fault lockPreProject with
  | (none, _) => (some "failed to lock pre-project", s)
  | (some _, tx) =>
    match tx.Exec fault (updatePreProjectRow now preProject) with
    | (none, _) => (some "failed to update pre-project", s)
    | (some rowsAffected, tx) =>
      if rowsAffected = 0 then (some "no pre-project found to update", tx.Commit s)
      else
        match replaceRows fault s tx studentIDs (deleteStudents preProject.ID)
            (insertStudentRow preProject.ID)
            "failed to remove existing students" "failed to insert student" with
        | .error e => (some e.1, e.2)
        | .ok tx =>
          match replaceRows fault s tx discussantIDs (deleteDiscussants preProject.ID)
              (insertDiscussantRow preProject.ID)
              "failed to remove existing discussants" "failed to insert discussant" with
          | .error e => (some e.1, e.2)
          | .ok tx =>
            match replaceRows fault s tx advisorIDs (deleteResponses preProject.ID)
                (insertResponseRow now statusDefault preProject.ID)
                "failed to remove existing advisors" "failed to insert advisor" with
            | .error e => (some e.1, e.2)
            | .ok tx => (none, tx.Commit s)

/-- The statement `UPDATE pre_project SET accepted_advisor = NULL WHERE id = $1`. -/
def clearAcceptedAdvisor (preProjectID : UUID) (db : Store) : Option (Store × Nat) :=
  some ({ db with pre_project := db.pre_project.map fun p =>
            if p.ID = preProjectID then { p with AcceptedAdvisor := none } else p },
        (db.pre_project.filter (fun p => decide (p.ID = preProjectID))).length)

/-- `ResetPreProjectAdvisors`: delete the response rows of the project and
clear its accepted advisor, in one transaction. -/
def ResetPreProjectAdvisors (fault : Nat → Bool) (s : Store) (preProjectID : UUID) :
    Option String × Store :=
  if fault 0 then (some "failed to start transaction", s) else
  let tx : Tx := ⟨s, false, 1⟩
  match tx.Exec fault (deleteResponses preProjectID) with
  | (none, _) => (some "failed to remove advisors from pre-project", s)
  | (some _, tx) =>
    match tx.Exec fault (clearAcceptedAdvisor preProjectID) with
    | (none, _) => (some "failed to reset accepted advisor", s)
    | (some _, tx) => (none, tx.Commit s)

/-- `RemoveAllDiscussants`: one autocommitted `DELETE`, outside any transaction. -/
def RemoveAllDiscussants (fault : Bool) (s : Store) (preProjectID : UUID) :
    Option String × Store :=
  if fault then (some "failed to remove discussants", s)
  else
    (none, { s with pre_project_discussants :=
               s.pre_project_discussants.filter (fun r => decide (r.PreProjectID ≠ preProjectID)) })

/-! ## Validation -/

/-- Modelled from the spec: package `project/utils/validator` is not in the
sources.  A validator collects violations into a field to message mapping, one
message per field (the first one recorded), and is valid when the mapping is
empty. -/
structure validator.Validator where
  Errors : List (String × String)
deriving DecidableEq, Repr

/-- Modelled from the spec: `validator.New()` of the missing package, a
validator with no violation. -/
def validator.New : validator.Validator := ⟨[]⟩

/-- Modelled from the spec: `AddError` of the missing package records the
message unless the field already has one. -/
def validator.Validator.AddError (v : validator.Validator) (key message : String) :
    validator.Validator :=
  if v.Errors.any (fun e => decide (e.1 = key)) then v else ⟨v.Errors ++ [(key, message)]⟩

/-- Modelled from the spec: `Check` of the missing package records the message
when the condition is false. -/
def validator.Validator.Check (v : validator.Validator) (ok : Bool) (key message : String) :
    validator.Validator :=
  if ok then v else v.AddError key message

/-- Modelled from the spec: `Valid` of the missing package, no violation recorded. -/
def validator.Validator.Valid (v : validator.Validator) : Bool :=
  decide (v.Errors.length = 0)

/-- Modelled from the spec: `validator.In` of the missing package, membership
of a string in the listed values. -/
def validator.In (value : String) (list : List String) : Bool :=
  decide (value ∈ list)

/-- Modelled from the spec: `validator.InUUID` of the missing package,
membership of an id in a list of ids. -/
def validator.InUUID (id : UUID) (ids : List UUID) : Bool :=
  decide (id ∈ ids)

/-- `ValidatePreProject`.  `len` of a Go string counts bytes.  The result is
`none` when the function dereferences a nil pointer (`*preProject.Degree`,
`*preProject.Description`), which is a runtime panic.  `currentYear` is
`time.Now().Year()`. -/
def ValidatePreProject (currentYear : Int) (v : validator.Validator) (preProject : PreProject)
    (students advisors : List UUID) : Option validator.Validator :=
  let v := v.Check (decide (preProject.Name ≠ "")) "name" "اسم المشروع مطلوب"
  let v := v.Check (decide (preProject.Name.utf8ByteSize ≥ 3)) "name" "يجب أن يكون اسم المشروع على الأقل 3 أحرف"
  let v := v.Check (decide (preProject.Name.utf8ByteSize ≤ 600)) "name" "يجب أن يكون اسم المشروع أقل من 600 حرف"
  match preProject.Degree with
  | none => none
  | some degree =>
    let v :=
      if degree ≠ 0 then
        (v.Check (decide (degree ≤ 100)) "degree" "يجب ان تكون درجة المشروع اقل من 100 درجة").Check
          (decide (degree > 0)) "degree" "يجب ان تكون درجة المشروع موجبة"
      else v
    match preProject.Description with
    | none => none
    | some description =>
      let v := v.Check (decide (description ≠ "")) "name" "اسم المشروع مطلوب"
      let v := v.Check (decide (description.utf8ByteSize ≥ 10)) "description" "يجب أن يكون وصف المشروع على الأقل 10 أحرف"
      let v := v.Check (decide (description.utf8ByteSize ≤ 1500)) "description" "لا يمكن لوصف المشروع أن يكون أكثر من 1500 حرف"
      let v := v.Check (decide (preProject.Season ≠ "")) "season" "الموسم مطلوب"
      let v := v.Check (decide (preProject.Season = "spring" ∨ preProject.Season = "fall"))
        "season" "يجب اختيار موسم ربيع أو خريف"
      let v := v.Check (decide (preProject.Year ≥ currentYear)) "year" "يجب ان تكون سنة المشروع اما السنة الحاليه او قادمة"
      let v := v.Check (decide (preProject.ProjectOwner ≠ uuid.Nil)) "project_owner" "مالك المشروع مطلوب"
      let v :=
        match preProject.File with
        | some file =>
          let v := v.Check (decide (file.utf8ByteSize > 0)) "file" "مسار الملف غير صالح"
          match preProject.FileDescription with
          | some fileDescription =>
            v.Check (decide (fileDescription.utf8ByteSize ≤ 1000)) "file_description" "لا يمكن لوصف الملف أن يكون أكثر من 1000 حرف"
          | none => v
        | none => v
      let v := v.Check (decide (students.length > 0)) "students" "يجب إضافة طالب واحد على الأقل"
      let v := v.Check (decide (students.length ≤ 3)) "students" "لا يمكن إضافة أكثر من 3 طلاب"
      let v := v.Check (decide (advisors.length > 0)) "advisors" "يجب إضافة مشرف واحد على الأقل"
      let v := v.Check (decide (advisors.length ≤ 3)) "advisors" "لا يمكن إضافة أكثر من 3 مشرفين"
      some v

/-- `ValidateAdvisorResponse`. -/
def ValidateAdvisorResponse (v : validator.Validator) (advisorID : UUID) (status : String)
    (advisors : List UUID) : validator.Validator :=
  let validStatuses := ["pending", "accepted", "rejected"]
  let v := v.Check (validator.In status validStatuses) "status"
    "Invalid status. Must be \x27pending\x27, \x27accepted\x27, or \x27rejected\x27"
  v.Check (validator.InUUID advisorID advisors) "advisor"
    "The advisor is not assigned to this pre-project"

/-! ## The aggregate and its decoder -/

/-- Struct `AdvisorInfo`. -/
structure AdvisorInfo where
  ID : UUID
  Name : String
  Email : String
deriving DecidableEq, Repr

/-- Struct `StudentDetails`. -/
structure StudentDetails where
  StudentID : UUID
  StudentName : String
  StudentEmail : String
deriving DecidableEq, Repr

/-- Struct `DiscussantDetails`. -/
structure DiscussantDetails where
  DiscussantID : UUID
  DiscussantName : String
  DiscussantEmail : String
deriving DecidableEq, Repr

/-- Struct `AdvisorResponseDetails`. -/
structure AdvisorResponseDetails where
  AdvisorID : UUID
  AdvisorName : String
  AdvisorEmail : String
  Status : String
  CreatedAt : Nat
  UpdatedAt : Nat
deriving DecidableEq, Repr

/-- Struct `PreProjectWithAdvisorDetails`, the aggregate. -/
structure PreProjectWithAdvisorDetails where
  PreProject : PreProject
  Advisors : List AdvisorResponseDetails
  Students : List StudentDetails
  Discussants : List DiscussantDetails
  AcceptedAdvisorInfo : Option AdvisorInfo
deriving DecidableEq, Repr

/-- The anonymous struct `row` the decoder loop scans every joined row into. -/
structure JoinRow where
  PreProject : PreProject
  AdvisorID : UUID
  AdvisorName : String
  AdvisorEmail : String
  ResponseStatus : String
  ResponseCreatedAt : Nat
  ResponseUpdatedAt : Nat
  StudentID : UUID
  StudentName : String
  StudentEmail : String
  AcceptedAdvisorID : UUID
  AcceptedAdvisorName : String
  AcceptedAdvisorEmail : String
  DiscussantID : UUID
  DiscussantName : String
  DiscussantEmail : String
deriving DecidableEq, Repr

/-- The zero value of struct `PreProject`. -/
def PreProject.zero : PreProject :=
  ⟨uuid.Nil, "", none, none, none, uuid.Nil, none, 0, "", false, none, 0, 0⟩

/-- The variables of the decoder loop: the aggregate under construction,
`preProjectPopulated`, and the three sets of ids already added. -/
structure DecodeState where
  result : PreProjectWithAdvisorDetails
  preProjectPopulated : Bool
  studentSet : List UUID
  discussantSet : List UUID
  advisorSet : List UUID
deriving DecidableEq, Repr

/-- The loop variables before the first row. -/
def DecodeState.init : DecodeState :=
  ⟨⟨PreProject.zero, [], [], [], none⟩, false, [], [], []⟩

/-- The advisor entry the loop builds from a row. -/
def JoinRow.advisorDetails (row : JoinRow) : AdvisorResponseDetails :=
  ⟨row.AdvisorID, row.AdvisorName, row.AdvisorEmail, row.ResponseStatus,
    row.ResponseCreatedAt, row.ResponseUpdatedAt⟩

/-- The student entry the loop builds from a row. -/
def JoinRow.studentDetails (row : JoinRow) : StudentDetails :=
  ⟨row.StudentID, row.StudentName, row.StudentEmail⟩

/-- The discussant entry the loop builds from a row. -/
def JoinRow.discussantDetails (row : JoinRow) : DiscussantDetails :=
  ⟨row.DiscussantID, row.DiscussantName, row.DiscussantEmail⟩

/-- Loop body, first block: `if !preProjectPopulated`. -/
def decodeRow.populate (st : DecodeState) (row : JoinRow) : DecodeState :=
  if st.preProjectPopulated then st
  else { st with result := { st.result with PreProject := row.PreProject },
                 preProjectPopulated := true }

/-- Loop body, second block: `if row.AdvisorID != uuid.Nil && !advisorSet[row.AdvisorID]`. -/
def decodeRow.advisor (st : DecodeState) (row : JoinRow) : DecodeState :=
  if row.AdvisorID ≠ uuid.Nil ∧ row.AdvisorID ∉ st.advisorSet then
    { st with result := { st.result with
                Advisors := st.result.Advisors ++ [row.advisorDetails] },
              advisorSet := row.AdvisorID :: st.advisorSet }
  else st

/-- Loop body, third block: `if row.AcceptedAdvisorID != uuid.Nil`. -/
def decodeRow.acceptedAdvisor (st : DecodeState) (row : JoinRow) : DecodeState :=
  if row.AcceptedAdvisorID ≠ uuid.Nil then
    let info : AdvisorInfo :=
      ⟨row.AcceptedAdvisorID, row.AcceptedAdvisorName, row.AcceptedAdvisorEmail⟩
    { st with result := { st.result with AcceptedAdvisorInfo := some info } }
  else st

/-- Loop body, fourth block: `if row.StudentID != uuid.Nil && !studentSet[row.StudentID]`. -/
def decodeRow.student (st : DecodeState) (row : JoinRow) : DecodeState :=
  if row.StudentID ≠ uuid.Nil ∧ row.StudentID ∉ st.studentSet then
    { st with result := { st.result with
                Students := st.result.Students ++ [row.studentDetails] },
              studentSet := row.StudentID :: st.studentSet }
  else st

/-- Loop body, fifth block:
`if row.DiscussantID != uuid.Nil && !discussantSet[row.DiscussantID]`. -/
def decodeRow.discussant (st : DecodeState) (row : JoinRow) : DecodeState :=
  if row.DiscussantID ≠ uuid.Nil ∧ row.DiscussantID ∉ st.discussantSet then
    { st with result := { st.result with
                Discussants := st.result.Discussants ++ [row.discussantDetails] },
              discussantSet := row.DiscussantID :: st.discussantSet }
  else st

/-- One iteration of the `for rows.Next()` loop of
`GetPreProjectWithAdvisorDetails`: its five blocks in order. -/
def decodeRow (st : DecodeState) (row : JoinRow) : DecodeState :=
  let st := decodeRow.populate st row
  let st := decodeRow.advisor st row
  let st := decodeRow.acceptedAdvisor st row
  let st := decodeRow.student st row
  decodeRow.discussant st row

/-- The decoder loop run over a row sequence. -/
def decodeRows (rows : List JoinRow) : DecodeState :=
  rows.foldl decodeRow DecodeState.init

/-- Errors of `GetPreProjectWithAdvisorDetails`: the sentinel
`ErrRecordNotFound` of package data, or a wrapped driver error. -/
inductive GetError where
  | ErrRecordNotFound
  | failed (message : String)
deriving DecidableEq, Repr

/-- The decoder of `GetPreProjectWithAdvisorDetails`: the loop over the rows
and the not-found test after it. -/
def decode (rows : List JoinRow) : Except GetError PreProjectWithAdvisorDetails :=
  let st := decodeRows rows
  if st.preProjectPopulated then .ok st.result else .error .ErrRecordNotFound

/-- A `LEFT JOIN`: every left row paired with each matching right row, or with
no right row when none matches. -/
def leftJoin {α β : Type} (l : List α) (r : List β) (cond : α → β → Bool) :
    List (α × Option β) :=
  l.flatMap fun a =>
    match r.filter (cond a) with
    | [] => [(a, none)]
    | b :: bs => (b :: bs).map fun x => (a, some x)

/-- Modelled from the spec: the column list `preProjectJoinColumns` is not in
the sources.  Each field of the row struct is taken from the table its `db`
tag names (relation ids from the relation tables, names and emails from the
joined `users` rows, the accepted advisor from its joined `users` row), with a
NULL read as the zero value. -/
def preProjectJoinColumns
    (r : ((((((PreProject × Option AdvisorResponse) × Option User) × Option StudentRow) ×
      Option User) × Option User) × Option DiscussantRow) × Option User) : JoinRow :=
  match r with
  | (((((((pp, ar), u), pps), student), accepted), ppd), discussant) =>
    { PreProject := pp
      AdvisorID := (ar.map (·.AdvisorID)).getD uuid.Nil
      AdvisorName := (u.map (·.Name)).getD ""
      AdvisorEmail := (u.map (·.Email)).getD ""
      ResponseStatus := (ar.map (·.Status)).getD ""
      ResponseCreatedAt := (ar.map (·.CreatedAt)).getD 0
      ResponseUpdatedAt := (ar.map (·.UpdatedAt)).getD 0
      StudentID := (pps.map (·.StudentID)).getD uuid.Nil
      StudentName := (student.map (·.Name)).getD ""
      StudentEmail := (student.map (·.Email)).getD ""
      AcceptedAdvisorID := (accepted.map (·.ID)).getD uuid.Nil
      AcceptedAdvisorName := (accepted.map (·.Name)).getD ""
      AcceptedAdvisorEmail := (accepted.map (·.Email)).getD ""
      DiscussantID := (ppd.map (·.DiscussantID)).getD uuid.Nil
      DiscussantName := (discussant.map (·.Name)).getD ""
      DiscussantEmail := (discussant.map (·.Email)).getD "" }

/-- The rows of the query of `GetPreProjectWithAdvisorDetails`: `pre_project pp`
restricted to `pp.id = $1`, left-joined with the advisor responses and their
users, the students and their users, the accepted advisor's user, and the
discussants and their users. -/
def preProjectJoin (s : Store) (preProjectID : UUID) : List JoinRow :=
  let j0 := s.pre_project.filter (fun pp => decide (pp.ID = preProjectID))
  let j1 := leftJoin j0 s.advisor_responses (fun pp ar => decide (ar.PreProjectID = pp.ID))
  let j2 := leftJoin j1 s.users (fun x u => decide (x.2.map (·.AdvisorID) = some u.ID))
  let j3 := leftJoin j2 s.pre_project_students
    (fun x pps => decide (pps.PreProjectID = x.1.1.ID))
  let j4 := leftJoin j3 s.users (fun x u => decide (x.2.map (·.StudentID) = some u.ID))
  let j5 := leftJoin j4 s.users (fun x u => decide (x.1.1.1.1.AcceptedAdvisor = some u.ID))
  let j6 := leftJoin j5 s.pre_project_discussants
    (fun x ppd => decide (ppd.PreProjectID = x.1.1.1.1.1.ID))
  let j7 := leftJoin j6 s.users (fun x u => decide (x.2.map (·.DiscussantID) = some u.ID))
  j7.map preProjectJoinColumns

/-- `GetPreProjectWithAdvisorDetails`: the query, then the decoder.  `fault`
says whether the query fails. -/
def GetPreProjectWithAdvisorDetails (fault : Bool) (s : Store) (preProjectID : UUID) :
    Except GetError PreProjectWithAdvisorDetails :=
  if fault then .error (.failed "failed to query pre-project")
  else decode (preProjectJoin s preProjectID)

/-! ## Handlers of `cmd/api/pre_project.go`

A handler is taken after routing, authentication and form parsing: it gets the
ids and form values of the request and returns the response it writes together
with the committed store.  File storage and notification are outside the
embedding. -/

/-- Status code `http.StatusOK`. -/
def http.StatusOK : Nat := 200

/-- Status code `http.StatusBadRequest`. -/
def http.StatusBadRequest : Nat := 400

/-- Status code `http.StatusConflict`. -/
def http.StatusConflict : Nat := 409

/-- Status code `http.StatusCreated`. -/
def http.StatusCreated : Nat := 201

/-- Status code `http.StatusNotFound`. -/
def http.StatusNotFound : Nat := 404

/-- Status code `http.StatusForbidden`. -/
def http.StatusForbidden : Nat := 403

/-- What a handler writes: one constructor per response helper of the
application, and `nilDereference` for a request that ends in a runtime panic
on a nil pointer. -/
inductive Response where
  | SendJSONResponse (status : Nat) (message : String)
      (preProject : Option PreProjectWithAdvisorDetails)
  | errorResponse (status : Nat) (message : String)
  | badRequestResponse (message : String)
  | unauthorizedResponse
  | failedValidationResponse (errors : List (String × String))
  | serverErrorResponse (err : String)
  | handleRetrievalError (err : GetError)
  | nilDereference
  | SendJSONPreProject (status : Nat) (preProject : PreProject)
deriving DecidableEq, Repr

/-- Library function `strings.Contains`. -/
def strings.Contains (s substr : String) : Bool :=
  s.data.tails.any (fun t => substr.data.isPrefixOf t)

/-- Library function `strings.TrimPrefix`. -/
def strings.TrimPrefix (s pre : String) : String :=
  if pre.data.isPrefixOf s.data then ⟨s.data.drop pre.data.length⟩ else s

/-- The `switch` of `RespondToPreProjectHandler` on the error of
`InsertAdvisorResponse`. -/
def RespondToPreProjectHandler.report (err : String) : Response :=
  if strings.Contains err "already been accepted by another advisor" then
    .errorResponse http.StatusConflict "Pre-project has already been accepted by another advisor"
  else .serverErrorResponse err

/-- `RespondToPreProjectHandler`, from the load of the project on.  `fault 0`
is the load query, the later indices are the statements of
`InsertAdvisorResponse`. -/
def RespondToPreProjectHandler (fault : Nat → Bool) (now : Nat) (s : Store)
    (advisorUUID preProjectUUID : UUID) (status : String) : Response × Store :=
  if status = "" then (.errorResponse http.StatusBadRequest "Status is required", s) else
  match GetPreProjectWithAdvisorDetails (fault 0) s preProjectUUID with
  | .error err => (.handleRetrievalError err, s)
  | .ok preProject =>
    if preProject.PreProject.AcceptedAdvisor = some advisorUUID then
      (.errorResponse http.StatusConflict "You Already Accepeted the Project!", s)
    else
      let advisorIDs := preProject.Advisors.map (·.AdvisorID)
      let v := ValidateAdvisorResponse validator.New advisorUUID status advisorIDs
      if !v.Valid then (.failedValidationResponse v.Errors, s)
      else
        match InsertAdvisorResponse (fun n => fault (n + 1)) now s preProjectUUID advisorUUID
            status with
        | (some err, s) => (RespondToPreProjectHandler.report err, s)
        | (none, s) =>
          (.SendJSONResponse http.StatusOK
            (if status = "accepted" then "Pre-project accepted successfully"
             else "Advisor response recorded successfully") none, s)

/-- A form value after parsing: `absent` for the empty string, `invalid` when
its parser (`strconv.Atoi`, `strconv.ParseBool`) or the resolution of one of
its emails (`GetUserByEmail`) fails, else the parsed value. -/
inductive FormValue (α : Type) where
  | absent
  | invalid
  | value (a : α)
deriving DecidableEq, Repr

/-- The outcomes of `r.FormFile("file")` followed by `utils.SaveFile`. -/
inductive FormFile where
  | missing
  | invalid
  | saveFailed
  | saved (fileName : String)
deriving DecidableEq, Repr

/-- The request of `UpdatePreProjectHandler`: the roles of the context and the
form values.  An email list is given by the ids its non-blank entries resolve
to. -/
structure UpdateForm where
  roles : Option (List String)
  name : String
  can_update : FormValue Bool
  description : String
  year : FormValue Int
  season : String
  degree : FormValue Int
  file : FormFile
  file_description : String
  students : FormValue (List UUID)
  advisors : FormValue (List UUID)
  discutants : FormValue (List UUID)
deriving DecidableEq, Repr

/-- The part of `UpdatePreProjectHandler` that merges the form into the
existing aggregate: the candidate project and the student, advisor and
discussant id lists, or the response of an early return.  `Domain` is the
constant `data.Domain`. -/
def UpdatePreProjectHandler.merge (Domain : String) (now : Nat) (preProjectID : UUID)
    (existingPreProject : PreProjectWithAdvisorDetails) (isAdmin : Bool) (form : UpdateForm) :
    Except Response (PreProject × List UUID × List UUID × List UUID) := do
  let existing := existingPreProject.PreProject
  let name := if form.name ≠ "" then form.name else existing.Name
  let canUpdate ←
    match form.can_update with
    | .absent => pure existing.CanUpdate
    | .invalid => throw (.errorResponse http.StatusBadRequest "Invalid can_update value")
    | .value b => pure b
  let description := if form.description ≠ "" then some form.description else existing.Description
  let year ←
    match form.year with
    | .absent => pure existing.Year
    | .invalid => throw (.errorResponse http.StatusBadRequest "Invalid year")
    | .value y => pure y
  let season := if form.season ≠ "" then form.season else existing.Season
  let degree ←
    if isAdmin then
      match form.degree with
      | .absent => pure existing.Degree
      | .invalid => throw (.errorResponse http.StatusBadRequest "Invalid degree")
      | .value d => pure (some d)
    else pure existing.Degree
  let file ←
    match form.file with
    | .saved fileName => pure (some fileName)
    | .saveFailed => throw (.errorResponse http.StatusBadRequest "Invalid file")
    | .invalid => throw (.errorResponse http.StatusBadRequest "Invalid file upload")
    | .missing => pure (existing.File.map fun f => strings.TrimPrefix f (Domain ++ "/"))
  let fileDescription :=
    if form.file_description ≠ "" then some form.file_description else existing.FileDescription
  let students ←
    match form.students with
    | .absent => pure (existingPreProject.Students.map (·.StudentID))
    | .invalid => throw (.errorResponse http.StatusBadRequest "Invalid student email")
    | .value ids =>
      if ids.length = 0 then throw (.badRequestResponse "at least one student is required")
      else pure ids
  let advisors ←
    match form.advisors with
    | .absent => pure (existingPreProject.Advisors.map (·.AdvisorID))
    | .invalid => throw (.errorResponse http.StatusBadRequest "Invalid advisor email")
    | .value ids =>
      if ids.length = 0 then throw (.badRequestResponse "at least one advisor is required")
      else pure ids
  let discutants ←
    match form.discutants with
    | .absent => pure (existingPreProject.Discussants.map (·.DiscussantID))
    | .invalid => throw (.errorResponse http.StatusBadRequest "Invalid discussant email")
    | .value ids => pure ids
  let preProject : PreProject :=
    { ID := preProjectID, Name := name, Description := description, File := file,
      FileDescription := fileDescription, ProjectOwner := existing.ProjectOwner,
      AcceptedAdvisor := none, Year := year, Season := season, CanUpdate := canUpdate,
      Degree := degree, CreatedAt := 0, UpdatedAt := now }
  pure (preProject, students, advisors, discutants)

/-- `UpdatePreProjectHandler`.  `fault 0` is the load query, `fault 1` the
`RemoveAllDiscussants` statement, `fault 2` the reload, and the later indices
are the statements of `UpdatePreProject`.  `currentYear` is the year of the
clock that `ValidatePreProject` reads. -/
def UpdatePreProjectHandler (Domain : String) (fault : Nat → Bool) (now : Nat)
    (currentYear : Int) (s : Store) (preProjectID : UUID) (form : UpdateForm) :
    Response × Store :=
  match form.roles with
  | none => (.unauthorizedResponse, s)
  | some userRoles =>
    let isAdmin := decide ("admin" ∈ userRoles)
    match GetPreProjectWithAdvisorDetails (fault 0) s preProjectID with
    | .error err => (.handleRetrievalError err, s)
    | .ok existingPreProject =>
      match UpdatePreProjectHandler.merge Domain now preProjectID existingPreProject isAdmin
          form with
      | .error response => (response, s)
      | .ok (preProject, students, advisors, discutants) =>
        let discutantsProvided := decide (form.discutants ≠ .absent)
        -- if !discutantsProvided { RemoveAllDiscussants; discutants = []uuid.UUID{} }
        match (if discutantsProvided then (none, s)
               else RemoveAllDiscussants (fault 1) s preProject.ID) with
        | (some err, s) => (.serverErrorResponse err, s)
        | (none, s) =>
          let discutants := if discutantsProvided then discutants else []
          match ValidatePreProject currentYear validator.New preProject students advisors with
          | none => (.nilDereference, s)
          | some v =>
            if !v.Valid then (.failedValidationResponse v.Errors, s)
            else
              match UpdatePreProject (fun n => fault (n + 3)) now s preProject advisors
                  students discutants with
              | (some err, s) => (.serverErrorResponse err, s)
              | (none, s) =>
                match GetPreProjectWithAdvisorDetails (fault 2) s preProjectID with
                | .error err => (.handleRetrievalError err, s)
                | .ok updatedPreProject =>
                  (.SendJSONResponse http.StatusOK "" (some updatedPreProject), s)

/-! ## Create and Delete -/

/-- `CheckExistingPreProject`: the first row of `pre_project_students ps JOIN
pre_project pp ON ps.pre_project_id = pp.id WHERE ps.student_id = $1`, or no
project when the join is empty (`sql.ErrNoRows`).  `fault` says whether the
query fails. -/
def CheckExistingPreProject (fault : Bool) (s : Store) (studentID : UUID) :
    Except String (Option PreProject) :=
  if fault then .error "failed to check existing pre-project"
  else
    .ok ((s.pre_project_students.filter (fun ps => decide (ps.StudentID = studentID))).flatMap
      (fun ps => s.pre_project.filter (fun pp => decide (pp.ID = ps.PreProjectID)))).head?

/-- The request of `CreatePreProjectHandler`.  `user` is the id of the
authenticated user when `GetUser` finds it; `year` is the result of
`strconv.Atoi`; `advisors` gives, for every part of the comma-separated
advisor field, the id `GetUserByEmail` resolves it to; `students` is absent
when the form value is empty and otherwise gives every listed email with the
id it resolves to. -/
structure CreateForm where
  user : Option UUID
  name : String
  description : String
  year : Option Int
  season : String
  file : FormFile
  advisors : List (Option UUID)
  students : Option (List (String × Option UUID))
  file_description : String
deriving DecidableEq, Repr

/-- The advisor loop of `CreatePreProjectHandler`: the ids of the emails in
order, or no list when an email does not resolve. -/
def CreatePreProjectHandler.advisors : List (Option UUID) → Option (List UUID)
  | [] => some []
  | none :: _ => none
  | some advisorID :: rest =>
    match CreatePreProjectHandler.advisors rest with
    | none => none
    | some ids => some (advisorID :: ids)

/-- The student loop of `CreatePreProjectHandler`: for every listed email, in
order, resolve it, look for an existing pre-project of that student, and add
the id to `studentIDs` unless it is there already (`addedStudentIDs` holds the
same ids as `studentIDs`).  `checkFault i` says whether the i-th
`CheckExistingPreProject` query fails. -/
def CreatePreProjectHandler.students (checkFault : Nat → Bool) (s : Store) :
    List (String × Option UUID) → Nat → List UUID → Except Response (List UUID)
  | [], _, studentIDs => .ok studentIDs
  | (email, resolved) :: rest, i, studentIDs =>
    match resolved with
    | none => .error (.errorResponse http.StatusBadRequest "Invalid student email")
    | some studentID =>
      match CheckExistingPreProject (checkFault i) s studentID with
      | .error err => .error (.serverErrorResponse err)
      | .ok (some _) =>
        .error (.errorResponse http.StatusConflict
          ("Student with email " ++ email ++ " already has an existing pre-project"))
      | .ok none =>
        CreatePreProjectHandler.students checkFault s rest (i + 1)
          (if studentID ∈ studentIDs then studentIDs else studentIDs ++ [studentID])

/-- The candidate `CreatePreProjectHandler` builds: the struct literal of
lines 109-121 sets neither `Degree` nor `AcceptedAdvisor`.  Its `ID`
(`uuid.New()`) is read by nobody and replaced by the key the insert returns. -/
def CreatePreProjectHandler.candidate (newID now : Nat) (usersID : UUID) (form : CreateForm)
    (year : Int) (file : Option String) : PreProject :=
  { ID := newID, Name := form.name, Description := some form.description, File := file,
    FileDescription := some form.file_description, ProjectOwner := usersID,
    AcceptedAdvisor := none, Year := year, Season := form.season, CanUpdate := true,
    Degree := none, CreatedAt := now, UpdatedAt := now }

/-- `CreatePreProjectHandler`.  The duplicate check of the creating user at its
top is commented out in the source, so there is none.  `checkFault` is for the
`CheckExistingPreProject` queries, `fault` for the statements of
`InsertPreProject`; `newID` and `now` are the key and the time the database
supplies, `currentYear` the year `ValidatePreProject` reads. -/
def CreatePreProjectHandler (checkFault fault : Nat → Bool) (newID now : Nat)
    (currentYear : Int) (s : Store) (form : CreateForm) : Response × Store :=
  match form.user with
  | none => (.handleRetrievalError .ErrRecordNotFound, s)
  | some usersID =>
    match form.year with
    | none => (.errorResponse http.StatusBadRequest "Invalid year", s)
    | some year =>
      match (match form.file with
             | .saved fileName => Except.ok (some fileName)
             | .saveFailed => .error (Response.errorResponse http.StatusBadRequest "Invalid file")
             | .invalid =>
               .error (Response.errorResponse http.StatusBadRequest "Invalid file upload")
             | .missing => .ok none) with
      | .error response => (response, s)
      | .ok file =>
        match CreatePreProjectHandler.advisors form.advisors with
        | none => (.errorResponse http.StatusBadRequest "Invalid advisor email", s)
        | some advisorIDs =>
          match (match form.students with
                 | none => Except.ok [usersID]
                 | some listed =>
                   CreatePreProjectHandler.students checkFault s listed 0 [usersID]) with
          | .error response => (response, s)
          | .ok studentIDs =>
            let preProject := CreatePreProjectHandler.candidate newID now usersID form year file
            match ValidatePreProject currentYear validator.New preProject studentIDs
                advisorIDs with
            | none => (.nilDereference, s)
            | some v =>
              if !v.Valid then (.failedValidationResponse v.Errors, s)
              else
                match InsertPreProject fault newID now s preProject studentIDs advisorIDs with
                | (some err, s) => (.serverErrorResponse err, s)
                | (none, s) => (.SendJSONPreProject http.StatusCreated preProject, s)

/-- The statement `DELETE FROM pre_project WHERE id = $1`.  What the schema
cascades to the relation tables is not in the sources; the relation rows are
left as they are. -/
def deletePreProjectRow (preProjectID : UUID) (db : Store) : Option (Store × Nat) :=
  some ({ db with pre_project :=
            db.pre_project.filter (fun p => decide (p.ID ≠ preProjectID)) },
        (db.pre_project.filter (fun p => decide (p.ID = preProjectID))).length)

/-- `DeletePreProject`.  Statement 1 is the row lock, 2 the existence query,
3 the owner query, 4 the file query, 5 the `DELETE`.  The owner query fills
`isProjectOwner`, which the function never reads.  The two `return
fmt.Errorf(...)` after a successful query leave `err` nil, so the deferred
closure commits (nothing was written by then).  The removal of the attached
file is outside the embedding. -/
def DeletePreProject (fault : Nat → Bool) (s : Store) (preProjectID studentID : UUID) :
    Option String × Store :=
  if fault 0 then (some "failed to start transaction", s) else
  let tx : Tx := ⟨s, false, 1⟩
  match tx.Exec fault lockPreProject with
  | (none, _) => (some "failed to lock pre-project", s)
  | (some _, tx) =>
    if fault 2 then (some "failed to check pre-project existence", s) else
    let preProjectExists := s.pre_project.any (fun p => decide (p.ID = preProjectID))
    if !preProjectExists then (some "pre-project not found", tx.Commit s) else
    if fault 3 then (some "failed to check project owner", s) else
    let _isProjectOwner :=
      s.pre_project.any (fun p => decide (p.ID = preProjectID ∧ p.ProjectOwner = studentID))
    if fault 4 then (some "failed to retrieve file information", s) else
    let tx : Tx := { tx with issued := 5 }
    match tx.Exec fault (deletePreProjectRow preProjectID) with
    | (none, _) => (some "failed to delete pre-project", s)
    | (some rowsAffected, tx) =>
      if rowsAffected = 0 then (some "no pre-project found", tx.Commit s)
      else (none, tx.Commit s)

/-- The `switch` of `DeletePreProjectHandler` on the error of `DeletePreProject`. -/
def DeletePreProjectHandler.report (err : String) : Response :=
  if strings.Contains err "pre-project not found" then
    .errorResponse http.StatusNotFound "Pre-project not found"
  else if strings.Contains err "unauthorized to delete" then
    .errorResponse http.StatusForbidden "Unauthorized to delete this pre-project"
  else .serverErrorResponse err

/-- `DeletePreProjectHandler`, after the ids of the requester and of the
project are parsed. -/
def DeletePreProjectHandler (fault : Nat → Bool) (s : Store) (studentUUID preProjectID : UUID) :
    Response × Store :=
  match DeletePreProject fault s preProjectID studentUUID with
  | (some err, s) => (DeletePreProjectHandler.report err, s)
  | (none, s) => (.SendJSONResponse http.StatusOK "Pre-project deleted successfully" none, s)

/-! ## Promote to book -/

/-- Modelled from the spec: struct `data.Book` is not in the sources.  Its
fields are the ones the struct literal of `MovePreProjectToBookHandler` sets:
the promoted name, description, file, year and season, a key and two
timestamps. -/
structure Book where
  ID : UUID
  Name : String
  Description : Option String
  File : Option String
  Year : Int
  Season : String
  CreatedAt : Nat
  UpdatedAt : Nat
deriving DecidableEq, Repr

/-- Modelled from the spec: a stored book, the promoted fields together with
the snapshots of the discussant, advisor and student sets. -/
structure BookRecord where
  book : Book
  discussants : List UUID
  advisors : List UUID
  students : List UUID
deriving DecidableEq, Repr

/-- The book model the handler calls into: `data.ValidateBook`,
`BookDB.InsertBook` and `BookDB.GetBookWithDetails` are not in the sources and
the spec gives no rule of theirs, so the handler takes them as they come.  The
arguments are in the order of the calls; the book tables are a list of
records. -/
structure BookModel where
  ValidateBook : validator.Validator → Book → List UUID → List UUID → List UUID → Bool →
    validator.Validator
  InsertBook : List BookRecord → Book → List UUID → List UUID → List UUID →
    Option String × List BookRecord
  GetBookWithDetails : List BookRecord → UUID → Except GetError BookRecord

/-- Modelled from the spec: a book model that checks nothing, stores the book
with its three snapshots, and reads a book back by its key. -/
def BookModel.snapshot : BookModel where
  ValidateBook := fun v _ _ _ _ _ => v
  InsertBook := fun books book discussants advisors students =>
    (none, books ++ [⟨book, discussants, advisors, students⟩])
  GetBookWithDetails := fun books id =>
    match books.find? (fun b => decide (b.book.ID = id)) with
    | some b => .ok b
    | none => .error .ErrRecordNotFound

/-- What `MovePreProjectToBookHandler` writes: a response of the kind the other
handlers write, or the `201` that carries the created book. -/
inductive MoveResponse where
  | response (r : Response)
  | SendJSONBook (status : Nat) (message : String) (book : BookRecord)
deriving DecidableEq, Repr

/-- `MovePreProjectToBookHandler`.  `fault 0` is the load query and the later
indices are the statements of `DeletePreProject`; `newID` is `uuid.New()` and
`now` the clock.  The slice literal `[]uuid.UUID{*preProject.PreProject.AcceptedAdvisor}`
dereferences the accepted advisor with no nil check.  The result is the
response, the committed store and the book tables. -/
def MovePreProjectToBookHandler (Domain : String) (m : BookModel) (fault : Nat → Bool)
    (newID now : Nat) (s : Store) (books : List BookRecord) (preProjectID : UUID) :
    MoveResponse × Store × List BookRecord :=
  match GetPreProjectWithAdvisorDetails (fault 0) s preProjectID with
  | .error err => (.response (.handleRetrievalError err), s, books)
  | .ok preProject =>
    let cleanedFilePath :=
      match preProject.PreProject.File with
      | some file => strings.TrimPrefix file (Domain ++ "/")
      | none => ""
    let book : Book :=
      { ID := newID, Name := preProject.PreProject.Name,
        Description := preProject.PreProject.Description, File := some cleanedFilePath,
        Year := preProject.PreProject.Year, Season := preProject.PreProject.Season,
        CreatedAt := now, UpdatedAt := now }
    let studentIDs := preProject.Students.map (·.StudentID)
    let Discussants := preProject.Discussants.map (·.DiscussantID)
    match preProject.PreProject.AcceptedAdvisor with
    | none => (.response .nilDereference, s, books)
    | some acceptedAdvisor =>
      let advisorIDs := [acceptedAdvisor]
      let v := m.ValidateBook validator.New book studentIDs advisorIDs Discussants false
      if !v.Valid then (.response (.failedValidationResponse v.Errors), s, books)
      else
        match m.InsertBook books book Discussants advisorIDs studentIDs with
        | (some err, books) => (.response (.serverErrorResponse err), s, books)
        | (none, books) =>
          match DeletePreProject (fun n => fault (n + 1)) s preProjectID
              preProject.PreProject.ProjectOwner with
          | (some err, s) => (.response (.serverErrorResponse err), s, books)
          | (none, s) =>
            match m.GetBookWithDetails books book.ID with
            | .error err => (.response (.handleRetrievalError err), s, books)
            | .ok createdBook =>
              (.SendJSONBook http.StatusCreated "Pre-project successfully moved to book"
                createdBook, s, books)

/-! ## The checks of `ValidatePreProject` as a list -/

/-- The checks of `ValidatePreProject` in the order it runs them, each with
its condition, key and message, for a candidate whose degree is `d` and whose
description is `desc`. -/
def ValidatePreProject.checks (currentYear : Int) (p : PreProject) (d : Int) (desc : String)
    (students advisors : List UUID) : List (Bool × String × String) :=
  [(decide (p.Name ≠ ""), "name", "اسم المشروع مطلوب"),
   (decide (p.Name.utf8ByteSize ≥ 3), "name", "يجب أن يكون اسم المشروع على الأقل 3 أحرف"),
   (decide (p.Name.utf8ByteSize ≤ 600), "name", "يجب أن يكون اسم المشروع أقل من 600 حرف")] ++
  (if d ≠ 0 then
    [(decide (d ≤ 100), "degree", "يجب ان تكون درجة المشروع اقل من 100 درجة"),
     (decide (d > 0), "degree", "يجب ان تكون درجة المشروع موجبة")]
   else []) ++
  [(decide (desc ≠ ""), "name", "اسم المشروع مطلوب"),
   (decide (desc.utf8ByteSize ≥ 10), "description", "يجب أن يكون وصف المشروع على الأقل 10 أحرف"),
   (decide (desc.utf8ByteSize ≤ 1500), "description", "لا يمكن لوصف المشروع أن يكون أكثر من 1500 حرف"),
   (decide (p.Season ≠ ""), "season", "الموسم مطلوب"),
   (decide (p.Season = "spring" ∨ p.Season = "fall"), "season", "يجب اختيار موسم ربيع أو خريف"),
   (decide (p.Year ≥ currentYear), "year", "يجب ان تكون سنة المشروع اما السنة الحاليه او قادمة"),
   (decide (p.ProjectOwner ≠ uuid.Nil), "project_owner", "مالك المشروع مطلوب")] ++
  (match p.File with
   | some file =>
     [(decide (file.utf8ByteSize > 0), "file", "مسار الملف غير صالح")] ++
     (match p.FileDescription with
      | some fileDescription =>
        [(decide (fileDescription.utf8ByteSize ≤ 1000), "file_description", "لا يمكن لوصف الملف أن يكون أكثر من 1000 حرف")]
      | none => [])
   | none => []) ++
  [(decide (students.length > 0), "students", "يجب إضافة طالب واحد على الأقل"),
   (decide (students.length ≤ 3), "students", "لا يمكن إضافة أكثر من 3 طلاب"),
   (decide (advisors.length > 0), "advisors", "يجب إضافة مشرف واحد على الأقل"),
   (decide (advisors.length ≤ 3), "advisors", "لا يمكن إضافة أكثر من 3 مشرفين")]

/-- The fields the error mapping of a validator has an entry for. -/
def validator.Validator.keys (v : validator.Validator) : List String :=
  v.Errors.map (·.1)

/-! ## Runs, invariants and specification-side definitions -/

/-- The project row a lookup by id finds. -/
def Store.project (s : Store) (preProjectID : UUID) : Option PreProject :=
  s.pre_project.find? (fun p => decide (p.ID = preProjectID))

/-- The response rows of a project, in table order. -/
def Store.responses (s : Store) (preProjectID : UUID) : List AdvisorResponse :=
  s.advisor_responses.filter (fun r => decide (r.PreProjectID = preProjectID))

/-- The response rows of all projects but one, in table order. -/
def Store.otherResponses (s : Store) (preProjectID : UUID) : List AdvisorResponse :=
  s.advisor_responses.filter (fun r => decide (r.PreProjectID ≠ preProjectID))

/-- The status recorded for a (project, advisor) pair, if the pair has a row. -/
def Store.status (s : Store) (preProjectID advisorID : UUID) : Option String :=
  (s.advisor_responses.find?
    (fun r => decide (r.PreProjectID = preProjectID ∧ r.AdvisorID = advisorID))).map (·.Status)

/-- The data-model invariant of the accepted advisor: the accepted advisor of
every project is absent or has a response row "accepted" for that project,
and a project has at most one response row "accepted". -/
def Store.AcceptedAdvisorInvariant (s : Store) : Prop :=
  ∀ p ∈ s.pre_project,
    (p.AcceptedAdvisor = none ∨
      ∃ r ∈ s.advisor_responses,
        r.PreProjectID = p.ID ∧ p.AcceptedAdvisor = some r.AdvisorID ∧ r.Status = "accepted") ∧
    ((s.responses p.ID).filter (fun r => decide (r.Status = "accepted"))).length ≤ 1

instance (s : Store) : Decidable s.AcceptedAdvisorInvariant := by
  unfold Store.AcceptedAdvisorInvariant
  infer_instance

/-- The states reachable from the empty store through Create, Submit response,
Reset advisors and Update (the handler, which decides what `UpdatePreProject`
is called with), each run to its end before the next starts. -/
inductive Reachable : Store → Prop where
  | empty : Reachable Store.empty
  | create (fault : Nat → Bool) (newID now : Nat) (s : Store) (preProject : PreProject)
      (studentIDs advisorIDs : List UUID) :
      Reachable s →
      Reachable (InsertPreProject fault newID now s preProject studentIDs advisorIDs).2
  | respond (fault : Nat → Bool) (now : Nat) (s : Store) (preProjectID advisorID : UUID)
      (status : String) :
      Reachable s → Reachable (InsertAdvisorResponse fault now s preProjectID advisorID status).2
  | reset (fault : Nat → Bool) (s : Store) (preProjectID : UUID) :
      Reachable s → Reachable (ResetPreProjectAdvisors fault s preProjectID).2
  | update (Domain : String) (fault : Nat → Bool) (now : Nat) (currentYear : Int) (s : Store)
      (preProjectID : UUID) (form : UpdateForm) :
      Reachable s →
      Reachable (UpdatePreProjectHandler Domain fault now currentYear s preProjectID form).2

/-- Advisors submitting "accepted" for one project one after the other, in
the order of the list; `now` gives the time of each advisor's call. -/
def acceptInOrder (now : UUID → Nat) (preProjectID : UUID) : List UUID → Store → Store
  | [], s => s
  | a :: order, s =>
    acceptInOrder now preProjectID order
      (InsertAdvisorResponse noFault (now a) s preProjectID a "accepted").2

/-- One Submit response request. -/
structure SubmitCall where
  fault : Nat → Bool
  now : Nat
  advisorUUID : UUID
  preProjectUUID : UUID
  status : String

/-- A sequence of Submit response requests, each handled to its end before the
next one. -/
def runSubmits : List SubmitCall → Store → Store
  | [], s => s
  | c :: calls, s =>
    runSubmits calls
      (RespondToPreProjectHandler c.fault c.now s c.advisorUUID c.preProjectUUID c.status).2

/-- Calls of `InsertAdvisorResponse` for one project, each run to its end
before the next one; the project id of an entry is not read. -/
def submitInOrder (preProjectID : UUID) : List SubmitCall → Store → Store
  | [], s => s
  | c :: calls, s =>
    submitInOrder preProjectID calls
      (InsertAdvisorResponse c.fault c.now s preProjectID c.advisorUUID c.status).2

/-- The row-wise effect of a successful accept by advisor `w` on the rows of
the project. -/
def settle (now : Nat) (w : UUID) (r : AdvisorResponse) : AdvisorResponse :=
  if r.AdvisorID = w then { r with Status := "accepted", UpdatedAt := now }
  else { r with Status := "rejected" }

/-- The ids of a list in order, with every repeat after the first removed. -/
def removeRepeats : List UUID → List UUID
  | [] => []
  | x :: xs => x :: (removeRepeats xs).filter (fun y => decide (y ≠ x))

/-- The non-nil ids of one column of the rows, in row order. -/
def columnIds (key : JoinRow → UUID) (rows : List JoinRow) : List UUID :=
  (rows.map key).filter (fun id => decide (id ≠ uuid.Nil))

/-- The rows whose id in the given column is non-nil, was not seen before and
is not in `seen`: the rows from which the decoder loop builds an entry. -/
def keepFirst (key : JoinRow → UUID) : List UUID → List JoinRow → List JoinRow
  | _, [] => []
  | seen, row :: rows =>
    if key row ≠ uuid.Nil ∧ key row ∉ seen then row :: keepFirst key (key row :: seen) rows
    else keepFirst key seen rows

/-- A joined row with no relation detail: every relation id is `uuid.Nil`. -/
def JoinRow.bare (row : JoinRow) : Prop :=
  row.AdvisorID = uuid.Nil ∧ row.StudentID = uuid.Nil ∧ row.DiscussantID = uuid.Nil

/-- The ids of the students with a membership row of the project. -/
def Store.studentIDs (s : Store) (preProjectID : UUID) : List UUID :=
  (s.pre_project_students.filter (fun r => decide (r.PreProjectID = preProjectID))).map
    (·.StudentID)

/-- The ids of the advisors with a response row for the project. -/
def Store.advisorIDs (s : Store) (preProjectID : UUID) : List UUID :=
  (s.responses preProjectID).map (·.AdvisorID)

/-- The ids of the discussants of the project. -/
def Store.discussantIDs (s : Store) (preProjectID : UUID) : List UUID :=
  (s.pre_project_discussants.filter (fun r => decide (r.PreProjectID = preProjectID))).map
    (·.DiscussantID)

/-- An Update request that supplies only a year: every other form value is
empty and no file is uploaded. -/
def UpdateForm.yearOnly (roles : Option (List String)) (year : Int) : UpdateForm :=
  { roles := roles, name := "", can_update := .absent, description := "",
    year := .value year, season := "", degree := .absent, file := .missing,
    file_description := "", students := .absent, advisors := .absent,
    discutants := .absent }

/-! ## Concrete stores used as examples -/

/-- A valid candidate project. -/
def exampleProject : PreProject :=
  ⟨0, "Campus navigation", some "Indoor navigation for the campus", none, none, 10, none,
    2026, "fall", true, none, 0, 0⟩

/-- The store after Create of `exampleProject` with student 10 and advisors 20 and 21. -/
def exampleCreated : Store :=
  (InsertPreProject noFault 1 5 Store.empty exampleProject [10] [20, 21]).2

/-- The store after advisor 21 rejected project 1 of `exampleCreated` through
the handler. -/
def exampleRejected : Store :=
  (RespondToPreProjectHandler noFault 6 exampleCreated 21 1 "rejected").2

/-- The store after advisor 20 accepted project 1 of `exampleCreated`. -/
def exampleAccepted : Store :=
  (InsertAdvisorResponse noFault 7 exampleCreated 1 20 "accepted").2

/-- An Update request of an administrator that supplies a year and a degree
and nothing else. -/
def exampleUpdateForm : UpdateForm :=
  { roles := some ["admin"], name := "", can_update := .absent, description := "",
    year := .value 2027, season := "", degree := .value 90, file := .missing,
    file_description := "", students := .absent, advisors := .absent, discutants := .absent }

/-- The store after the Update request `exampleUpdateForm` on project 1 of
`exampleAccepted`, in the year 2026. -/
def exampleUpdated : Store :=
  (UpdatePreProjectHandler "http://localhost" noFault 9 2026 exampleAccepted 1
    exampleUpdateForm).2

/-- The store after the accept of advisor 21 that checked the slot of project
1 on `exampleCreated` and ran its later statements on `exampleAccepted`, that
is after the accept of advisor 20 was committed in between. -/
def exampleLostClaim : Store :=
  (InsertAdvisorResponseRC noFault 9 exampleCreated exampleAccepted 1 21 "accepted").2

/-- A valid candidate with a degree. -/
def exampleGraded : PreProject := { exampleProject with Degree := some 90 }

/-- The candidate `exampleGraded` with an empty description. -/
def exampleNoDescription : PreProject := { exampleGraded with Description := some "" }

/-- The candidate `exampleGraded`, which has no file, with a file description
of 1001 bytes. -/
def exampleLongFileDescription : PreProject :=
  { exampleGraded with FileDescription := some ⟨List.replicate 1001 'a'⟩ }

/-- A Create request of user 10 with valid fields: a name of 17 bytes, a
description, the current year, season fall, no listed student besides the
owner, and two advisors. -/
def exampleCreateForm : CreateForm :=
  { user := some 10, name := "Campus navigation",
    description := "Indoor navigation for the campus", year := some 2026, season := "fall",
    file := .missing, advisors := [some 20, some 21], students := none,
    file_description := "" }

/-- The store after an Update request of an administrator on project 1 of
`exampleAccepted` that supplies a year, a degree and discussant 30. -/
def exampleDiscussed : Store :=
  (UpdatePreProjectHandler "http://localhost" noFault 9 2026 exampleAccepted 1
    { exampleUpdateForm with discutants := .value [30] }).2

/-! ## Submit response: closed forms -/

theorem project_mem {s : Store} {P : UUID} {p : PreProject} (hp : s.project P = some p) :
    p ∈ s.pre_project ∧ p.ID = P := by
  unfold Store.project at hp
  have h1 := List.mem_of_find?_eq_some hp
  have h2 := List.find?_some hp
  exact ⟨h1, by simpa using h2⟩

theorem selectAcceptedAdvisor_eq {s : Store} {P : UUID} {p : PreProject}
    (hp : s.project P = some p) :
    selectAcceptedAdvisor s P = p.AcceptedAdvisor.getD uuid.Nil := by
  unfold Store.project at hp
  simp [selectAcceptedAdvisor, hp]

theorem claimRows_of_count_zero (now : Nat) (P A : UUID) (projects : List PreProject)
    (h : claimCount P projects = 0) : claimRows now P A projects = projects := by
  unfold claimCount at h
  rw [List.length_eq_zero, List.filter_eq_nil_iff] at h
  unfold claimRows
  conv_rhs => rw [← List.map_id projects]
  apply List.map_congr_left
  intro p hp
  have := h p hp
  simp only [decide_eq_true_eq] at this
  simp [this]

/-- The fault-free run of `InsertAdvisorResponseRC` in closed form. -/
theorem InsertAdvisorResponseRC_noFault (now : Nat) (atCheck s : Store) (P A : UUID)
    (status : String) :
    InsertAdvisorResponseRC noFault now atCheck s P A status =
      if selectAcceptedAdvisor atCheck P ≠ uuid.Nil then (some errAlreadyAccepted, s)
      else if status = "accepted" then
        if claimCount P s.pre_project = 0 then
          (some errAlreadyAccepted,
            { s with advisor_responses := upsertRows now P A status s.advisor_responses })
        else
          (none, { s with
            pre_project := claimRows now P A s.pre_project
            advisor_responses := rejectRows P A (upsertRows now P A status s.advisor_responses) })
      else (none, { s with advisor_responses := upsertRows now P A status s.advisor_responses }) := by
  by_cases h1 : selectAcceptedAdvisor atCheck P = uuid.Nil
  · by_cases h2 : status = "accepted"
    · by_cases h3 : claimCount P s.pre_project = 0
      · simp [InsertAdvisorResponseRC, noFault, Tx.Exec, Tx.Commit, upsertResponse,
          claimAcceptedAdvisor, rejectOtherResponses, h1, h2, h3,
          claimRows_of_count_zero now P A s.pre_project h3]
      · simp [InsertAdvisorResponseRC, noFault, Tx.Exec, Tx.Commit, upsertResponse,
          claimAcceptedAdvisor, rejectOtherResponses, h1, h2, h3]
    · simp [InsertAdvisorResponseRC, noFault, Tx.Exec, Tx.Commit, upsertResponse,
        claimAcceptedAdvisor, rejectOtherResponses, h1, h2]
  · simp [InsertAdvisorResponseRC, noFault, Tx.Exec, Tx.Commit, upsertResponse,
      claimAcceptedAdvisor, rejectOtherResponses, h1]

/-- Whatever fails, a run of `InsertAdvisorResponseRC` either behaves as the
fault-free run or returns an error and commits nothing. -/
theorem InsertAdvisorResponseRC_fault (fault : Nat → Bool) (now : Nat) (atCheck s : Store)
    (P A : UUID) (status : String) :
    InsertAdvisorResponseRC fault now atCheck s P A status =
        InsertAdvisorResponseRC noFault now atCheck s P A status ∨
      ((InsertAdvisorResponseRC fault now atCheck s P A status).1 ≠ none ∧
        (InsertAdvisorResponseRC fault now atCheck s P A status).2 = s) := by
  cases h0 : fault 0
  swap
  · right
    simp [InsertAdvisorResponseRC, h0]
  cases h1 : fault 1
  swap
  · right
    simp [InsertAdvisorResponseRC, h0, h1]
  by_cases hsel : selectAcceptedAdvisor atCheck P = uuid.Nil
  swap
  · left
    simp [InsertAdvisorResponseRC, h0, h1, hsel, noFault]
  cases h2 : fault 2
  swap
  · right
    simp [InsertAdvisorResponseRC, h0, h1, h2, hsel, Tx.Exec]
  by_cases hst : status = "accepted"
  swap
  · left
    simp [InsertAdvisorResponseRC, h0, h1, h2, hsel, hst, Tx.Exec, noFault, upsertResponse]
  cases h3 : fault 3
  swap
  · right
    simp [InsertAdvisorResponseRC, h0, h1, h2, h3, hsel, hst, Tx.Exec, Tx.Commit, upsertResponse]
  by_cases hc : claimCount P s.pre_project = 0
  · left
    simp [InsertAdvisorResponseRC, h0, h1, h2, h3, hsel, hst, hc, Tx.Exec, Tx.Commit, noFault,
      upsertResponse, claimAcceptedAdvisor]
  cases h4 : fault 4
  · left
    simp [InsertAdvisorResponseRC, h0, h1, h2, h3, h4, hsel, hst, hc, Tx.Exec, Tx.Commit,
      noFault, upsertResponse, claimAcceptedAdvisor, rejectOtherResponses]
  · right
    simp [InsertAdvisorResponseRC, h0, h1, h2, h3, h4, hsel, hst, hc, Tx.Exec, Tx.Commit,
      upsertResponse, claimAcceptedAdvisor]

theorem upsertRows_of_mem (now : Nat) (P A : UUID) (status : String)
    (rows : List AdvisorResponse)
    (h : ∃ r ∈ rows, r.PreProjectID = P ∧ r.AdvisorID = A) :
    upsertRows now P A status rows =
      rows.map fun r =>
        if r.PreProjectID = P ∧ r.AdvisorID = A then { r with Status := status, UpdatedAt := now }
        else r := by
  have hany : rows.any (fun r => decide (r.PreProjectID = P ∧ r.AdvisorID = A)) = true := by
    obtain ⟨r, hr, h1, h2⟩ := h
    exact List.any_eq_true.mpr ⟨r, hr, by simp [h1, h2]⟩
  simp only [upsertRows, hany, if_true]

/-- The response table after a successful accept by a solicited advisor. -/
theorem acceptedRows_eq (now : Nat) (P A : UUID) (rows : List AdvisorResponse)
    (h : ∃ r ∈ rows, r.PreProjectID = P ∧ r.AdvisorID = A) :
    rejectRows P A (upsertRows now P A "accepted" rows) =
      rows.map fun r =>
        if r.PreProjectID = P then
          if r.AdvisorID = A then { r with Status := "accepted", UpdatedAt := now }
          else { r with Status := "rejected" }
        else r := by
  rw [upsertRows_of_mem now P A "accepted" rows h]
  unfold rejectRows
  rw [List.map_map]
  apply List.map_congr_left
  intro r _
  by_cases h1 : r.PreProjectID = P <;> by_cases h2 : r.AdvisorID = A <;> simp [h1, h2]

theorem claimRows_find (now : Nat) (P A : UUID) (projects : List PreProject) (p : PreProject)
    (hp : projects.find? (fun q => decide (q.ID = P)) = some p) (hslot : p.AcceptedAdvisor = none) :
    (claimRows now P A projects).find? (fun q => decide (q.ID = P)) =
      some { p with AcceptedAdvisor := some A, UpdatedAt := now } := by
  induction projects with
  | nil => simp at hp
  | cons q qs ih =>
    by_cases hq : q.ID = P
    · have hqp : q = p := by simpa [List.find?, hq] using hp
      subst hqp
      simp [claimRows, List.find?, hq, hslot]
    · have hrest : qs.find? (fun q => decide (q.ID = P)) = some p := by
        simpa [List.find?, hq] using hp
      have := ih hrest
      simp only [claimRows] at this ⊢
      simp [List.find?, hq, this]

theorem claimCount_pos (P : UUID) (projects : List PreProject) (p : PreProject)
    (hp : projects.find? (fun q => decide (q.ID = P)) = some p) (hslot : p.AcceptedAdvisor = none) :
    claimCount P projects ≠ 0 := by
  have h1 := List.mem_of_find?_eq_some hp
  have h2 : p.ID = P := by simpa using List.find?_some hp
  have : p ∈ projects.filter (fun q => decide (q.ID = P ∧ q.AcceptedAdvisor = none)) :=
    List.mem_filter.mpr ⟨h1, by simp [h2, hslot]⟩
  intro h0
  unfold claimCount at h0
  rw [List.length_eq_zero] at h0
  rw [h0] at this
  exact absurd this (List.not_mem_nil _)

/-- A row-wise update that keeps the project id of every row and leaves the
rows of other projects alone does not change the rows of other projects. -/
theorem filter_map_frame (P : UUID) (f : AdvisorResponse → AdvisorResponse)
    (rows : List AdvisorResponse) (hid : ∀ r, (f r).PreProjectID = r.PreProjectID)
    (hframe : ∀ r, r.PreProjectID ≠ P → f r = r) :
    (rows.map f).filter (fun r => decide (r.PreProjectID ≠ P)) =
      rows.filter (fun r => decide (r.PreProjectID ≠ P)) := by
  induction rows with
  | nil => rfl
  | cons r rs ih =>
    by_cases h : r.PreProjectID = P
    · simpa [List.filter, hid, h] using ih
    · simpa [List.filter, hid, h, hframe r h] using ih

/-- A serial accept on a project with an empty slot and a row for the advisor. -/
theorem InsertAdvisorResponse_accept_eq (now : Nat) (s : Store) (P A : UUID) (p : PreProject)
    (hp : s.project P = some p) (hslot : p.AcceptedAdvisor = none)
    (hsol : ∃ r ∈ s.advisor_responses, r.PreProjectID = P ∧ r.AdvisorID = A) :
    InsertAdvisorResponse noFault now s P A "accepted" =
      (none, { s with
        pre_project := claimRows now P A s.pre_project
        advisor_responses := s.advisor_responses.map fun r =>
          if r.PreProjectID = P then
            if r.AdvisorID = A then { r with Status := "accepted", UpdatedAt := now }
            else { r with Status := "rejected" }
          else r }) := by
  unfold InsertAdvisorResponse
  rw [InsertAdvisorResponseRC_noFault, selectAcceptedAdvisor_eq hp, hslot]
  have hc := claimCount_pos P s.pre_project p hp hslot
  simp only [Option.getD_none, ne_eq, not_true_eq_false, if_false, if_true, hc,
    acceptedRows_eq now P A s.advisor_responses hsol]

/-- The project row after a successful accept. -/
theorem project_after_accept (now : Nat) (s : Store) (P A : UUID)
    (p : PreProject) (hp : s.project P = some p) (hslot : p.AcceptedAdvisor = none)
    (hsol : ∃ r ∈ s.advisor_responses, r.PreProjectID = P ∧ r.AdvisorID = A) :
    (InsertAdvisorResponse noFault now s P A "accepted").2.project P =
      some { p with AcceptedAdvisor := some A, UpdatedAt := now } := by
  rw [InsertAdvisorResponse_accept_eq now s P A p hp hslot hsol]
  exact claimRows_find now P A s.pre_project p hp hslot

/-- C1: Submit response with status "accepted" by a solicited advisor, on a
project whose accepted-advisor slot is empty, succeeds; afterwards the project
row names that advisor as accepted advisor, the advisor's response row is
"accepted", every other response row of the project is "rejected", and the
response rows of other projects, as well as the set of (project, advisor)
pairs that have a row, are unchanged. -/
theorem accept_claims_slot_and_rejects_siblings (now : Nat) (s : Store) (P A : UUID)
    (p : PreProject) (hp : s.project P = some p) (hslot : p.AcceptedAdvisor = none)
    (hsol : ∃ r ∈ s.advisor_responses, r.PreProjectID = P ∧ r.AdvisorID = A) :
    (InsertAdvisorResponse noFault now s P A "accepted").1 = none ∧
    (InsertAdvisorResponse noFault now s P A "accepted").2.project P =
      some { p with AcceptedAdvisor := some A, UpdatedAt := now } ∧
    (∃ r ∈ (InsertAdvisorResponse noFault now s P A "accepted").2.responses P,
      r.AdvisorID = A) ∧
    (∀ r ∈ (InsertAdvisorResponse noFault now s P A "accepted").2.responses P,
      r.AdvisorID = A → r.Status = "accepted") ∧
    (∀ r ∈ (InsertAdvisorResponse noFault now s P A "accepted").2.responses P,
      r.AdvisorID ≠ A → r.Status = "rejected") ∧
    (InsertAdvisorResponse noFault now s P A "accepted").2.otherResponses P =
      s.otherResponses P ∧
    (InsertAdvisorResponse noFault now s P A "accepted").2.advisor_responses.map
        (fun r => (r.PreProjectID, r.AdvisorID)) =
      s.advisor_responses.map (fun r => (r.PreProjectID, r.AdvisorID)) := by
  rw [InsertAdvisorResponse_accept_eq now s P A p hp hslot hsol]
  refine ⟨rfl, ?_, ?_, ?_, ?_, ?_, ?_⟩
  · exact claimRows_find now P A s.pre_project p hp hslot
  · obtain ⟨r, hr, h1, h2⟩ := hsol
    refine ⟨{ r with Status := "accepted", UpdatedAt := now }, ?_, h2⟩
    simp only [Store.responses, List.mem_filter, List.mem_map]
    exact ⟨⟨r, hr, by simp [h1, h2]⟩, by simp [h1]⟩
  · intro r hr hA
    simp only [Store.responses, List.mem_filter, List.mem_map] at hr
    obtain ⟨⟨r0, _, hr0⟩, _⟩ := hr
    by_cases h1 : r0.PreProjectID = P <;> by_cases h2 : r0.AdvisorID = A <;>
      simp [h1, h2] at hr0 <;> subst hr0 <;> simp_all
  · intro r hr hA
    simp only [Store.responses, List.mem_filter, List.mem_map] at hr
    obtain ⟨⟨r0, _, hr0⟩, hP⟩ := hr
    by_cases h1 : r0.PreProjectID = P <;> by_cases h2 : r0.AdvisorID = A <;>
      simp [h1, h2] at hr0 <;> subst hr0 <;> simp_all
  · apply filter_map_frame
    · intro r
      by_cases h1 : r.PreProjectID = P <;> by_cases h2 : r.AdvisorID = A <;> simp [h1, h2]
    · intro r h1
      simp [h1]
  · rw [List.map_map]
    apply List.map_congr_left
    intro r _
    by_cases h1 : r.PreProjectID = P <;> by_cases h2 : r.AdvisorID = A <;> simp [h1, h2]

/-- The store `exampleCreated` has project 1 with an empty slot and a row for
advisor 20, and the accept of advisor 20 succeeds on it. -/
theorem accept_claims_slot_and_rejects_siblings_witness :
    exampleCreated.project 1 = some { exampleProject with ID := 1, CreatedAt := 5, UpdatedAt := 5 } ∧
    (InsertAdvisorResponse noFault 7 exampleCreated 1 20 "accepted").1 = none ∧
    (InsertAdvisorResponse noFault 7 exampleCreated 1 20 "accepted").2.project 1 =
      some { exampleProject with ID := 1, CreatedAt := 5, AcceptedAdvisor := some 20,
                                 UpdatedAt := 7 } :=
  have h := accept_claims_slot_and_rejects_siblings 7 exampleCreated 1 20
    { exampleProject with ID := 1, CreatedAt := 5, UpdatedAt := 5 } (by decide) (by decide)
    ⟨⟨1, 20, "pending", 5, 5⟩, by decide, by decide, by decide⟩
  ⟨by decide, h.1, h.2.1⟩

/-! ## Submit response on a project that is taken -/

/-- Once the slot of a project holds a non-nil advisor, a serial
`InsertAdvisorResponse` for that project returns an error and changes nothing,
whatever the advisor, the status and the faults. -/
theorem InsertAdvisorResponse_taken (fault : Nat → Bool) (now : Nat) (s : Store) (P A X : UUID)
    (status : String) (p : PreProject) (hp : s.project P = some p)
    (hX : p.AcceptedAdvisor = some X) (hnil : X ≠ uuid.Nil) :
    (InsertAdvisorResponse fault now s P A status).2 = s ∧
    (InsertAdvisorResponse fault now s P A status).1 ≠ none ∧
    (fault 0 = false → fault 1 = false →
      (InsertAdvisorResponse fault now s P A status).1 = some errAlreadyAccepted) := by
  unfold InsertAdvisorResponse InsertAdvisorResponseRC
  cases h0 : fault 0 <;> cases h1 : fault 1 <;>
    simp [selectAcceptedAdvisor_eq hp, hX, hnil, Tx.Commit]

/-- A `filter` by project id commutes with a row-wise update that keeps project ids. -/
theorem filter_map_same (P : UUID) (f : AdvisorResponse → AdvisorResponse)
    (rows : List AdvisorResponse) (hid : ∀ r, (f r).PreProjectID = r.PreProjectID) :
    (rows.map f).filter (fun r => decide (r.PreProjectID = P)) =
      (rows.filter (fun r => decide (r.PreProjectID = P))).map f := by
  induction rows with
  | nil => rfl
  | cons r rs ih =>
    by_cases h : r.PreProjectID = P
    · simp [List.filter, hid, h, ih]
    · simp [List.filter, hid, h, ih]

theorem acceptInOrder_taken (now : UUID → Nat) (P X : UUID) (order : List UUID) (s : Store)
    (p : PreProject) (hp : s.project P = some p) (hX : p.AcceptedAdvisor = some X)
    (hnil : X ≠ uuid.Nil) : acceptInOrder now P order s = s := by
  induction order with
  | nil => rfl
  | cons a order ih =>
    simp only [acceptInOrder]
    rw [(InsertAdvisorResponse_taken noFault (now a) s P a X "accepted" p hp hX hnil).1]
    exact ih

/-! ## The accept race, one call after the other -/

theorem settle_accepted (now : Nat) (w : UUID) (r : AdvisorResponse) :
    (settle now w r).Status = "accepted" ↔ r.AdvisorID = w := by
  unfold settle
  by_cases h : r.AdvisorID = w <;> simp [h]

theorem settle_rejected (now : Nat) (w : UUID) (r : AdvisorResponse) :
    (settle now w r).Status = "rejected" ↔ r.AdvisorID ≠ w := by
  unfold settle
  by_cases h : r.AdvisorID = w <;> simp [h]

theorem settle_advisor (now : Nat) (w : UUID) (r : AdvisorResponse) :
    (settle now w r).AdvisorID = r.AdvisorID := by
  unfold settle
  by_cases h : r.AdvisorID = w <;> simp [h]

/-- The rows of the project after a successful accept by a solicited advisor. -/
theorem responses_after_accept (now : Nat) (s : Store) (P A : UUID) (p : PreProject)
    (hp : s.project P = some p) (hslot : p.AcceptedAdvisor = none)
    (hsol : ∃ r ∈ s.advisor_responses, r.PreProjectID = P ∧ r.AdvisorID = A) :
    (InsertAdvisorResponse noFault now s P A "accepted").2.responses P =
      (s.responses P).map (settle now A) := by
  rw [InsertAdvisorResponse_accept_eq now s P A p hp hslot hsol]
  simp only [Store.responses]
  rw [filter_map_same]
  · apply List.map_congr_left
    intro r hr
    have hP : r.PreProjectID = P := by simpa using (List.mem_filter.mp hr).2
    simp [settle, hP]
  · intro r
    by_cases h1 : r.PreProjectID = P <;> by_cases h2 : r.AdvisorID = A <;> simp [h1, h2]

theorem count_accepted_settle (now : Nat) (w : UUID) (rows : List AdvisorResponse)
    (hnodup : (rows.map (·.AdvisorID)).Nodup) (hw : w ∈ rows.map (·.AdvisorID)) :
    ((rows.map (settle now w)).filter (fun r => decide (r.Status = "accepted"))).length = 1 ∧
    ((rows.map (settle now w)).filter (fun r => decide (r.Status = "rejected"))).length =
      rows.length - 1 := by
  have hone : (rows.filter (fun r => decide (r.AdvisorID = w))).length = 1 := by
    have h1 := List.count_eq_one_of_mem hnodup hw
    rw [List.count, List.countP_map, List.countP_eq_length_filter] at h1
    rw [← h1]
    rfl
  have hacc : ((rows.map (settle now w)).filter (fun r => decide (r.Status = "accepted"))).length
      = (rows.filter (fun r => decide (r.AdvisorID = w))).length := by
    rw [List.filter_map, List.length_map]
    congr 1
    apply List.filter_congr
    intro r _
    simp [settle_accepted]
  have hrej : ((rows.map (settle now w)).filter (fun r => decide (r.Status = "rejected"))).length
      = (rows.filter (fun r => decide (¬ r.AdvisorID = w))).length := by
    rw [List.filter_map, List.length_map]
    congr 1
    apply List.filter_congr
    intro r _
    simp [settle_rejected]
  refine ⟨by rw [hacc, hone], ?_⟩
  rw [hrej]
  have hsplit := List.length_eq_countP_add_countP (fun r : AdvisorResponse => decide (r.AdvisorID = w)) rows
  rw [List.countP_eq_length_filter, List.countP_eq_length_filter, hone] at hsplit
  have : (rows.filter (fun r => decide (¬ r.AdvisorID = w))).length =
      (rows.filter (fun a => ¬ (decide (a.AdvisorID = w)) = true)).length := by
    congr 1
    apply List.filter_congr
    intro r _
    simp
  omega

/-- The accept race when the calls do not overlap: for a project with an empty
slot whose response rows have pairwise different, non-nil advisors, and for
every order in which its solicited advisors submit "accepted" once each, every
call running to its end before the next one starts, the final state names the
first arrival as accepted advisor, has its row "accepted" and every other row
of the project "rejected".  Calls that overlap are not covered. -/
theorem accept_race_first_arrival_wins (now : UUID → Nat) (s : Store) (P : UUID)
    (p : PreProject) (order : List UUID)
    (hp : s.project P = some p) (hslot : p.AcceptedAdvisor = none)
    (hnodup : ((s.responses P).map (·.AdvisorID)).Nodup)
    (hnil : ∀ r ∈ s.responses P, r.AdvisorID ≠ uuid.Nil)
    (hN : 0 < (s.responses P).length)
    (horder : order.Perm ((s.responses P).map (·.AdvisorID))) :
    ∃ w rest, order = w :: rest ∧
      (acceptInOrder now P order s).project P =
        some { p with AcceptedAdvisor := some w, UpdatedAt := now w } ∧
      ((acceptInOrder now P order s).responses P).map (·.AdvisorID) =
        (s.responses P).map (·.AdvisorID) ∧
      (∀ r ∈ (acceptInOrder now P order s).responses P,
        r.AdvisorID = w → r.Status = "accepted") ∧
      (∀ r ∈ (acceptInOrder now P order s).responses P,
        r.AdvisorID ≠ w → r.Status = "rejected") ∧
      (((acceptInOrder now P order s).responses P).filter
        (fun r => decide (r.Status = "accepted"))).length = 1 ∧
      (((acceptInOrder now P order s).responses P).filter
        (fun r => decide (r.Status = "rejected"))).length = (s.responses P).length - 1 := by
  cases order with
  | nil =>
    have hlen := horder.length_eq
    simp only [List.length_nil, List.length_map] at hlen
    omega
  | cons w rest =>
    refine ⟨w, rest, rfl, ?_⟩
    have hw : w ∈ (s.responses P).map (·.AdvisorID) := horder.subset (List.mem_cons_self _ _)
    obtain ⟨r0, hr0, hr0w⟩ := List.mem_map.mp hw
    have hr0' := List.mem_filter.mp hr0
    have hsol : ∃ r ∈ s.advisor_responses, r.PreProjectID = P ∧ r.AdvisorID = w :=
      ⟨r0, hr0'.1, by simpa using hr0'.2, hr0w⟩
    have hwnil : w ≠ uuid.Nil := hr0w ▸ hnil r0 hr0
    have hc1 := project_after_accept (now w) s P w p hp hslot hsol
    have hrows := responses_after_accept (now w) s P w p hp hslot hsol
    have hfix : acceptInOrder now P (w :: rest) s =
        (InsertAdvisorResponse noFault (now w) s P w "accepted").2 := by
      simp only [acceptInOrder]
      exact acceptInOrder_taken now P w rest _ _ hc1 rfl hwnil
    rw [hfix, hrows]
    refine ⟨hc1, ?_, ?_, ?_, ?_⟩
    · rw [List.map_map]
      apply List.map_congr_left
      intro r _
      exact settle_advisor _ _ _
    · intro r hr hA
      obtain ⟨r1, _, rfl⟩ := List.mem_map.mp hr
      rw [settle_advisor] at hA
      exact (settle_accepted _ _ _).mpr hA
    · intro r hr hA
      obtain ⟨r1, _, rfl⟩ := List.mem_map.mp hr
      rw [settle_advisor] at hA
      exact (settle_rejected _ _ _).mpr hA
    · exact count_accepted_settle (now w) w (s.responses P) hnodup hw

/-- With advisors 20 and 21 solicited for project 1 of `exampleCreated` and
their calls run one after the other in the order 21, 20, exactly one row ends
"accepted". -/
theorem accept_race_first_arrival_wins_witness :
    (((acceptInOrder (fun _ => 7) 1 [21, 20] exampleCreated).responses 1).filter
      (fun r => decide (r.Status = "accepted"))).length = 1 := by
  obtain ⟨w, rest, _, _, _, _, _, h, _⟩ :=
    accept_race_first_arrival_wins (fun _ => 7) exampleCreated 1
      { exampleProject with ID := 1, CreatedAt := 5, UpdatedAt := 5 } [21, 20]
      (by decide) (by decide) (by decide) (by decide) (by decide) (by decide)
  exact h

/-! ## The decoder loop -/

theorem decodeRow_populate_other (st : DecodeState) (row : JoinRow) :
    (decodeRow.populate st row).result.Advisors = st.result.Advisors ∧
    (decodeRow.populate st row).result.Students = st.result.Students ∧
    (decodeRow.populate st row).result.Discussants = st.result.Discussants ∧
    (decodeRow.populate st row).advisorSet = st.advisorSet ∧
    (decodeRow.populate st row).studentSet = st.studentSet ∧
    (decodeRow.populate st row).discussantSet = st.discussantSet := by
  unfold decodeRow.populate
  split_ifs <;> exact ⟨rfl, rfl, rfl, rfl, rfl, rfl⟩

theorem decodeRow_populate_self (st : DecodeState) (row : JoinRow) :
    (decodeRow.populate st row).preProjectPopulated = true ∧
    (decodeRow.populate st row).result.PreProject =
      if st.preProjectPopulated then st.result.PreProject else row.PreProject := by
  unfold decodeRow.populate
  split_ifs with h
  · exact ⟨h, rfl⟩
  · exact ⟨rfl, rfl⟩

theorem decodeRow_advisor_other (st : DecodeState) (row : JoinRow) :
    (decodeRow.advisor st row).result.PreProject = st.result.PreProject ∧
    (decodeRow.advisor st row).preProjectPopulated = st.preProjectPopulated ∧
    (decodeRow.advisor st row).result.Students = st.result.Students ∧
    (decodeRow.advisor st row).result.Discussants = st.result.Discussants ∧
    (decodeRow.advisor st row).studentSet = st.studentSet ∧
    (decodeRow.advisor st row).discussantSet = st.discussantSet := by
  unfold decodeRow.advisor
  split_ifs <;> exact ⟨rfl, rfl, rfl, rfl, rfl, rfl⟩

theorem decodeRow_advisor_self (st : DecodeState) (row : JoinRow) :
    (decodeRow.advisor st row).result.Advisors =
      (if row.AdvisorID ≠ uuid.Nil ∧ row.AdvisorID ∉ st.advisorSet then
        st.result.Advisors ++ [row.advisorDetails]
      else st.result.Advisors) ∧
    (decodeRow.advisor st row).advisorSet =
      (if row.AdvisorID ≠ uuid.Nil ∧ row.AdvisorID ∉ st.advisorSet then
        row.AdvisorID :: st.advisorSet
      else st.advisorSet) := by
  unfold decodeRow.advisor
  split_ifs <;> exact ⟨rfl, rfl⟩

theorem decodeRow_acceptedAdvisor_other (st : DecodeState) (row : JoinRow) :
    (decodeRow.acceptedAdvisor st row).result.PreProject = st.result.PreProject ∧
    (decodeRow.acceptedAdvisor st row).preProjectPopulated = st.preProjectPopulated ∧
    (decodeRow.acceptedAdvisor st row).result.Advisors = st.result.Advisors ∧
    (decodeRow.acceptedAdvisor st row).result.Students = st.result.Students ∧
    (decodeRow.acceptedAdvisor st row).result.Discussants = st.result.Discussants ∧
    (decodeRow.acceptedAdvisor st row).advisorSet = st.advisorSet ∧
    (decodeRow.acceptedAdvisor st row).studentSet = st.studentSet ∧
    (decodeRow.acceptedAdvisor st row).discussantSet = st.discussantSet := by
  unfold decodeRow.acceptedAdvisor
  split_ifs <;> exact ⟨rfl, rfl, rfl, rfl, rfl, rfl, rfl, rfl⟩

theorem decodeRow_student_other (st : DecodeState) (row : JoinRow) :
    (decodeRow.student st row).result.PreProject = st.result.PreProject ∧
    (decodeRow.student st row).preProjectPopulated = st.preProjectPopulated ∧
    (decodeRow.student st row).result.Advisors = st.result.Advisors ∧
    (decodeRow.student st row).result.Discussants = st.result.Discussants ∧
    (decodeRow.student st row).advisorSet = st.advisorSet ∧
    (decodeRow.student st row).discussantSet = st.discussantSet := by
  unfold decodeRow.student
  split_ifs <;> exact ⟨rfl, rfl, rfl, rfl, rfl, rfl⟩

theorem decodeRow_student_self (st : DecodeState) (row : JoinRow) :
    (decodeRow.student st row).result.Students =
      (if row.StudentID ≠ uuid.Nil ∧ row.StudentID ∉ st.studentSet then
        st.result.Students ++ [row.studentDetails]
      else st.result.Students) ∧
    (decodeRow.student st row).studentSet =
      (if row.StudentID ≠ uuid.Nil ∧ row.StudentID ∉ st.studentSet then
        row.StudentID :: st.studentSet
      else st.studentSet) := by
  unfold decodeRow.student
  split_ifs <;> exact ⟨rfl, rfl⟩

theorem decodeRow_discussant_other (st : DecodeState) (row : JoinRow) :
    (decodeRow.discussant st row).result.PreProject = st.result.PreProject ∧
    (decodeRow.discussant st row).preProjectPopulated = st.preProjectPopulated ∧
    (decodeRow.discussant st row).result.Advisors = st.result.Advisors ∧
    (decodeRow.discussant st row).result.Students = st.result.Students ∧
    (decodeRow.discussant st row).advisorSet = st.advisorSet ∧
    (decodeRow.discussant st row).studentSet = st.studentSet := by
  unfold decodeRow.discussant
  split_ifs <;> exact ⟨rfl, rfl, rfl, rfl, rfl, rfl⟩

theorem decodeRow_discussant_self (st : DecodeState) (row : JoinRow) :
    (decodeRow.discussant st row).result.Discussants =
      (if row.DiscussantID ≠ uuid.Nil ∧ row.DiscussantID ∉ st.discussantSet then
        st.result.Discussants ++ [row.discussantDetails]
      else st.result.Discussants) ∧
    (decodeRow.discussant st row).discussantSet =
      (if row.DiscussantID ≠ uuid.Nil ∧ row.DiscussantID ∉ st.discussantSet then
        row.DiscussantID :: st.discussantSet
      else st.discussantSet) := by
  unfold decodeRow.discussant
  split_ifs <;> exact ⟨rfl, rfl⟩

theorem decodeRow_Advisors (st : DecodeState) (row : JoinRow) :
    (decodeRow st row).result.Advisors =
      if row.AdvisorID ≠ uuid.Nil ∧ row.AdvisorID ∉ st.advisorSet then
        st.result.Advisors ++ [row.advisorDetails]
      else st.result.Advisors := by
  unfold decodeRow
  rw [(decodeRow_discussant_other _ row).2.2.1, (decodeRow_student_other _ row).2.2.1,
    (decodeRow_acceptedAdvisor_other _ row).2.2.1, (decodeRow_advisor_self _ row).1,
    (decodeRow_populate_other st row).1, (decodeRow_populate_other st row).2.2.2.1]

theorem decodeRow_advisorSet (st : DecodeState) (row : JoinRow) :
    (decodeRow st row).advisorSet =
      if row.AdvisorID ≠ uuid.Nil ∧ row.AdvisorID ∉ st.advisorSet then
        row.AdvisorID :: st.advisorSet
      else st.advisorSet := by
  unfold decodeRow
  rw [(decodeRow_discussant_other _ row).2.2.2.2.1, (decodeRow_student_other _ row).2.2.2.2.1,
    (decodeRow_acceptedAdvisor_other _ row).2.2.2.2.2.1, (decodeRow_advisor_self _ row).2,
    (decodeRow_populate_other st row).2.2.2.1]

theorem decodeRow_Students (st : DecodeState) (row : JoinRow) :
    (decodeRow st row).result.Students =
      if row.StudentID ≠ uuid.Nil ∧ row.StudentID ∉ st.studentSet then
        st.result.Students ++ [row.studentDetails]
      else st.result.Students := by
  unfold decodeRow
  rw [(decodeRow_discussant_other _ row).2.2.2.1, (decodeRow_student_self _ row).1,
    (decodeRow_acceptedAdvisor_other _ row).2.2.2.1,
    (decodeRow_acceptedAdvisor_other _ row).2.2.2.2.2.2.1,
    (decodeRow_advisor_other _ row).2.2.1, (decodeRow_advisor_other _ row).2.2.2.2.1,
    (decodeRow_populate_other st row).2.1, (decodeRow_populate_other st row).2.2.2.2.1]

theorem decodeRow_studentSet (st : DecodeState) (row : JoinRow) :
    (decodeRow st row).studentSet =
      if row.StudentID ≠ uuid.Nil ∧ row.StudentID ∉ st.studentSet then
        row.StudentID :: st.studentSet
      else st.studentSet := by
  unfold decodeRow
  rw [(decodeRow_discussant_other _ row).2.2.2.2.2, (decodeRow_student_self _ row).2,
    (decodeRow_acceptedAdvisor_other _ row).2.2.2.2.2.2.1,
    (decodeRow_advisor_other _ row).2.2.2.2.1,
    (decodeRow_populate_other st row).2.2.2.2.1]

theorem decodeRow_Discussants (st : DecodeState) (row : JoinRow) :
    (decodeRow st row).result.Discussants =
      if row.DiscussantID ≠ uuid.Nil ∧ row.DiscussantID ∉ st.discussantSet then
        st.result.Discussants ++ [row.discussantDetails]
      else st.result.Discussants := by
  unfold decodeRow
  rw [(decodeRow_discussant_self _ row).1, (decodeRow_student_other _ row).2.2.2.1,
    (decodeRow_student_other _ row).2.2.2.2.2,
    (decodeRow_acceptedAdvisor_other _ row).2.2.2.2.1,
    (decodeRow_acceptedAdvisor_other _ row).2.2.2.2.2.2.2,
    (decodeRow_advisor_other _ row).2.2.2.1, (decodeRow_advisor_other _ row).2.2.2.2.2,
    (decodeRow_populate_other st row).2.2.1, (decodeRow_populate_other st row).2.2.2.2.2]

theorem decodeRow_discussantSet (st : DecodeState) (row : JoinRow) :
    (decodeRow st row).discussantSet =
      if row.DiscussantID ≠ uuid.Nil ∧ row.DiscussantID ∉ st.discussantSet then
        row.DiscussantID :: st.discussantSet
      else st.discussantSet := by
  unfold decodeRow
  rw [(decodeRow_discussant_self _ row).2, (decodeRow_student_other _ row).2.2.2.2.2,
    (decodeRow_acceptedAdvisor_other _ row).2.2.2.2.2.2.2,
    (decodeRow_advisor_other _ row).2.2.2.2.2,
    (decodeRow_populate_other st row).2.2.2.2.2]

theorem decodeRow_populated (st : DecodeState) (row : JoinRow) :
    (decodeRow st row).preProjectPopulated = true := by
  unfold decodeRow
  rw [(decodeRow_discussant_other _ row).2.1, (decodeRow_student_other _ row).2.1,
    (decodeRow_acceptedAdvisor_other _ row).2.1, (decodeRow_advisor_other _ row).2.1,
    (decodeRow_populate_self st row).1]

theorem decodeRow_PreProject (st : DecodeState) (row : JoinRow) :
    (decodeRow st row).result.PreProject =
      if st.preProjectPopulated then st.result.PreProject else row.PreProject := by
  unfold decodeRow
  rw [(decodeRow_discussant_other _ row).1, (decodeRow_student_other _ row).1,
    (decodeRow_acceptedAdvisor_other _ row).1, (decodeRow_advisor_other _ row).1,
    (decodeRow_populate_self st row).2]

theorem foldl_decodeRow_Advisors (rows : List JoinRow) (st : DecodeState) :
    (rows.foldl decodeRow st).result.Advisors =
      st.result.Advisors ++
        (keepFirst (·.AdvisorID) st.advisorSet rows).map JoinRow.advisorDetails := by
  induction rows generalizing st with
  | nil => simp [keepFirst]
  | cons row rows ih =>
    rw [List.foldl_cons, ih, decodeRow_Advisors, decodeRow_advisorSet]
    by_cases h : row.AdvisorID ≠ uuid.Nil ∧ row.AdvisorID ∉ st.advisorSet
    · simp only [h, and_self, if_true, keepFirst, List.map_cons, List.append_assoc,
        List.singleton_append, not_false_eq_true, ne_eq]
    · simp only [h, if_false, keepFirst]

theorem foldl_decodeRow_Students (rows : List JoinRow) (st : DecodeState) :
    (rows.foldl decodeRow st).result.Students =
      st.result.Students ++
        (keepFirst (·.StudentID) st.studentSet rows).map JoinRow.studentDetails := by
  induction rows generalizing st with
  | nil => simp [keepFirst]
  | cons row rows ih =>
    rw [List.foldl_cons, ih, decodeRow_Students, decodeRow_studentSet]
    by_cases h : row.StudentID ≠ uuid.Nil ∧ row.StudentID ∉ st.studentSet
    · simp only [h, and_self, if_true, keepFirst, List.map_cons, List.append_assoc,
        List.singleton_append, not_false_eq_true, ne_eq]
    · simp only [h, if_false, keepFirst]

theorem foldl_decodeRow_Discussants (rows : List JoinRow) (st : DecodeState) :
    (rows.foldl decodeRow st).result.Discussants =
      st.result.Discussants ++
        (keepFirst (·.DiscussantID) st.discussantSet rows).map JoinRow.discussantDetails := by
  induction rows generalizing st with
  | nil => simp [keepFirst]
  | cons row rows ih =>
    rw [List.foldl_cons, ih, decodeRow_Discussants, decodeRow_discussantSet]
    by_cases h : row.DiscussantID ≠ uuid.Nil ∧ row.DiscussantID ∉ st.discussantSet
    · simp only [h, and_self, if_true, keepFirst, List.map_cons, List.append_assoc,
        List.singleton_append, not_false_eq_true, ne_eq]
    · simp only [h, if_false, keepFirst]

theorem foldl_decodeRow_populated (rows : List JoinRow) (st : DecodeState)
    (h : st.preProjectPopulated = true) :
    (rows.foldl decodeRow st).preProjectPopulated = true ∧
      (rows.foldl decodeRow st).result.PreProject = st.result.PreProject := by
  induction rows generalizing st with
  | nil => exact ⟨h, rfl⟩
  | cons row rows ih =>
    rw [List.foldl_cons]
    have := ih (decodeRow st row) (decodeRow_populated st row)
    rw [decodeRow_PreProject, h] at this
    simpa using this

/-! ### The rows the loop keeps, against the wording of the specification -/

theorem mem_removeRepeats (l : List UUID) (a : UUID) : a ∈ removeRepeats l ↔ a ∈ l := by
  induction l with
  | nil => simp [removeRepeats]
  | cons x xs ih =>
    simp only [removeRepeats, List.mem_cons, List.mem_filter, ih, decide_eq_true_eq]
    by_cases h : a = x <;> simp [h]

theorem nodup_removeRepeats (l : List UUID) : (removeRepeats l).Nodup := by
  induction l with
  | nil => simp [removeRepeats]
  | cons x xs ih =>
    simp only [removeRepeats, List.nodup_cons, List.mem_filter, decide_eq_true_eq]
    exact ⟨fun h => h.2 rfl, ih.filter _⟩

theorem length_removeRepeats (l : List UUID) : (removeRepeats l).length = l.toFinset.card := by
  rw [← List.toFinset_card_of_nodup (nodup_removeRepeats l)]
  congr 1
  ext a
  simp [mem_removeRepeats]

theorem keepFirst_ids (key : JoinRow → UUID) (rows : List JoinRow) (seen : List UUID) :
    (keepFirst key seen rows).map key =
      (removeRepeats (columnIds key rows)).filter (fun id => decide (id ∉ seen)) := by
  induction rows generalizing seen with
  | nil => simp [keepFirst, columnIds, removeRepeats]
  | cons row rows ih =>
    by_cases hnil : key row = uuid.Nil
    · have hc : columnIds key (row :: rows) = columnIds key rows := by
        simp [columnIds, List.filter, hnil]
      simp only [keepFirst, hnil, ne_eq, not_true_eq_false, false_and, if_false, hc, ih]
    · have hc : columnIds key (row :: rows) = key row :: columnIds key rows := by
        simp [columnIds, List.filter, hnil]
      rw [hc]
      by_cases hseen : key row ∈ seen
      · simp only [keepFirst, hseen, not_true_eq_false, and_false, if_false, ih, removeRepeats,
          List.filter_cons, decide_False, Bool.false_eq_true, List.filter_filter]
        apply List.filter_congr
        intro a _
        by_cases ha : a = key row <;> simp [ha, hseen]
      · simp only [keepFirst, hnil, hseen, ne_eq, not_false_eq_true, and_self, if_true,
          List.map_cons, ih, removeRepeats, List.filter_cons, decide_True, List.filter_filter]
        congr 1
        apply List.filter_congr
        intro a _
        by_cases ha : a = key row <;> simp [ha]

theorem keepFirst_key (key : JoinRow → UUID) (rows : List JoinRow) (seen : List UUID)
    (r : JoinRow) (h : r ∈ keepFirst key seen rows) : key r ≠ uuid.Nil ∧ key r ∉ seen := by
  have hm : key r ∈ (keepFirst key seen rows).map key := List.mem_map_of_mem _ h
  rw [keepFirst_ids, List.mem_filter, mem_removeRepeats] at hm
  refine ⟨?_, by simpa using hm.2⟩
  have := (List.mem_filter.mp hm.1).2
  simpa using this

theorem keepFirst_find (key : JoinRow → UUID) (rows : List JoinRow) (seen : List UUID)
    (r : JoinRow) (h : r ∈ keepFirst key seen rows) :
    rows.find? (fun x => decide (key x = key r)) = some r := by
  induction rows generalizing seen with
  | nil => simp [keepFirst] at h
  | cons row rows ih =>
    by_cases hc : key row ≠ uuid.Nil ∧ key row ∉ seen
    · rw [keepFirst, if_pos hc, List.mem_cons] at h
      rcases h with rfl | h
      · simp [List.find?]
      · have hk := (keepFirst_key key rows _ r h).2
        have hne : key row ≠ key r := fun e => hk (by simp [e])
        simp only [List.find?, hne, decide_False]
        exact ih _ h
    · rw [keepFirst, if_neg hc] at h
      have hk := keepFirst_key key rows _ r h
      have hne : key row ≠ key r := by
        intro e
        rw [e] at hc
        exact hc hk
      simp only [List.find?, hne, decide_False]
      exact ih _ h

/-- The three lists of the decoder in terms of the rows the loop keeps. -/
theorem decodeRows_lists (rows : List JoinRow) :
    (decodeRows rows).result.Advisors =
        (keepFirst (·.AdvisorID) [] rows).map JoinRow.advisorDetails ∧
    (decodeRows rows).result.Students =
        (keepFirst (·.StudentID) [] rows).map JoinRow.studentDetails ∧
    (decodeRows rows).result.Discussants =
        (keepFirst (·.DiscussantID) [] rows).map JoinRow.discussantDetails := by
  unfold decodeRows
  rw [foldl_decodeRow_Advisors, foldl_decodeRow_Students, foldl_decodeRow_Discussants]
  simp [DecodeState.init]

theorem keepFirst_ids_nil (key : JoinRow → UUID) (rows : List JoinRow) :
    (keepFirst key [] rows).map key = removeRepeats (columnIds key rows) := by
  rw [keepFirst_ids]
  simp

/-- The ids of the three decoded lists. -/
theorem decodeRows_ids (rows : List JoinRow) :
    (decodeRows rows).result.Advisors.map (·.AdvisorID) =
        removeRepeats (columnIds (·.AdvisorID) rows) ∧
    (decodeRows rows).result.Students.map (·.StudentID) =
        removeRepeats (columnIds (·.StudentID) rows) ∧
    (decodeRows rows).result.Discussants.map (·.DiscussantID) =
        removeRepeats (columnIds (·.DiscussantID) rows) := by
  obtain ⟨hA, hS, hD⟩ := decodeRows_lists rows
  refine ⟨?_, ?_, ?_⟩
  · rw [hA, List.map_map, ← keepFirst_ids_nil]
    rfl
  · rw [hS, List.map_map, ← keepFirst_ids_nil]
    rfl
  · rw [hD, List.map_map, ← keepFirst_ids_nil]
    rfl

/-- The decoder on a non-empty row sequence. -/
theorem decode_cons (row : JoinRow) (rest : List JoinRow) :
    decode (row :: rest) = .ok (decodeRows (row :: rest)).result ∧
      (decodeRows (row :: rest)).result.PreProject = row.PreProject := by
  have hpop := foldl_decodeRow_populated rest (decodeRow DecodeState.init row)
    (decodeRow_populated _ _)
  refine ⟨?_, ?_⟩
  · simp only [decode, decodeRows, List.foldl_cons, hpop.1, if_true]
  · simp only [decodeRows, List.foldl_cons, hpop.2, decodeRow_PreProject]
    rfl

/-- C8: for every sequence of joined rows the decoder loop of
`GetPreProjectWithAdvisorDetails` produces advisor, student and discussant
lists whose ids are the non-nil ids of the column in row order with every
repeat after the first removed; every entry carries the detail fields of the
first row in which its id appears: an advisor entry its advisor name, advisor
email, response status and the two response timestamps, a student entry its
student name and email, a discussant entry its discussant name and email; so
each list has as many entries as there are distinct non-nil ids in its column,
no id occurs twice, and a single row whose relation ids are all nil gives
three empty lists. -/
theorem decoder_lists_first_occurrences (rows : List JoinRow) :
    ((decodeRows rows).result.Advisors.map (·.AdvisorID) =
        removeRepeats (columnIds (·.AdvisorID) rows) ∧
      (decodeRows rows).result.Students.map (·.StudentID) =
        removeRepeats (columnIds (·.StudentID) rows) ∧
      (decodeRows rows).result.Discussants.map (·.DiscussantID) =
        removeRepeats (columnIds (·.DiscussantID) rows)) ∧
    ((∀ d ∈ (decodeRows rows).result.Advisors, ∃ r,
        rows.find? (fun x => decide (x.AdvisorID = d.AdvisorID)) = some r ∧
          d.AdvisorID = r.AdvisorID ∧ d.AdvisorName = r.AdvisorName ∧
          d.AdvisorEmail = r.AdvisorEmail ∧ d.Status = r.ResponseStatus ∧
          d.CreatedAt = r.ResponseCreatedAt ∧ d.UpdatedAt = r.ResponseUpdatedAt) ∧
      (∀ d ∈ (decodeRows rows).result.Students, ∃ r,
        rows.find? (fun x => decide (x.StudentID = d.StudentID)) = some r ∧
          d.StudentID = r.StudentID ∧ d.StudentName = r.StudentName ∧
          d.StudentEmail = r.StudentEmail) ∧
      (∀ d ∈ (decodeRows rows).result.Discussants, ∃ r,
        rows.find? (fun x => decide (x.DiscussantID = d.DiscussantID)) = some r ∧
          d.DiscussantID = r.DiscussantID ∧ d.DiscussantName = r.DiscussantName ∧
          d.DiscussantEmail = r.DiscussantEmail)) ∧
    ((decodeRows rows).result.Advisors.length =
        (columnIds (·.AdvisorID) rows).toFinset.card ∧
      (decodeRows rows).result.Students.length =
        (columnIds (·.StudentID) rows).toFinset.card ∧
      (decodeRows rows).result.Discussants.length =
        (columnIds (·.DiscussantID) rows).toFinset.card) ∧
    (((decodeRows rows).result.Advisors.map (·.AdvisorID)).Nodup ∧
      ((decodeRows rows).result.Students.map (·.StudentID)).Nodup ∧
      ((decodeRows rows).result.Discussants.map (·.DiscussantID)).Nodup) ∧
    (∀ row : JoinRow, row.bare →
      (decodeRows [row]).result.Advisors = [] ∧ (decodeRows [row]).result.Students = [] ∧
        (decodeRows [row]).result.Discussants = []) := by
  obtain ⟨hA, hS, hD⟩ := decodeRows_lists rows
  obtain ⟨hAid, hSid, hDid⟩ := decodeRows_ids rows
  refine ⟨⟨hAid, hSid, hDid⟩, ⟨?_, ?_, ?_⟩, ⟨?_, ?_, ?_⟩, ⟨?_, ?_, ?_⟩, ?_⟩
  · intro d hd
    rw [hA] at hd
    obtain ⟨r, hr, rfl⟩ := List.mem_map.mp hd
    exact ⟨r, keepFirst_find (·.AdvisorID) rows [] r hr, rfl, rfl, rfl, rfl, rfl, rfl⟩
  · intro d hd
    rw [hS] at hd
    obtain ⟨r, hr, rfl⟩ := List.mem_map.mp hd
    exact ⟨r, keepFirst_find (·.StudentID) rows [] r hr, rfl, rfl, rfl⟩
  · intro d hd
    rw [hD] at hd
    obtain ⟨r, hr, rfl⟩ := List.mem_map.mp hd
    exact ⟨r, keepFirst_find (·.DiscussantID) rows [] r hr, rfl, rfl, rfl⟩
  · rw [← List.length_map (decodeRows rows).result.Advisors (·.AdvisorID), hAid,
      length_removeRepeats]
  · rw [← List.length_map (decodeRows rows).result.Students (·.StudentID), hSid,
      length_removeRepeats]
  · rw [← List.length_map (decodeRows rows).result.Discussants (·.DiscussantID), hDid,
      length_removeRepeats]
  · rw [hAid]
    exact nodup_removeRepeats _
  · rw [hSid]
    exact nodup_removeRepeats _
  · rw [hDid]
    exact nodup_removeRepeats _
  · intro row hbare
    obtain ⟨h1, h2, h3⟩ := hbare
    obtain ⟨hA1, hS1, hD1⟩ := decodeRows_lists [row]
    rw [hA1, hS1, hD1]
    simp [keepFirst, h1, h2, h3]

/-- C9: the decoder of `GetPreProjectWithAdvisorDetails` reports
`ErrRecordNotFound` exactly when the row sequence is empty; for every
non-empty row sequence it returns an aggregate, whatever the relation ids of
the rows are, and the project fields of the aggregate are those of the first
row. -/
theorem decoder_not_found_iff_no_row (rows : List JoinRow) :
    (decode rows = .error .ErrRecordNotFound ↔ rows = []) ∧
    (∀ row rest, rows = row :: rest →
      ∃ agg, decode rows = .ok agg ∧ agg.PreProject = row.PreProject) := by
  cases rows with
  | nil => exact ⟨⟨fun _ => rfl, fun _ => rfl⟩, fun _ _ h => by cases h⟩
  | cons row rest =>
    obtain ⟨hdec, hproj⟩ := decode_cons row rest
    refine ⟨⟨fun h => ?_, fun h => by cases h⟩, fun row0 rest0 h => ?_⟩
    · rw [hdec] at h
      cases h
    · cases h
      exact ⟨_, hdec, hproj⟩

/-! ## Reset advisors and re-solicitation -/

/-- The fault-free run of `ResetPreProjectAdvisors` in closed form. -/
theorem ResetPreProjectAdvisors_noFault (s : Store) (P : UUID) :
    ResetPreProjectAdvisors noFault s P =
      (none, { s with
        pre_project := s.pre_project.map fun p =>
          if p.ID = P then { p with AcceptedAdvisor := none } else p
        advisor_responses :=
          s.advisor_responses.filter (fun r => decide (r.PreProjectID ≠ P)) }) := by
  simp [ResetPreProjectAdvisors, noFault, Tx.Exec, Tx.Commit, deleteResponses,
    clearAcceptedAdvisor]

/-- Whatever fails, `ResetPreProjectAdvisors` either behaves as the fault-free
run or returns an error and commits nothing. -/
theorem ResetPreProjectAdvisors_fault (fault : Nat → Bool) (s : Store) (P : UUID) :
    ResetPreProjectAdvisors fault s P = ResetPreProjectAdvisors noFault s P ∨
      ((ResetPreProjectAdvisors fault s P).1 ≠ none ∧
        (ResetPreProjectAdvisors fault s P).2 = s) := by
  cases h0 : fault 0
  swap
  · right
    simp [ResetPreProjectAdvisors, h0]
  cases h1 : fault 1
  swap
  · right
    simp [ResetPreProjectAdvisors, h0, h1, Tx.Exec]
  cases h2 : fault 2
  · left
    simp [ResetPreProjectAdvisors, h0, h1, h2, noFault, Tx.Exec, Tx.Commit, deleteResponses,
      clearAcceptedAdvisor]
  · right
    simp [ResetPreProjectAdvisors, h0, h1, h2, Tx.Exec, deleteResponses]

theorem execEach_insertStudentRow (P : UUID) (ids : List UUID) (db : Store) (issued : Nat) :
    execEach noFault (insertStudentRow P) ids ⟨db, false, issued⟩ =
      (true, ⟨{ db with pre_project_students :=
                  db.pre_project_students ++ ids.map fun a => ⟨P, a⟩ }, false,
              issued + ids.length⟩) := by
  induction ids generalizing db issued with
  | nil => simp [execEach]
  | cons a ids ih =>
    simp only [execEach, Tx.Exec, noFault, Bool.or_self, Bool.false_eq_true, if_false,
      insertStudentRow]
    rw [ih]
    simp only [List.map_cons, List.append_assoc, List.singleton_append, List.length_cons,
      Prod.mk.injEq, Tx.mk.injEq, true_and]
    omega

theorem execEach_insertDiscussantRow (P : UUID) (ids : List UUID) (db : Store) (issued : Nat) :
    execEach noFault (insertDiscussantRow P) ids ⟨db, false, issued⟩ =
      (true, ⟨{ db with pre_project_discussants :=
                  db.pre_project_discussants ++ ids.map fun a => ⟨P, a⟩ }, false,
              issued + ids.length⟩) := by
  induction ids generalizing db issued with
  | nil => simp [execEach]
  | cons a ids ih =>
    simp only [execEach, Tx.Exec, noFault, Bool.or_self, Bool.false_eq_true, if_false,
      insertDiscussantRow]
    rw [ih]
    simp only [List.map_cons, List.append_assoc, List.singleton_append, List.length_cons,
      Prod.mk.injEq, Tx.mk.injEq, true_and]
    omega

theorem execEach_insertResponseRow (now : Nat) (status : String) (P : UUID) (ids : List UUID)
    (db : Store) (issued : Nat) (hnodup : ids.Nodup)
    (hfresh : ∀ a ∈ ids, ∀ r ∈ db.advisor_responses, ¬ (r.PreProjectID = P ∧ r.AdvisorID = a)) :
    execEach noFault (insertResponseRow now status P) ids ⟨db, false, issued⟩ =
      (true, ⟨{ db with advisor_responses :=
                  db.advisor_responses ++ ids.map fun a => ⟨P, a, status, now, now⟩ },
              false, issued + ids.length⟩) := by
  induction ids generalizing db issued with
  | nil => simp [execEach]
  | cons a ids ih =>
    have hany : db.advisor_responses.any
        (fun r => decide (r.PreProjectID = P ∧ r.AdvisorID = a)) = false := by
      rw [List.any_eq_false]
      intro r hr
      have := hfresh a (List.mem_cons_self _ _) r hr
      simpa using this
    simp only [execEach, Tx.Exec, noFault, Bool.or_self, Bool.false_eq_true, if_false,
      insertResponseRow, hany]
    have hnd := List.nodup_cons.mp hnodup
    rw [ih _ _ hnd.2 (by
        intro b hb r hr
        simp only [List.mem_append, List.mem_singleton] at hr
        rcases hr with hr | rfl
        · exact hfresh b (List.mem_cons_of_mem _ hb) r hr
        · intro h
          have hab : a = b := h.2
          exact hnd.1 (hab ▸ hb))]
    simp only [List.map_cons, List.append_assoc, List.singleton_append, List.length_cons,
      Prod.mk.injEq, Tx.mk.injEq, true_and]
    omega

theorem replaceRows_students (s : Store) (P : UUID) (ids : List UUID) (db : Store)
    (issued : Nat) (e1 e2 : String) :
    replaceRows noFault s ⟨db, false, issued⟩ ids (deleteStudents P) (insertStudentRow P)
        e1 e2 =
      .ok ⟨{ db with pre_project_students :=
              if ids.length > 0 then
                db.pre_project_students.filter (fun r => decide (r.PreProjectID ≠ P)) ++
                  ids.map fun a => ⟨P, a⟩
              else db.pre_project_students }, false,
            if ids.length > 0 then issued + 1 + ids.length else issued⟩ := by
  by_cases h : ids.length > 0
  · simp only [replaceRows, h, if_true, Tx.Exec, noFault, Bool.or_self, Bool.false_eq_true,
      if_false, deleteStudents, execEach_insertStudentRow]
  · simp only [replaceRows, h, if_false]

theorem replaceRows_discussants (s : Store) (P : UUID) (ids : List UUID) (db : Store)
    (issued : Nat) (e1 e2 : String) :
    replaceRows noFault s ⟨db, false, issued⟩ ids (deleteDiscussants P) (insertDiscussantRow P)
        e1 e2 =
      .ok ⟨{ db with pre_project_discussants :=
              if ids.length > 0 then
                db.pre_project_discussants.filter (fun r => decide (r.PreProjectID ≠ P)) ++
                  ids.map fun a => ⟨P, a⟩
              else db.pre_project_discussants }, false,
            if ids.length > 0 then issued + 1 + ids.length else issued⟩ := by
  by_cases h : ids.length > 0
  · simp only [replaceRows, h, if_true, Tx.Exec, noFault, Bool.or_self, Bool.false_eq_true,
      if_false, deleteDiscussants, execEach_insertDiscussantRow]
  · simp only [replaceRows, h, if_false]

theorem replaceRows_responses (now : Nat) (status : String) (s : Store) (P : UUID)
    (ids : List UUID) (db : Store) (issued : Nat) (e1 e2 : String) (hnodup : ids.Nodup) :
    replaceRows noFault s ⟨db, false, issued⟩ ids (deleteResponses P)
        (insertResponseRow now status P) e1 e2 =
      .ok ⟨{ db with advisor_responses :=
              if ids.length > 0 then
                db.advisor_responses.filter (fun r => decide (r.PreProjectID ≠ P)) ++
                  ids.map fun a => ⟨P, a, status, now, now⟩
              else db.advisor_responses }, false,
            if ids.length > 0 then issued + 1 + ids.length else issued⟩ := by
  by_cases h : ids.length > 0
  · have hfresh : ∀ a ∈ ids, ∀ r ∈
        ({ db with advisor_responses :=
            db.advisor_responses.filter (fun r => decide (r.PreProjectID ≠ P)) } :
          Store).advisor_responses, ¬ (r.PreProjectID = P ∧ r.AdvisorID = a) := by
      intro a _ r hr hra
      have := (List.mem_filter.mp hr).2
      simp only [decide_eq_true_eq] at this
      exact this hra.1
    simp only [replaceRows, h, if_true, Tx.Exec, noFault, Bool.or_self, Bool.false_eq_true,
      if_false, deleteResponses]
    rw [execEach_insertResponseRow now status P ids _ _ hnodup hfresh]
  · simp only [replaceRows, h, if_false]

/-- The fault-free run of `UpdatePreProject` on an existing project with
pairwise different advisor ids, in closed form. -/
theorem UpdatePreProject_noFault (now : Nat) (s : Store) (preProject : PreProject)
    (advisorIDs studentIDs discussantIDs : List UUID)
    (hex : ∃ q ∈ s.pre_project, q.ID = preProject.ID) (hnodup : advisorIDs.Nodup) :
    UpdatePreProject noFault now s preProject advisorIDs studentIDs discussantIDs =
      (none,
        { users := s.users
          pre_project := updatedProjects now preProject s.pre_project
          advisor_responses :=
            if advisorIDs.length > 0 then
              s.advisor_responses.filter (fun r => decide (r.PreProjectID ≠ preProject.ID)) ++
                advisorIDs.map fun a => ⟨preProject.ID, a, statusDefault, now, now⟩
            else s.advisor_responses
          pre_project_students :=
            if studentIDs.length > 0 then
              s.pre_project_students.filter (fun r => decide (r.PreProjectID ≠ preProject.ID)) ++
                studentIDs.map fun a => ⟨preProject.ID, a⟩
            else s.pre_project_students
          pre_project_discussants :=
            if discussantIDs.length > 0 then
              s.pre_project_discussants.filter
                  (fun r => decide (r.PreProjectID ≠ preProject.ID)) ++
                discussantIDs.map fun a => ⟨preProject.ID, a⟩
            else s.pre_project_discussants }) := by
  have hcount : (s.pre_project.filter (fun q => decide (q.ID = preProject.ID))).length ≠ 0 := by
    obtain ⟨q, hq, hid⟩ := hex
    have : q ∈ s.pre_project.filter (fun q => decide (q.ID = preProject.ID)) :=
      List.mem_filter.mpr ⟨hq, by simp [hid]⟩
    intro h0
    rw [List.length_eq_zero] at h0
    rw [h0] at this
    exact absurd this (List.not_mem_nil _)
  simp only [UpdatePreProject, noFault, Bool.false_eq_true, if_false, Tx.Exec, Bool.or_self,
    lockPreProject, updatePreProjectRow, hcount, replaceRows_students, replaceRows_discussants]
  rw [replaceRows_responses now statusDefault s preProject.ID advisorIDs _ _ _ _ hnodup]
  simp only [Tx.Commit, Bool.false_eq_true, if_false]

theorem Reset_success_eq (fault : Nat → Bool) (s : Store) (P : UUID)
    (h : (ResetPreProjectAdvisors fault s P).1 = none) :
    (ResetPreProjectAdvisors fault s P).2 =
      { s with
        pre_project := s.pre_project.map fun p =>
          if p.ID = P then { p with AcceptedAdvisor := none } else p
        advisor_responses :=
          s.advisor_responses.filter (fun r => decide (r.PreProjectID ≠ P)) } := by
  rcases ResetPreProjectAdvisors_fault fault s P with h1 | h1
  · rw [h1, ResetPreProjectAdvisors_noFault]
  · exact absurd h h1.1

/-- C10: a fault-free Reset advisors succeeds on every state; after a
successful Reset advisors on project P, whatever the prior state, P has no
advisor-response row and every project row of P has an empty accepted advisor;
and a following re-solicitation, `UpdatePreProject` of the existing project P
with a list of pairwise different advisors, succeeds and leaves as response
rows of P exactly one row per listed advisor, all "pending" (the column
default of the status), with the accepted advisor still empty. -/
theorem reset_clears_then_resolicit_pending (fault : Nat → Bool) (now : Nat) (s : Store)
    (P : UUID) (preProject : PreProject) (advisorIDs studentIDs discussantIDs : List UUID) :
    (ResetPreProjectAdvisors noFault s P).1 = none ∧
    ((ResetPreProjectAdvisors fault s P).1 = none →
      (ResetPreProjectAdvisors fault s P).2.responses P = [] ∧
      (∀ q ∈ (ResetPreProjectAdvisors fault s P).2.pre_project,
        q.ID = P → q.AcceptedAdvisor = none)) ∧
    ((ResetPreProjectAdvisors fault s P).1 = none → preProject.ID = P →
      (∃ q ∈ s.pre_project, q.ID = P) → advisorIDs.Nodup →
      (UpdatePreProject noFault now (ResetPreProjectAdvisors fault s P).2 preProject
          advisorIDs studentIDs discussantIDs).1 = none ∧
      (UpdatePreProject noFault now (ResetPreProjectAdvisors fault s P).2 preProject
          advisorIDs studentIDs discussantIDs).2.responses P =
        advisorIDs.map (fun a => ⟨P, a, "pending", now, now⟩) ∧
      (∀ q ∈ (UpdatePreProject noFault now (ResetPreProjectAdvisors fault s P).2 preProject
          advisorIDs studentIDs discussantIDs).2.pre_project,
        q.ID = P → q.AcceptedAdvisor = none)) := by
  have hrows : ∀ rows : List AdvisorResponse,
      (rows.filter (fun r => decide (r.PreProjectID ≠ P))).filter
        (fun r => decide (r.PreProjectID = P)) = [] := by
    intro rows
    rw [List.filter_filter, List.filter_eq_nil_iff]
    intro r _
    simp
  have hslot : ∀ q ∈ s.pre_project.map (fun p =>
      if p.ID = P then { p with AcceptedAdvisor := none } else p),
      q.ID = P → q.AcceptedAdvisor = none := by
    intro q hq hqP
    obtain ⟨q0, _, rfl⟩ := List.mem_map.mp hq
    by_cases h0 : q0.ID = P
    · simp [h0]
    · simp [h0] at hqP
  refine ⟨by rw [ResetPreProjectAdvisors_noFault], ?_, ?_⟩
  · intro hok
    rw [Reset_success_eq fault s P hok]
    exact ⟨hrows _, hslot⟩
  · intro hok hid hex hnodup
    rw [Reset_success_eq fault s P hok]
    have hex2 : ∃ q ∈ ({ s with
        pre_project := s.pre_project.map fun p =>
          if p.ID = P then { p with AcceptedAdvisor := none } else p
        advisor_responses :=
          s.advisor_responses.filter (fun r => decide (r.PreProjectID ≠ P)) } :
        Store).pre_project, q.ID = preProject.ID := by
      obtain ⟨q, hq, hqP⟩ := hex
      refine ⟨_, List.mem_map.mpr ⟨q, hq, rfl⟩, ?_⟩
      simp [hqP, hid]
    rw [UpdatePreProject_noFault now _ preProject advisorIDs studentIDs discussantIDs hex2 hnodup]
    refine ⟨rfl, ?_, ?_⟩
    · simp only [Store.responses, hid]
      by_cases hlen : advisorIDs.length > 0
      · simp only [hlen, if_true, List.filter_append]
        have h1 := hrows (s.advisor_responses.filter (fun r => decide (r.PreProjectID ≠ P)))
        have h2 : (advisorIDs.map (fun a => (⟨P, a, statusDefault, now, now⟩ : AdvisorResponse))).filter
            (fun r => decide (r.PreProjectID = P)) =
            advisorIDs.map (fun a => ⟨P, a, "pending", now, now⟩) := by
          rw [List.filter_eq_self.mpr]
          · rfl
          · intro r hr
            obtain ⟨a, _, rfl⟩ := List.mem_map.mp hr
            simp
        rw [h1, h2, List.nil_append]
      · have : advisorIDs = [] := by
          cases advisorIDs with
          | nil => rfl
          | cons a l => simp at hlen
        subst this
        simp only [List.length_nil, gt_iff_lt, lt_self_iff_false, if_false, List.map_nil]
        exact hrows _
    · intro q hq hqP
      simp only [updatedProjects] at hq
      obtain ⟨q0, hq0, rfl⟩ := List.mem_map.mp hq
      have hq0slot : q0.ID = P → q0.AcceptedAdvisor = none := hslot q0 hq0
      by_cases h0 : q0.ID = preProject.ID
      · simp only [h0, if_true]
        exact hq0slot (h0.trans hid)
      · simp only [h0, if_false] at hqP ⊢
        exact hq0slot hqP

/-- Reset advisors on the accepted project 1 of `exampleAccepted`, then a
re-solicitation of advisors 30 and 31, gives two "pending" rows. -/
theorem reset_clears_then_resolicit_pending_witness :
    (UpdatePreProject noFault 9 (ResetPreProjectAdvisors noFault exampleAccepted 1).2
        { exampleProject with ID := 1 } [30, 31] [10] []).2.responses 1 =
      [⟨1, 30, "pending", 9, 9⟩, ⟨1, 31, "pending", 9, 9⟩] :=
  ((reset_clears_then_resolicit_pending noFault 9 exampleAccepted 1
    { exampleProject with ID := 1 } [30, 31] [10] []).2.2
      (by decide) (by decide) (by decide) (by decide)).2.1

/-! ## The join and what the handlers read from it -/

theorem leftJoin_cons {α β : Type} (a : α) (l : List α) (r : List β) (cond : α → β → Bool) :
    ∃ x rest, leftJoin (a :: l) r cond = x :: rest ∧ x.1 = a := by
  unfold leftJoin
  rw [List.flatMap_cons]
  cases h : r.filter (cond a) with
  | nil => exact ⟨(a, none), _, rfl, rfl⟩
  | cons b bs => exact ⟨(a, some b), _, rfl, rfl⟩

theorem leftJoin_left_total {α β : Type} (a : α) (l : List α) (r : List β)
    (cond : α → β → Bool) (ha : a ∈ l) : ∃ x ∈ leftJoin l r cond, x.1 = a := by
  unfold leftJoin
  cases h : r.filter (cond a) with
  | nil =>
    refine ⟨(a, none), ?_, rfl⟩
    rw [List.mem_flatMap]
    exact ⟨a, ha, by simp [h]⟩
  | cons b bs =>
    refine ⟨(a, some b), ?_, rfl⟩
    rw [List.mem_flatMap]
    exact ⟨a, ha, by simp [h]⟩

theorem mem_leftJoin_some {α β : Type} (a : α) (b : β) (l : List α) (r : List β)
    (cond : α → β → Bool) (ha : a ∈ l) (hb : b ∈ r) (hc : cond a b = true) :
    (a, some b) ∈ leftJoin l r cond := by
  unfold leftJoin
  rw [List.mem_flatMap]
  refine ⟨a, ha, ?_⟩
  have hmem : b ∈ r.filter (cond a) := List.mem_filter.mpr ⟨hb, hc⟩
  cases h : r.filter (cond a) with
  | nil => rw [h] at hmem; exact absurd hmem (List.not_mem_nil _)
  | cons b0 bs =>
    rw [h] at hmem
    simp only [List.mem_map]
    exact ⟨b, hmem, rfl⟩

theorem filter_of_find {α : Type} (l : List α) (q : α → Bool) (a : α)
    (h : l.find? q = some a) : ∃ rest, l.filter q = a :: rest := by
  induction l with
  | nil => simp at h
  | cons x xs ih =>
    by_cases hx : q x = true
    · have : x = a := by simpa [List.find?, hx] using h
      subst this
      exact ⟨xs.filter q, by simp [List.filter, hx]⟩
    · have hx2 : q x = false := by simpa using hx
      have hrest : xs.find? q = some a := by simpa [List.find?, hx2] using h
      obtain ⟨rest, hr⟩ := ih hrest
      exact ⟨rest, by simp [List.filter, hx2, hr]⟩

/-- The first joined row repeats the project row a lookup by id finds. -/
theorem preProjectJoin_head (s : Store) (P : UUID) (p : PreProject)
    (hp : s.project P = some p) :
    ∃ row rest, preProjectJoin s P = row :: rest ∧ row.PreProject = p := by
  obtain ⟨rest0, h0⟩ := filter_of_find s.pre_project _ p hp
  unfold preProjectJoin
  simp only [h0]
  obtain ⟨x1, r1, h1, e1⟩ := leftJoin_cons p rest0 s.advisor_responses
    (fun pp ar => decide (ar.PreProjectID = pp.ID))
  rw [h1]
  obtain ⟨x2, r2, h2, e2⟩ := leftJoin_cons x1 r1 s.users
    (fun x u => decide (x.2.map (·.AdvisorID) = some u.ID))
  rw [h2]
  obtain ⟨x3, r3, h3, e3⟩ := leftJoin_cons x2 r2 s.pre_project_students
    (fun x pps => decide (pps.PreProjectID = x.1.1.ID))
  rw [h3]
  obtain ⟨x4, r4, h4, e4⟩ := leftJoin_cons x3 r3 s.users
    (fun x u => decide (x.2.map (·.StudentID) = some u.ID))
  rw [h4]
  obtain ⟨x5, r5, h5, e5⟩ := leftJoin_cons x4 r4 s.users
    (fun x u => decide (x.1.1.1.1.AcceptedAdvisor = some u.ID))
  rw [h5]
  obtain ⟨x6, r6, h6, e6⟩ := leftJoin_cons x5 r5 s.pre_project_discussants
    (fun x ppd => decide (ppd.PreProjectID = x.1.1.1.1.1.ID))
  rw [h6]
  obtain ⟨x7, r7, h7, e7⟩ := leftJoin_cons x6 r6 s.users
    (fun x u => decide (x.2.map (·.DiscussantID) = some u.ID))
  rw [h7]
  refine ⟨_, _, List.map_cons _ _ _, ?_⟩
  obtain ⟨⟨⟨⟨⟨⟨⟨pp, ar⟩, u⟩, pps⟩, student⟩, accepted⟩, ppd⟩, discussant⟩ := x7
  simp only at e7
  subst e7
  simp only at e6
  subst e6
  simp only at e5
  subst e5
  simp only at e4
  subst e4
  simp only at e3
  subst e3
  simp only at e2
  subst e2
  simp only at e1
  subst e1
  rfl

/-- Every response row of the project shows up as the advisor of a joined row. -/
theorem preProjectJoin_advisor (s : Store) (P : UUID) (p : PreProject) (r : AdvisorResponse)
    (hp : s.project P = some p) (hr : r ∈ s.advisor_responses) (hrP : r.PreProjectID = P) :
    ∃ row ∈ preProjectJoin s P, row.AdvisorID = r.AdvisorID := by
  obtain ⟨hmem, hid⟩ := project_mem hp
  have h0 : p ∈ s.pre_project.filter (fun pp => decide (pp.ID = P)) :=
    List.mem_filter.mpr ⟨hmem, by simp [hid]⟩
  have h1 := mem_leftJoin_some p r _ s.advisor_responses
    (fun pp ar => decide (ar.PreProjectID = pp.ID)) h0 hr (by simp [hrP, hid])
  obtain ⟨x2, h2, e2⟩ := leftJoin_left_total _ _ s.users
    (fun x u => decide (x.2.map (·.AdvisorID) = some u.ID)) h1
  obtain ⟨x3, h3, e3⟩ := leftJoin_left_total _ _ s.pre_project_students
    (fun x pps => decide (pps.PreProjectID = x.1.1.ID)) h2
  obtain ⟨x4, h4, e4⟩ := leftJoin_left_total _ _ s.users
    (fun x u => decide (x.2.map (·.StudentID) = some u.ID)) h3
  obtain ⟨x5, h5, e5⟩ := leftJoin_left_total _ _ s.users
    (fun x u => decide (x.1.1.1.1.AcceptedAdvisor = some u.ID)) h4
  obtain ⟨x6, h6, e6⟩ := leftJoin_left_total _ _ s.pre_project_discussants
    (fun x ppd => decide (ppd.PreProjectID = x.1.1.1.1.1.ID)) h5
  obtain ⟨x7, h7, e7⟩ := leftJoin_left_total _ _ s.users
    (fun x u => decide (x.2.map (·.DiscussantID) = some u.ID)) h6
  refine ⟨preProjectJoinColumns x7, List.mem_map.mpr ⟨x7, h7, rfl⟩, ?_⟩
  obtain ⟨⟨⟨⟨⟨⟨⟨pp, ar⟩, u⟩, pps⟩, student⟩, accepted⟩, ppd⟩, discussant⟩ := x7
  simp only at e7
  subst e7
  simp only at e6
  subst e6
  simp only at e5
  subst e5
  simp only at e4
  subst e4
  simp only at e3
  subst e3
  simp only [Prod.mk.injEq] at e2
  obtain ⟨rfl, rfl⟩ := e2
  rfl

/-- What `GetPreProjectWithAdvisorDetails` returns for an existing project: an
aggregate with the project row found by id, whose advisor list has every
non-nil advisor with a response row for the project. -/
theorem GetPreProjectWithAdvisorDetails_ok (s : Store) (P : UUID) (p : PreProject)
    (hp : s.project P = some p) :
    ∃ agg, GetPreProjectWithAdvisorDetails false s P = .ok agg ∧ agg.PreProject = p ∧
      ∀ r ∈ s.advisor_responses, r.PreProjectID = P → r.AdvisorID ≠ uuid.Nil →
        r.AdvisorID ∈ agg.Advisors.map (·.AdvisorID) := by
  obtain ⟨row, rest, hrows, hrow⟩ := preProjectJoin_head s P p hp
  obtain ⟨hdec, hproj⟩ := decode_cons row rest
  rw [← hrows] at hdec hproj
  refine ⟨_, by simp [GetPreProjectWithAdvisorDetails, hdec], hproj.trans hrow, ?_⟩
  intro r hr hrP hnil
  rw [(decodeRows_ids (preProjectJoin s P)).1, mem_removeRepeats]
  obtain ⟨jr, hjr, hjrA⟩ := preProjectJoin_advisor s P p r hp hr hrP
  simp only [columnIds, List.mem_filter, List.mem_map, decide_eq_true_eq]
  exact ⟨⟨jr, hjr, hjrA⟩, hnil⟩

/-! ## Submit response on a taken project, through the handler -/

theorem report_errAlreadyAccepted :
    RespondToPreProjectHandler.report errAlreadyAccepted =
      .errorResponse http.StatusConflict
        "Pre-project has already been accepted by another advisor" := by
  decide

theorem claimCount_of_held (P : UUID) (projects : List PreProject)
    (h : ∀ q ∈ projects, q.ID = P → q.AcceptedAdvisor ≠ none) : claimCount P projects = 0 := by
  unfold claimCount
  rw [List.length_eq_zero, List.filter_eq_nil_iff]
  intro q hq
  have := h q hq
  simp only [decide_eq_true_eq, not_and]
  exact this

/-- A lost race: whatever the check read, when every row of the project is
held the run returns an error and leaves the project table as it was. -/
theorem InsertAdvisorResponseRC_held (fault : Nat → Bool) (now : Nat) (atCheck s : Store)
    (P A : UUID) (h : ∀ q ∈ s.pre_project, q.ID = P → q.AcceptedAdvisor ≠ none) :
    (InsertAdvisorResponseRC fault now atCheck s P A "accepted").1 ≠ none ∧
    (InsertAdvisorResponseRC fault now atCheck s P A "accepted").2.pre_project = s.pre_project ∧
    (InsertAdvisorResponseRC noFault now atCheck s P A "accepted").1 =
      some errAlreadyAccepted := by
  have hc := claimCount_of_held P s.pre_project h
  have hno : (InsertAdvisorResponseRC noFault now atCheck s P A "accepted").1 =
        some errAlreadyAccepted ∧
      (InsertAdvisorResponseRC noFault now atCheck s P A "accepted").2.pre_project =
        s.pre_project := by
    rw [InsertAdvisorResponseRC_noFault]
    by_cases hsel : selectAcceptedAdvisor atCheck P = uuid.Nil
    · simp [hsel, hc]
    · simp [hsel]
  rcases InsertAdvisorResponseRC_fault fault now atCheck s P A "accepted" with h1 | h1
  · rw [h1]
    exact ⟨by rw [hno.1]; simp, hno.2, hno.1⟩
  · exact ⟨h1.1, by rw [h1.2], hno.1⟩

/-- The handler on a request of a solicited advisor for a project another
advisor holds. -/
theorem RespondToPreProjectHandler_taken (now : Nat) (s : Store) (P A X : UUID)
    (status : String) (p : PreProject) (hp : s.project P = some p)
    (hX : p.AcceptedAdvisor = some X) (hXA : X ≠ A) (hXnil : X ≠ uuid.Nil)
    (hst : status ∈ ["pending", "accepted", "rejected"])
    (hAnil : A ≠ uuid.Nil)
    (hsol : ∃ r ∈ s.advisor_responses, r.PreProjectID = P ∧ r.AdvisorID = A) :
    RespondToPreProjectHandler noFault now s A P status =
      (.errorResponse http.StatusConflict
        "Pre-project has already been accepted by another advisor", s) := by
  obtain ⟨agg, hagg, hproj, hadv⟩ := GetPreProjectWithAdvisorDetails_ok s P p hp
  obtain ⟨r, hr, hrP, hrA⟩ := hsol
  have hmem : A ∈ agg.Advisors.map (·.AdvisorID) := hrA ▸ hadv r hr hrP (hrA ▸ hAnil)
  have hne : status ≠ "" := by
    intro h
    rw [h] at hst
    simp at hst
  have hins := InsertAdvisorResponse_taken (fun n => noFault (n + 1)) now s P A X status p hp hX
    hXnil
  have hpair : InsertAdvisorResponse (fun n => noFault (n + 1)) now s P A status =
      (some errAlreadyAccepted, s) :=
    Prod.ext (hins.2.2 rfl rfl) hins.1
  have hvalid : (ValidateAdvisorResponse validator.New A status
      (agg.Advisors.map (·.AdvisorID))).Valid = true := by
    have h1 : validator.In status ["pending", "accepted", "rejected"] = true := by
      simpa [validator.In] using hst
    have h2 : validator.InUUID A (agg.Advisors.map (·.AdvisorID)) = true := by
      simpa [validator.InUUID] using hmem
    simp only [ValidateAdvisorResponse, h1, h2, validator.Validator.Check, if_true]
    rfl
  have hother : ¬ (agg.PreProject.AcceptedAdvisor = some A) := by
    rw [hproj, hX]
    intro h
    exact hXA (Option.some.inj h)
  unfold RespondToPreProjectHandler
  rw [if_neg hne]
  have hq : GetPreProjectWithAdvisorDetails (noFault 0) s P = .ok agg := hagg
  rw [hq]
  simp only [hother, if_false, hvalid, Bool.not_true, Bool.false_eq_true, hpair,
    report_errAlreadyAccepted]

/-- C4: Submit response with status "accepted" for a project whose
accepted-advisor slot is held by a different (non-nil) advisor never succeeds
silently:
the serial call returns an error whatever fails and changes nothing, and when
its first two statements run it returns the AlreadyAccepted error; the same
error comes out of the lost claim (the conditional update that affects zero
rows after a stale check), with the project table unchanged; the handler maps
that error to a Conflict response, which is what a solicited advisor's request
gets, and the accepted advisor is still the earlier winner. -/
theorem accept_on_taken_project_is_conflict (fault : Nat → Bool) (now : Nat)
    (atCheck s : Store) (P A X : UUID) (p : PreProject)
    (hp : s.project P = some p) (hX : p.AcceptedAdvisor = some X) (hXA : X ≠ A)
    (hXnil : X ≠ uuid.Nil) :
    ((InsertAdvisorResponse fault now s P A "accepted").1 ≠ none ∧
      (InsertAdvisorResponse fault now s P A "accepted").2 = s ∧
      (fault 0 = false → fault 1 = false →
        (InsertAdvisorResponse fault now s P A "accepted").1 = some errAlreadyAccepted)) ∧
    ((∀ q ∈ s.pre_project, q.ID = P → q.AcceptedAdvisor ≠ none) →
      (InsertAdvisorResponseRC fault now atCheck s P A "accepted").1 ≠ none ∧
      (InsertAdvisorResponseRC fault now atCheck s P A "accepted").2.pre_project =
        s.pre_project ∧
      (InsertAdvisorResponseRC noFault now atCheck s P A "accepted").1 =
        some errAlreadyAccepted) ∧
    RespondToPreProjectHandler.report errAlreadyAccepted =
      .errorResponse http.StatusConflict
        "Pre-project has already been accepted by another advisor" ∧
    (A ≠ uuid.Nil → (∃ r ∈ s.advisor_responses, r.PreProjectID = P ∧ r.AdvisorID = A) →
      RespondToPreProjectHandler noFault now s A P "accepted" =
        (.errorResponse http.StatusConflict
          "Pre-project has already been accepted by another advisor", s)) := by
  have h1 := InsertAdvisorResponse_taken fault now s P A X "accepted" p hp hX hXnil
  refine ⟨⟨h1.2.1, h1.1, h1.2.2⟩, ?_, report_errAlreadyAccepted, ?_⟩
  · intro hheld
    exact InsertAdvisorResponseRC_held fault now atCheck s P A hheld
  · intro hAnil hsol
    exact RespondToPreProjectHandler_taken now s P A X "accepted" p hp hX hXA hXnil
      (by simp) hAnil hsol

/-- On `exampleAccepted`, where advisor 20 holds project 1, the accept of
advisor 21 is answered with the Conflict response. -/
theorem accept_on_taken_project_is_conflict_witness :
    RespondToPreProjectHandler noFault 9 exampleAccepted 21 1 "accepted" =
      (.errorResponse http.StatusConflict
        "Pre-project has already been accepted by another advisor", exampleAccepted) :=
  (accept_on_taken_project_is_conflict noFault 9 exampleAccepted exampleAccepted 1 21 20
    { exampleProject with ID := 1, CreatedAt := 5, AcceptedAdvisor := some 20, UpdatedAt := 7 }
    (by decide) (by decide) (by decide) (by decide)).2.2.2 (by decide)
    ⟨⟨1, 21, "rejected", 5, 5⟩, by decide, by decide, by decide⟩

/-- C6: re-accept is rejected without effect: for every project whose
accepted advisor is A, a further Submit response of "accepted" by A is
answered by the handler with a Conflict response (whenever the load of the
project works) and leaves the store as it was whatever fails; and
`InsertAdvisorResponse` itself, called for that advisor (a non-nil id),
returns an error, the AlreadyAccepted one when its first two statements run,
and commits nothing. -/
theorem reaccept_is_conflict_without_effect (fault : Nat → Bool) (now : Nat) (s : Store)
    (P A : UUID) (p : PreProject) (hp : s.project P = some p)
    (hA : p.AcceptedAdvisor = some A) :
    (fault 0 = false →
      RespondToPreProjectHandler fault now s A P "accepted" =
        (.errorResponse http.StatusConflict "You Already Accepeted the Project!", s)) ∧
    (RespondToPreProjectHandler fault now s A P "accepted").2 = s ∧
    (A ≠ uuid.Nil →
      (InsertAdvisorResponse fault now s P A "accepted").2 = s ∧
      (InsertAdvisorResponse fault now s P A "accepted").1 ≠ none ∧
      (fault 0 = false → fault 1 = false →
        (InsertAdvisorResponse fault now s P A "accepted").1 = some errAlreadyAccepted)) := by
  obtain ⟨agg, hagg, hproj, _⟩ := GetPreProjectWithAdvisorDetails_ok s P p hp
  have hne : ¬ ("accepted" = "") := by decide
  have hok : fault 0 = false →
      RespondToPreProjectHandler fault now s A P "accepted" =
        (.errorResponse http.StatusConflict "You Already Accepeted the Project!", s) := by
    intro h0
    unfold RespondToPreProjectHandler
    rw [if_neg hne, h0, hagg]
    simp only [hproj, hA, if_true]
  refine ⟨hok, ?_, ?_⟩
  · cases h0 : fault 0
    · rw [hok h0]
    · unfold RespondToPreProjectHandler
      rw [if_neg hne, h0]
      simp [GetPreProjectWithAdvisorDetails]
  · intro hAnil
    exact InsertAdvisorResponse_taken fault now s P A A "accepted" p hp hA hAnil

/-- On `exampleAccepted`, where advisor 20 holds project 1, a second accept of
advisor 20 is answered with a Conflict response and changes nothing. -/
theorem reaccept_is_conflict_without_effect_witness :
    RespondToPreProjectHandler noFault 9 exampleAccepted 20 1 "accepted" =
      (.errorResponse http.StatusConflict "You Already Accepeted the Project!",
        exampleAccepted) :=
  (reaccept_is_conflict_without_effect noFault 9 exampleAccepted 1 20
    { exampleProject with ID := 1, CreatedAt := 5, AcceptedAdvisor := some 20, UpdatedAt := 7 }
    (by decide) (by decide)).1 rfl

/-! ## Statuses under further submissions -/

theorem filter_map_keep (P : UUID) (f : AdvisorResponse → AdvisorResponse)
    (rows : List AdvisorResponse) (hid : ∀ r, (f r).PreProjectID = r.PreProjectID)
    (hkeep : ∀ r, r.PreProjectID = P → f r = r) :
    (rows.map f).filter (fun r => decide (r.PreProjectID = P)) =
      rows.filter (fun r => decide (r.PreProjectID = P)) := by
  induction rows with
  | nil => rfl
  | cons r rs ih =>
    by_cases h : r.PreProjectID = P
    · simp [List.filter, hid, h, ih, hkeep r h]
    · simp [List.filter, hid, h, ih]

theorem upsertRows_frame (now : Nat) (P Q A : UUID) (status : String)
    (rows : List AdvisorResponse) (h : Q ≠ P) :
    (upsertRows now Q A status rows).filter (fun r => decide (r.PreProjectID = P)) =
      rows.filter (fun r => decide (r.PreProjectID = P)) := by
  unfold upsertRows
  split_ifs
  · apply filter_map_keep
    · intro r
      by_cases h1 : r.PreProjectID = Q ∧ r.AdvisorID = A <;> simp [h1]
    · intro r hr
      have : ¬ (r.PreProjectID = Q ∧ r.AdvisorID = A) := fun h1 => h (h1.1.symm.trans hr)
      simp [this]
  · simp [List.filter_append, List.filter, h]

theorem rejectRows_frame (P Q A : UUID) (rows : List AdvisorResponse) (h : Q ≠ P) :
    (rejectRows Q A rows).filter (fun r => decide (r.PreProjectID = P)) =
      rows.filter (fun r => decide (r.PreProjectID = P)) := by
  unfold rejectRows
  apply filter_map_keep
  · intro r
    by_cases h1 : r.PreProjectID = Q ∧ r.AdvisorID ≠ A <;> simp [h1]
  · intro r hr
    have : ¬ (r.PreProjectID = Q ∧ r.AdvisorID ≠ A) := fun h1 => h (h1.1.symm.trans hr)
    simp [this]

theorem claimRows_frame (now : Nat) (P Q A : UUID) (projects : List PreProject) (h : Q ≠ P) :
    (claimRows now Q A projects).find? (fun q => decide (q.ID = P)) =
      projects.find? (fun q => decide (q.ID = P)) := by
  induction projects with
  | nil => rfl
  | cons q qs ih =>
    unfold claimRows at ih ⊢
    rw [List.map_cons, List.find?_cons, List.find?_cons, ih]
    by_cases hc : q.ID = Q ∧ q.AcceptedAdvisor = none
    · rw [if_pos hc]
      have hq : q.ID ≠ P := fun e => h (hc.1.symm.trans e)
      simp [hq]
    · rw [if_neg hc]

/-- A Submit response for one project leaves the response rows and the project
row of every other project as they were. -/
theorem InsertAdvisorResponse_frame (fault : Nat → Bool) (now : Nat) (s : Store)
    (P Q A : UUID) (status : String) (h : Q ≠ P) :
    (InsertAdvisorResponse fault now s Q A status).2.responses P = s.responses P ∧
    (InsertAdvisorResponse fault now s Q A status).2.project P = s.project P := by
  have hno : (InsertAdvisorResponse noFault now s Q A status).2.responses P = s.responses P ∧
      (InsertAdvisorResponse noFault now s Q A status).2.project P = s.project P := by
    unfold InsertAdvisorResponse
    rw [InsertAdvisorResponseRC_noFault]
    simp only [Store.responses, Store.project]
    split_ifs
    · exact ⟨rfl, rfl⟩
    · exact ⟨upsertRows_frame now P Q A status _ h, rfl⟩
    · exact ⟨by rw [rejectRows_frame P Q A _ h, upsertRows_frame now P Q A status _ h],
        claimRows_frame now P Q A _ h⟩
    · exact ⟨upsertRows_frame now P Q A status _ h, rfl⟩
  unfold InsertAdvisorResponse at hno ⊢
  rcases InsertAdvisorResponseRC_fault fault now s s Q A status with h1 | h1
  · rw [h1]
    exact hno
  · rw [h1.2]
    exact ⟨rfl, rfl⟩

/-- The handler changes the store only through `InsertAdvisorResponse`. -/
theorem RespondToPreProjectHandler_store (fault : Nat → Bool) (now : Nat) (s : Store)
    (A P : UUID) (status : String) :
    (RespondToPreProjectHandler fault now s A P status).2 = s ∨
    (RespondToPreProjectHandler fault now s A P status).2 =
      (InsertAdvisorResponse (fun n => fault (n + 1)) now s P A status).2 := by
  unfold RespondToPreProjectHandler
  by_cases h1 : status = ""
  · rw [if_pos h1]
    exact Or.inl rfl
  · rw [if_neg h1]
    cases GetPreProjectWithAdvisorDetails (fault 0) s P with
    | error e => exact Or.inl rfl
    | ok agg =>
      simp only
      by_cases h2 : agg.PreProject.AcceptedAdvisor = some A
      · rw [if_pos h2]
        exact Or.inl rfl
      · rw [if_neg h2]
        by_cases h3 : (!(ValidateAdvisorResponse validator.New A status
            (agg.Advisors.map (·.AdvisorID))).Valid) = true
        · rw [if_pos h3]
          exact Or.inl rfl
        · rw [if_neg h3]
          right
          cases InsertAdvisorResponse (fun n => fault (n + 1)) now s P A status with
          | mk e s2 => cases e <;> rfl

/-- Once the slot of a project holds a non-nil advisor, no sequence of Submit
response requests changes the project row or a response row of the project. -/
theorem runSubmits_taken (calls : List SubmitCall) (s : Store) (P X : UUID) (p : PreProject)
    (hp : s.project P = some p) (hX : p.AcceptedAdvisor = some X) (hXnil : X ≠ uuid.Nil) :
    (runSubmits calls s).project P = some p ∧
    (runSubmits calls s).responses P = s.responses P := by
  induction calls generalizing s with
  | nil => exact ⟨hp, rfl⟩
  | cons c calls ih =>
    simp only [runSubmits]
    have hstep : (RespondToPreProjectHandler c.fault c.now s c.advisorUUID c.preProjectUUID
          c.status).2.project P = some p ∧
        (RespondToPreProjectHandler c.fault c.now s c.advisorUUID c.preProjectUUID
          c.status).2.responses P = s.responses P := by
      rcases RespondToPreProjectHandler_store c.fault c.now s c.advisorUUID c.preProjectUUID
        c.status with h | h
      · rw [h]
        exact ⟨hp, rfl⟩
      · rw [h]
        by_cases hQ : c.preProjectUUID = P
        · rw [hQ, (InsertAdvisorResponse_taken _ c.now s P c.advisorUUID X c.status p hp hX
            hXnil).1]
          exact ⟨hp, rfl⟩
        · have := InsertAdvisorResponse_frame (fun n => c.fault (n + 1)) c.now s P
            c.preProjectUUID c.advisorUUID c.status hQ
          exact ⟨this.2.trans hp, this.1⟩
    have := ih _ hstep.1
    exact ⟨this.1, this.2.trans hstep.2⟩

theorem status_eq_of_responses (s1 s2 : Store) (P A : UUID)
    (h : s1.responses P = s2.responses P) : s1.status P A = s2.status P A := by
  have key : ∀ rows : List AdvisorResponse,
      rows.find? (fun r => decide (r.PreProjectID = P ∧ r.AdvisorID = A)) =
        (rows.filter (fun r => decide (r.PreProjectID = P))).find?
          (fun r => decide (r.AdvisorID = A)) := by
    intro rows
    induction rows with
    | nil => rfl
    | cons r rs ih =>
      by_cases h1 : r.PreProjectID = P <;> by_cases h2 : r.AdvisorID = A <;>
        simp [List.find?, List.filter, h1, h2, ih]
  unfold Store.status
  unfold Store.responses at h
  rw [key, key, h]

/-- Counterexample to C7 as stated: on `exampleRejected` the pair (project 1,
advisor 21) has status "rejected", no advisor is accepted, and one further
Submit response of "accepted" by advisor 21, through the handler and with no
reset, is answered with success and changes the status to "accepted". -/
theorem rejected_status_is_not_terminal :
    exampleRejected.status 1 21 = some "rejected" ∧
    (RespondToPreProjectHandler noFault 8 exampleRejected 21 1 "accepted").1 =
      .SendJSONResponse http.StatusOK "Pre-project accepted successfully" none ∧
    (runSubmits [⟨noFault, 8, 21, 1, "accepted"⟩] exampleRejected).status 1 21 =
      some "accepted" := by
  decide

/-- C7, amended: once a project has an accepted advisor, no response status of
the project changes again without a reset: for every store in which the slot
of project P holds a (non-nil) advisor, every sequence of Submit response
requests (validation followed by `InsertAdvisorResponse`, for any projects,
advisors and statuses, whatever fails) leaves the project row, the response
rows of P and hence the status of every (P, advisor) pair as they were. -/
theorem statuses_fixed_once_project_taken (calls : List SubmitCall) (s : Store) (P X A : UUID)
    (p : PreProject) (hp : s.project P = some p) (hX : p.AcceptedAdvisor = some X)
    (hXnil : X ≠ uuid.Nil) :
    (runSubmits calls s).project P = some p ∧
    (runSubmits calls s).responses P = s.responses P ∧
    (runSubmits calls s).status P A = s.status P A := by
  have h := runSubmits_taken calls s P X p hp hX hXnil
  exact ⟨h.1, h.2, status_eq_of_responses _ _ P A h.2⟩

/-- On `exampleAccepted`, where advisor 20 holds project 1, a Submit response
of "pending" by advisor 21 and one of "accepted" by advisor 20 leave advisor
21 "rejected". -/
theorem statuses_fixed_once_project_taken_witness :
    (runSubmits [⟨noFault, 8, 21, 1, "pending"⟩, ⟨noFault, 9, 20, 1, "accepted"⟩]
      exampleAccepted).status 1 21 = exampleAccepted.status 1 21 :=
  (statuses_fixed_once_project_taken
    [⟨noFault, 8, 21, 1, "pending"⟩, ⟨noFault, 9, 20, 1, "accepted"⟩] exampleAccepted 1 20 21
    { exampleProject with ID := 1, CreatedAt := 5, AcceptedAdvisor := some 20, UpdatedAt := 7 }
    (by decide) (by decide) (by decide)).2.2

/-! ## Where the code departs from the specification -/

/-- C2 at its failing input: in the reachable state `exampleAccepted` (Create
of a project with advisors 20 and 21, then the accept of advisor 20) the
invariant of the accepted advisor holds; an Update request that supplies only
a year and a degree is answered with success and leaves a reachable state in
which the accepted advisor of project 1 is still advisor 20 while the response
row of advisor 20 is "pending": the invariant is broken. -/
theorem update_breaks_accepted_advisor_invariant :
    Reachable exampleAccepted ∧ exampleAccepted.AcceptedAdvisorInvariant ∧
    Reachable exampleUpdated ∧
    (∃ agg, (UpdatePreProjectHandler "http://localhost" noFault 9 2026 exampleAccepted 1
      exampleUpdateForm).1 = .SendJSONResponse http.StatusOK "" (some agg)) ∧
    (exampleUpdated.project 1).map (·.AcceptedAdvisor) = some (some 20) ∧
    exampleUpdated.status 1 20 = some "pending" ∧
    ¬ exampleUpdated.AcceptedAdvisorInvariant := by
  have hr : Reachable exampleAccepted :=
    Reachable.respond noFault 7 exampleCreated 1 20 "accepted"
      (Reachable.create noFault 1 5 Store.empty exampleProject [10] [20, 21] Reachable.empty)
  refine ⟨hr, by decide, ?_, ⟨_, rfl⟩, by decide, by decide, by decide⟩
  exact Reachable.update "http://localhost" noFault 9 2026 exampleAccepted 1 exampleUpdateForm hr

/-- C5 at its failing input: advisor 21 submits "accepted" for project 1; its
check runs while the slot is empty, the accept of advisor 20 is committed, and
the later statements of advisor 21's call run after that.  The call returns
the AlreadyAccepted error, yet the committed store differs from the store
before those statements: the row of advisor 21, "rejected" before, is now
"accepted", next to the "accepted" row of advisor 20. -/
theorem lost_claim_commits_the_upsert :
    (InsertAdvisorResponseRC noFault 9 exampleCreated exampleAccepted 1 21 "accepted").1 =
      some errAlreadyAccepted ∧
    exampleAccepted.status 1 21 = some "rejected" ∧
    exampleLostClaim.status 1 21 = some "accepted" ∧
    exampleLostClaim.status 1 20 = some "accepted" ∧
    exampleLostClaim ≠ exampleAccepted ∧
    ¬ exampleLostClaim.AcceptedAdvisorInvariant := by
  decide

/-- C3 at its failing input: advisors 20 and 21 are solicited for project 1 of
`exampleCreated`, both rows are "pending" and the slot is empty, and each of
the two submits "accepted" once, the two calls overlapping: the check query of
advisor 21 runs while the slot is empty, the call of advisor 20 runs and
commits, and then the later statements of the call of advisor 21 run.  The
call of advisor 20 returns no error and the call of advisor 21 returns the
AlreadyAccepted error.  In the final state advisor 20 is the accepted advisor,
but both rows are "accepted" and no row is "rejected". -/
theorem concurrent_accepts_leave_two_rows_accepted :
    (exampleCreated.project 1).map (·.AcceptedAdvisor) = some none ∧
    (exampleCreated.responses 1).map (fun r => (r.AdvisorID, r.Status)) =
      [(20, "pending"), (21, "pending")] ∧
    InsertAdvisorResponse noFault 7 exampleCreated 1 20 "accepted" = (none, exampleAccepted) ∧
    InsertAdvisorResponseRC noFault 9 exampleCreated exampleAccepted 1 21 "accepted" =
      (some errAlreadyAccepted, exampleLostClaim) ∧
    (exampleLostClaim.project 1).map (·.AcceptedAdvisor) = some (some 20) ∧
    (exampleLostClaim.responses 1).map (fun r => (r.AdvisorID, r.Status)) =
      [(20, "accepted"), (21, "accepted")] ∧
    ((exampleLostClaim.responses 1).filter
      (fun r => decide (r.Status = "accepted"))).length = 2 ∧
    ((exampleLostClaim.responses 1).filter
      (fun r => decide (r.Status = "rejected"))).length = 0 := by
  decide

/-! ## Validation of a candidate project -/

theorem mem_keys_Check (v : validator.Validator) (ok : Bool) (k m key : String) :
    key ∈ (v.Check ok k m).keys ↔ key ∈ v.keys ∨ (ok = false ∧ key = k) := by
  unfold validator.Validator.Check validator.Validator.AddError validator.Validator.keys
  cases ok
  · by_cases h : v.Errors.any (fun e => decide (e.1 = k)) = true
    · simp only [h, if_true, Bool.false_eq_true, if_false, true_and]
      constructor
      · exact Or.inl
      · rintro (h1 | rfl)
        · exact h1
        · obtain ⟨e, he, hk⟩ := List.any_eq_true.mp h
          exact List.mem_map.mpr ⟨e, he, by simpa using hk⟩
    · simp [h]
  · simp

/-- Checks run one after the other on a validator. -/
theorem mem_keys_foldl_Check (checks : List (Bool × String × String)) (v : validator.Validator)
    (key : String) :
    key ∈ (checks.foldl (fun v c => v.Check c.1 c.2.1 c.2.2) v).keys ↔
      key ∈ v.keys ∨ ∃ c ∈ checks, c.1 = false ∧ c.2.1 = key := by
  induction checks generalizing v with
  | nil => simp
  | cons c cs ih =>
    rw [List.foldl_cons, ih, mem_keys_Check]
    constructor
    · rintro ((h | ⟨h1, h2⟩) | ⟨c2, hc2, h⟩)
      · exact Or.inl h
      · exact Or.inr ⟨c, List.mem_cons_self _ _, h1, h2.symm⟩
      · exact Or.inr ⟨c2, List.mem_cons_of_mem _ hc2, h⟩
    · rintro (h | ⟨c2, hc2, h⟩)
      · exact Or.inl (Or.inl h)
      · rcases List.mem_cons.mp hc2 with rfl | hc2
        · exact Or.inl (Or.inr ⟨h.1, h.2.symm⟩)
        · exact Or.inr ⟨c2, hc2, h⟩

/-- `ValidatePreProject` on a candidate whose degree and description are
present returns, and runs the checks of `ValidatePreProject.checks` in order. -/
theorem ValidatePreProject_eq_checks (currentYear : Int) (v : validator.Validator)
    (p : PreProject) (students advisors : List UUID) (d : Int) (desc : String)
    (hd : p.Degree = some d) (hdesc : p.Description = some desc) :
    ValidatePreProject currentYear v p students advisors =
      some ((ValidatePreProject.checks currentYear p d desc students advisors).foldl
        (fun v c => v.Check c.1 c.2.1 c.2.2) v) := by
  simp only [ValidatePreProject, ValidatePreProject.checks, hd, hdesc]
  cases p.File <;> cases p.FileDescription <;> by_cases hd0 : d = 0 <;>
    simp only [hd0, ne_eq, not_true_eq_false, not_false_eq_true, if_true, if_false,
      List.foldl_append, List.foldl_cons, List.foldl_nil, List.append_nil, List.nil_append]

theorem keys_New : validator.New.keys = [] := rfl

theorem Valid_iff_keys (v : validator.Validator) : v.Valid = true ↔ v.keys = [] := by
  simp [validator.Validator.Valid, validator.Validator.keys]

theorem exists_check_nil (key : String) :
    (∃ c ∈ ([] : List (Bool × String × String)), c.1 = false ∧ c.2.1 = key) ↔ False := by
  simp

theorem exists_check_cons (b : Bool) (k m : String) (cs : List (Bool × String × String))
    (key : String) :
    (∃ c ∈ (b, k, m) :: cs, c.1 = false ∧ c.2.1 = key) ↔
      (b = false ∧ k = key) ∨ ∃ c ∈ cs, c.1 = false ∧ c.2.1 = key := by
  simp only [List.mem_cons, exists_eq_or_imp]

theorem exists_check_append (cs ds : List (Bool × String × String)) (key : String) :
    (∃ c ∈ cs ++ ds, c.1 = false ∧ c.2.1 = key) ↔
      (∃ c ∈ cs, c.1 = false ∧ c.2.1 = key) ∨ ∃ c ∈ ds, c.1 = false ∧ c.2.1 = key := by
  simp only [List.mem_append, or_and_right, exists_or]

theorem ValidatePreProject_keys (currentYear : Int) (p : PreProject)
    (students advisors : List UUID) (d : Int) (desc : String)
    (hd : p.Degree = some d) (hdesc : p.Description = some desc) :
    ∃ v, ValidatePreProject currentYear validator.New p students advisors = some v ∧
      ("name" ∈ v.keys ↔
        (p.Name = "" ∨ p.Name.utf8ByteSize < 3 ∨ 600 < p.Name.utf8ByteSize) ∨ desc = "") ∧
      ("degree" ∈ v.keys ↔ d ≠ 0 ∧ (100 < d ∨ d ≤ 0)) ∧
      ("description" ∈ v.keys ↔ desc.utf8ByteSize < 10 ∨ 1500 < desc.utf8ByteSize) ∧
      ("season" ∈ v.keys ↔ ¬ (p.Season = "spring" ∨ p.Season = "fall")) ∧
      ("year" ∈ v.keys ↔ p.Year < currentYear) ∧
      ("project_owner" ∈ v.keys ↔ p.ProjectOwner = uuid.Nil) ∧
      ("file" ∈ v.keys ↔ ∃ f, p.File = some f ∧ f.utf8ByteSize = 0) ∧
      ("file_description" ∈ v.keys ↔
        ∃ f fd, p.File = some f ∧ p.FileDescription = some fd ∧ 1000 < fd.utf8ByteSize) ∧
      ("students" ∈ v.keys ↔ students.length = 0 ∨ 3 < students.length) ∧
      ("advisors" ∈ v.keys ↔ advisors.length = 0 ∨ 3 < advisors.length) := by
  refine ⟨_, ValidatePreProject_eq_checks currentYear validator.New p students advisors d desc
    hd hdesc, ?_⟩
  simp only [mem_keys_foldl_Check, keys_New, List.not_mem_nil, false_or]
  have hdeg : ∀ key, (∃ c ∈ (if d ≠ 0 then
      [(decide (d ≤ 100), "degree", "يجب ان تكون درجة المشروع اقل من 100 درجة"),
       (decide (d > 0), "degree", "يجب ان تكون درجة المشروع موجبة")]
      else []), c.1 = false ∧ c.2.1 = key) ↔
      d ≠ 0 ∧ ((decide (d ≤ 100) = false ∧ "degree" = key) ∨
        (decide (d > 0) = false ∧ "degree" = key)) := by
    intro key
    by_cases hd0 : d = 0
    · simp only [hd0, ne_eq, not_true_eq_false, if_false, exists_check_nil, false_and]
    · simp only [hd0, ne_eq, not_false_eq_true, if_true, exists_check_cons, exists_check_nil,
        or_false, true_and]
  have hfile : ∀ key, (∃ c ∈ (match p.File with
      | some file =>
        [(decide (file.utf8ByteSize > 0), "file", "مسار الملف غير صالح")] ++
        (match p.FileDescription with
         | some fileDescription =>
           [(decide (fileDescription.utf8ByteSize ≤ 1000), "file_description", "لا يمكن لوصف الملف أن يكون أكثر من 1000 حرف")]
         | none => [])
      | none => []), c.1 = false ∧ c.2.1 = key) ↔
      (∃ f, p.File = some f ∧ f.utf8ByteSize = 0 ∧ "file" = key) ∨
      (∃ f fd, p.File = some f ∧ p.FileDescription = some fd ∧ 1000 < fd.utf8ByteSize ∧
        "file_description" = key) := by
    intro key
    cases p.File <;> cases p.FileDescription <;>
      simp [exists_check_append, exists_check_cons, exists_check_nil]
  simp only [ValidatePreProject.checks, exists_check_append, hdeg, hfile, exists_check_cons,
    exists_check_nil, or_false]
  refine ⟨?_, ?_, ?_, ?_, ?_, ?_, ?_, ?_, ?_, ?_⟩
  · simp
  · simp
  · simp
  · have hs : p.Season = "" → ¬ (p.Season = "spring" ∨ p.Season = "fall") := by
      intro h
      rw [h]
      decide
    simp
    intro h
    simpa using hs h
  · simp
  · simp
  · simp
  · simp
  · simp
  · simp


theorem ValidatePreProject_nil_degree (currentYear : Int) (v : validator.Validator)
    (p : PreProject) (students advisors : List UUID) (h : p.Degree = none) :
    ValidatePreProject currentYear v p students advisors = none := by
  simp only [ValidatePreProject, h]

theorem utf8ByteSize_replicate_a (n : Nat) :
    (String.mk (List.replicate n 'a')).utf8ByteSize = n := by
  have h : ∀ cs : List Char, (∀ c ∈ cs, c = 'a') →
      String.utf8ByteSize.go cs = cs.length := by
    intro cs
    induction cs with
    | nil => intro _; rfl
    | cons c cs ih =>
      intro hc
      have hca : c = 'a' := hc c (List.mem_cons_self _ _)
      have := ih (fun x hx => hc x (List.mem_cons_of_mem _ hx))
      simp only [String.utf8ByteSize.go, this, hca, List.length_cons]
      rfl
  simp only [String.utf8ByteSize]
  rw [h _ (fun c hc => List.eq_of_mem_replicate hc), List.length_replicate]

/-- C17: on the candidate `exampleNoDescription`, whose name "Campus navigation"
satisfies the name rule (not empty, 3 to 600 bytes) and whose description is
empty, `ValidatePreProject` records an entry under the key `name`: the mapping
has exactly the keys `name` and `description`. -/
theorem empty_description_is_reported_under_name :
    (exampleNoDescription.Name ≠ "" ∧ 3 ≤ exampleNoDescription.Name.utf8ByteSize ∧
      exampleNoDescription.Name.utf8ByteSize ≤ 600) ∧
    (ValidatePreProject 2026 validator.New exampleNoDescription [10] [20]).map
      validator.Validator.keys = some ["name", "description"] := by
  refine ⟨by decide, ?_⟩
  decide


theorem Valid_false_of_mem_keys (v : validator.Validator) (key : String) (h : key ∈ v.keys) :
    v.Valid = false := by
  cases hv : v.Valid
  · rfl
  · rw [(Valid_iff_keys v).mp hv] at h
    exact absurd h (List.not_mem_nil _)

/-- C18 (counterexample): the candidate `exampleGraded` is valid, and the
same candidate with an empty description, `exampleNoDescription`, is not: its
error mapping is not empty. -/
theorem empty_description_is_rejected :
    (ValidatePreProject 2026 validator.New exampleGraded [10] [20]).map
        validator.Validator.Valid = some true ∧
      exampleNoDescription = { exampleGraded with Description := some "" } ∧
      (ValidatePreProject 2026 validator.New exampleNoDescription [10] [20]).map
        validator.Validator.Valid = some false := by
  decide

/-- C18 (amended): for every candidate whose degree and description are
present, `ValidatePreProject` returns a mapping that has a `description` entry
exactly when the length of the description (in bytes, as `len` counts) is
below 10 or above 1500, and the mapping is not empty when the description is
empty. -/
theorem description_bounds_apply_to_every_description (currentYear : Int) (p : PreProject)
    (students advisors : List UUID) (d : Int) (desc : String)
    (hd : p.Degree = some d) (hdesc : p.Description = some desc) :
    ∃ v, ValidatePreProject currentYear validator.New p students advisors = some v ∧
      ("description" ∈ v.keys ↔ desc.utf8ByteSize < 10 ∨ 1500 < desc.utf8ByteSize) ∧
      (desc = "" → "description" ∈ v.keys ∧ v.Valid = false) := by
  obtain ⟨v, hv, -, -, hdescr, -⟩ :=
    ValidatePreProject_keys currentYear p students advisors d desc hd hdesc
  refine ⟨v, hv, hdescr, ?_⟩
  intro he
  have hmem : "description" ∈ v.keys := hdescr.mpr (Or.inl (by rw [he]; decide))
  exact ⟨hmem, Valid_false_of_mem_keys v _ hmem⟩

theorem description_bounds_apply_to_every_description_witness :
    ∃ v, ValidatePreProject 2026 validator.New exampleNoDescription [10] [20] = some v ∧
      ("description" ∈ v.keys ↔
        ("" : String).utf8ByteSize < 10 ∨ 1500 < ("" : String).utf8ByteSize) ∧
      (("" : String) = "" → "description" ∈ v.keys ∧ v.Valid = false) :=
  description_bounds_apply_to_every_description 2026 exampleNoDescription [10] [20] 90 ""
    rfl rfl

/-- C19: `ValidatePreProject` does not return on a candidate whose degree is
absent: it dereferences the nil `Degree`.  This holds for every candidate, in
particular for the one `CreatePreProjectHandler` builds. -/
theorem validate_dereferences_absent_degree :
    (∀ (currentYear : Int) (v : validator.Validator) (p : PreProject)
        (students advisors : List UUID),
        ValidatePreProject currentYear v { p with Degree := none } students advisors = none) ∧
      ValidatePreProject 2026 validator.New
        (CreatePreProjectHandler.candidate 1 5 10 exampleCreateForm 2026 none) [10]
        [20, 21] = none := by
  refine ⟨fun _ _ _ _ _ => ValidatePreProject_nil_degree _ _ _ _ _ rfl, ?_⟩
  decide

/-- C20 (counterexample): the candidate `exampleLongFileDescription` has a file
description of 1001 bytes and no file, and its error mapping is empty. -/
theorem long_file_description_without_file_passes :
    (∃ fd, exampleLongFileDescription.FileDescription = some fd ∧ 1000 < fd.utf8ByteSize) ∧
      exampleLongFileDescription.File = none ∧
      (ValidatePreProject 2026 validator.New exampleLongFileDescription [10] [20]).map
        validator.Validator.keys = some [] := by
  refine ⟨⟨_, rfl, ?_⟩, rfl, ?_⟩
  · rw [utf8ByteSize_replicate_a]
    decide
  · decide

/-- C20 (amended): for every candidate that has a file description (and whose
degree and description are present), the error mapping has a
`file_description` entry exactly when a file reference is attached and the
file description is longer than 1000 bytes. -/
theorem file_description_bound_needs_a_file (currentYear : Int) (p : PreProject)
    (students advisors : List UUID) (d : Int) (desc fd : String)
    (hd : p.Degree = some d) (hdesc : p.Description = some desc)
    (hfd : p.FileDescription = some fd) :
    ∃ v, ValidatePreProject currentYear validator.New p students advisors = some v ∧
      ("file_description" ∈ v.keys ↔ p.File ≠ none ∧ 1000 < fd.utf8ByteSize) := by
  obtain ⟨v, hv, -, -, -, -, -, -, -, hfile, -⟩ :=
    ValidatePreProject_keys currentYear p students advisors d desc hd hdesc
  refine ⟨v, hv, hfile.trans ?_⟩
  constructor
  · rintro ⟨f, fd2, hf, hfd2, hlt⟩
    rw [hfd] at hfd2
    cases hfd2
    exact ⟨by simp [hf], hlt⟩
  · rintro ⟨hf, hlt⟩
    cases hF : p.File with
    | none => exact absurd hF hf
    | some f => exact ⟨f, fd, rfl, hfd, hlt⟩

theorem file_description_bound_needs_a_file_witness :
    ∃ v, ValidatePreProject 2026 validator.New
        { exampleLongFileDescription with File := some "report.pdf" } [10] [20] = some v ∧
      ("file_description" ∈ v.keys ↔
        ({ exampleLongFileDescription with File := some "report.pdf" } : PreProject).File ≠
            none ∧
          1000 < (String.mk (List.replicate 1001 'a')).utf8ByteSize) :=
  file_description_bound_needs_a_file 2026
    { exampleLongFileDescription with File := some "report.pdf" } [10] [20] 90
    "Indoor navigation for the campus" ⟨List.replicate 1001 'a'⟩ rfl rfl rfl

/-! ## Create -/

theorem ValidatePreProject_candidate (currentYear : Int) (v : validator.Validator)
    (newID now : Nat) (usersID : UUID) (form : CreateForm) (year : Int) (file : Option String)
    (students advisors : List UUID) :
    ValidatePreProject currentYear v
      (CreatePreProjectHandler.candidate newID now usersID form year file) students advisors =
      none :=
  ValidatePreProject_nil_degree _ _ _ _ _ rfl

theorem CreatePreProjectHandler_students_error (checkFault : Nat → Bool) (s : Store)
    (listed : List (String × Option UUID)) (i : Nat) (studentIDs : List UUID)
    (response : Response)
    (h : CreatePreProjectHandler.students checkFault s listed i studentIDs = .error response) :
    ∀ status preProject, response ≠ .SendJSONPreProject status preProject := by
  induction listed generalizing i studentIDs with
  | nil => simp [CreatePreProjectHandler.students] at h
  | cons e rest ih =>
    obtain ⟨email, resolved⟩ := e
    cases resolved with
    | none =>
      simp only [CreatePreProjectHandler.students, Except.error.injEq] at h
      subst h
      intro _ _ hc
      cases hc
    | some studentID =>
      simp only [CreatePreProjectHandler.students] at h
      split at h
      · simp only [Except.error.injEq] at h
        subst h
        intro _ _ hc
        cases hc
      · simp only [Except.error.injEq] at h
        subst h
        intro _ _ hc
        cases hc
      · exact ih _ _ h

/-- `CreatePreProjectHandler` never reaches `InsertPreProject`: whatever the
request, the store is the one it started on and the response is not the
`201 Created` one. -/
theorem CreatePreProjectHandler_no_insert (checkFault fault : Nat → Bool) (newID now : Nat)
    (currentYear : Int) (s : Store) (form : CreateForm) :
    (CreatePreProjectHandler checkFault fault newID now currentYear s form).2 = s ∧
      ∀ status preProject,
        (CreatePreProjectHandler checkFault fault newID now currentYear s form).1 ≠
          .SendJSONPreProject status preProject := by
  simp only [CreatePreProjectHandler, ValidatePreProject_candidate]
  split
  · exact ⟨rfl, fun _ _ h => by cases h⟩
  · split
    · exact ⟨rfl, fun _ _ h => by cases h⟩
    · split
      · rename_i response hfile
        refine ⟨rfl, fun _ _ h => ?_⟩
        simp only at h
        subst h
        cases hf : form.file <;> simp [hf] at hfile
      · split
        · exact ⟨rfl, fun _ _ h => by cases h⟩
        · split
          · rename_i usersID _ _ _ _ _ _ _ _ _ response hst
            refine ⟨rfl, ?_⟩
            cases hs : form.students with
            | none => simp [hs] at hst
            | some listed =>
              simp only [hs] at hst
              exact CreatePreProjectHandler_students_error _ _ _ _ _ _ hst
          · exact ⟨rfl, fun _ _ h => by cases h⟩

/-- C11: the Create request `exampleCreateForm` has a name of 17 bytes, a
description, the current year, season fall, one student (the owner) and two
advisors, and `InsertPreProject` on its candidate stores the project with
student 10 and one "pending" row per advisor; yet `CreatePreProjectHandler`
answers it with the nil dereference of `ValidatePreProject` and stores
nothing.  No request is answered with `201 Created`. -/
theorem create_with_valid_input_stores_nothing :
    CreatePreProjectHandler noFault noFault 1 5 2026 Store.empty exampleCreateForm =
        (.nilDereference, Store.empty) ∧
      (InsertPreProject noFault 1 5 Store.empty
          (CreatePreProjectHandler.candidate 1 5 10 exampleCreateForm 2026 none) [10]
          [20, 21]).1 = none ∧
      (InsertPreProject noFault 1 5 Store.empty
          (CreatePreProjectHandler.candidate 1 5 10 exampleCreateForm 2026 none) [10]
          [20, 21]).2.pre_project_students = [⟨1, 10⟩] ∧
      (InsertPreProject noFault 1 5 Store.empty
          (CreatePreProjectHandler.candidate 1 5 10 exampleCreateForm 2026 none) [10]
          [20, 21]).2.advisor_responses =
        [⟨1, 20, "pending", 5, 5⟩, ⟨1, 21, "pending", 5, 5⟩] ∧
      ∀ (checkFault fault : Nat → Bool) (newID now : Nat) (currentYear : Int) (s : Store)
        (form : CreateForm),
        (CreatePreProjectHandler checkFault fault newID now currentYear s form).2 = s ∧
          ∀ status preProject,
            (CreatePreProjectHandler checkFault fault newID now currentYear s form).1 ≠
              .SendJSONPreProject status preProject :=
  ⟨by decide, by decide, by decide, by decide, CreatePreProjectHandler_no_insert⟩

/-! ## Delete -/

theorem DeletePreProject_errors (fault : Nat → Bool) (s : Store) (P requester : UUID) :
    (DeletePreProject fault s P requester).1 ∈
        [none, some "failed to start transaction", some "failed to lock pre-project",
         some "failed to check pre-project existence", some "pre-project not found",
         some "failed to check project owner", some "failed to retrieve file information",
         some "failed to delete pre-project", some "no pre-project found"] := by
  simp only [DeletePreProject, Tx.Exec, lockPreProject, deletePreProjectRow, Bool.false_or]
  split_ifs <;> try simp
  by_cases h5 : fault 5 = true
  · simp [h5]
  · simp only [h5, if_false, Bool.false_eq_true]
    by_cases hr : (List.filter (fun p => decide (p.ID = P)) s.pre_project).length = 0
    · simp only [hr, if_true]
      simp
    · simp only [hr, if_false]
      simp

theorem DeletePreProjectHandler_report_errors :
    ∀ err ∈ ["failed to start transaction", "failed to lock pre-project",
         "failed to check pre-project existence", "pre-project not found",
         "failed to check project owner", "failed to retrieve file information",
         "failed to delete pre-project", "no pre-project found"],
      DeletePreProjectHandler.report err =
          .errorResponse http.StatusNotFound "Pre-project not found" ∨
        DeletePreProjectHandler.report err = .serverErrorResponse err := by
  decide

/-- `DeletePreProjectHandler` never answers `403 Forbidden`. -/
theorem DeletePreProjectHandler_not_forbidden (fault : Nat → Bool) (s : Store)
    (requester P : UUID) (message : String) :
    (DeletePreProjectHandler fault s requester P).1 ≠
      .errorResponse http.StatusForbidden message := by
  have herr := DeletePreProject_errors fault s P requester
  simp only [DeletePreProjectHandler]
  rcases hres : DeletePreProject fault s P requester with ⟨_ | err, s'⟩
  · simp
  · rw [hres] at herr
    have hmem : err ∈ ["failed to start transaction", "failed to lock pre-project",
         "failed to check pre-project existence", "pre-project not found",
         "failed to check project owner", "failed to retrieve file information",
         "failed to delete pre-project", "no pre-project found"] := by
      simpa using herr
    rcases DeletePreProjectHandler_report_errors err hmem with h | h
    · simp only [h]
      intro hc
      simp only [Response.errorResponse.injEq] at hc
      exact absurd hc.1 (by decide)
    · simp only [h]
      intro hc
      cases hc

/-- C13: project 1 of `exampleCreated` is owned by student 10, and the Delete
request of student 11 for it is answered with `200` and removes the project
row.  No Delete request is ever answered with `403 Forbidden`. -/
theorem delete_by_non_owner_removes_the_project :
    (exampleCreated.project 1).map (·.ProjectOwner) = some 10 ∧
      DeletePreProjectHandler noFault exampleCreated 11 1 =
        (.SendJSONResponse http.StatusOK "Pre-project deleted successfully" none,
          { exampleCreated with pre_project := [] }) ∧
      (DeletePreProjectHandler noFault exampleCreated 11 1).2.project 1 = none ∧
      ∀ (fault : Nat → Bool) (s : Store) (requester P : UUID) (message : String),
        (DeletePreProjectHandler fault s requester P).1 ≠
          .errorResponse http.StatusForbidden message :=
  ⟨by decide, by decide, by decide, DeletePreProjectHandler_not_forbidden⟩

/-! ## The duplicate check of Create -/

theorem Exec_dichotomy (fault : Nat → Bool) (tx : Tx) (stmt : Store → Option (Store × Nat))
    (hf : tx.failed = false) :
    (∃ n tx', tx.Exec fault stmt = (some n, tx') ∧ tx.Exec noFault stmt = (some n, tx') ∧
        tx'.failed = false) ∨
      (∃ tx', tx.Exec fault stmt = (none, tx') ∧ tx'.failed = true) := by
  simp only [Tx.Exec, hf, Bool.false_or, noFault, Bool.false_eq_true, if_false]
  by_cases h : fault tx.issued = true
  · right
    refine ⟨⟨tx.db, true, tx.issued + 1⟩, ?_, rfl⟩
    simp only [h, if_true]
  · simp only [h, if_false]
    cases hs : stmt tx.db with
    | none => right; exact ⟨_, rfl, rfl⟩
    | some r => left; exact ⟨r.2, _, rfl, rfl, rfl⟩

theorem execEach_dichotomy (fault : Nat → Bool) (stmt : UUID → Store → Option (Store × Nat))
    (ids : List UUID) (tx : Tx) (hf : tx.failed = false) :
    (∃ tx', execEach fault stmt ids tx = (true, tx') ∧
        execEach noFault stmt ids tx = (true, tx') ∧ tx'.failed = false) ∨
      (∃ tx', execEach fault stmt ids tx = (false, tx') ∧ tx'.failed = true) := by
  induction ids generalizing tx with
  | nil => left; exact ⟨tx, rfl, rfl, hf⟩
  | cons id ids ih =>
    rcases Exec_dichotomy fault tx (stmt id) hf with ⟨n, tx1, h1, h2, hf1⟩ | ⟨tx1, h1, hf1⟩
    · simp only [execEach, h1, h2]
      exact ih tx1 hf1
    · right
      exact ⟨tx1, by simp only [execEach, h1], hf1⟩

theorem replaceRows_dichotomy (fault : Nat → Bool) (s : Store) (tx : Tx) (ids : List UUID)
    (delete : Store → Option (Store × Nat)) (insert : UUID → Store → Option (Store × Nat))
    (e1 e2 : String) (hf : tx.failed = false) :
    (∃ tx', replaceRows fault s tx ids delete insert e1 e2 = .ok tx' ∧
        replaceRows noFault s tx ids delete insert e1 e2 = .ok tx' ∧ tx'.failed = false) ∨
      (∃ e, replaceRows fault s tx ids delete insert e1 e2 = .error (e, s)) := by
  by_cases hlen : ids.length > 0
  · simp only [replaceRows, hlen, if_true]
    rcases Exec_dichotomy fault tx delete hf with ⟨n, tx1, h1, h2, hf1⟩ | ⟨tx1, h1, hf1⟩
    · simp only [h1, h2]
      rcases execEach_dichotomy fault insert ids tx1 hf1 with ⟨tx2, h3, h4, hf2⟩ | ⟨tx2, h3, hf2⟩
      · left
        exact ⟨tx2, by simp only [h3], by simp only [h4], hf2⟩
      · right
        exact ⟨e2, by simp only [h3, Tx.Commit, hf2, if_true]⟩
    · right
      exact ⟨e1, by simp only [h1]⟩
  · left
    exact ⟨tx, by simp only [replaceRows, hlen, if_false], by simp only [replaceRows, hlen, if_false],
      hf⟩

theorem updatedProjects_of_no_row (now : Nat) (preProject : PreProject)
    (projects : List PreProject)
    (h : (projects.filter (fun q => decide (q.ID = preProject.ID))).length = 0) :
    updatedProjects now preProject projects = projects := by
  induction projects with
  | nil => rfl
  | cons q qs ih =>
    by_cases hq : q.ID = preProject.ID
    · simp [List.filter, hq] at h
    · have hrest : (qs.filter (fun q => decide (q.ID = preProject.ID))).length = 0 := by
        simpa [List.filter, hq] using h
      have := ih hrest
      simp only [updatedProjects] at this ⊢
      simp only [List.map_cons, hq, if_false, this]

/-- `UpdatePreProject` is all-or-nothing: a call either runs as the
fault-free call does and returns no error, or returns an error and leaves the
committed store as it was. -/
theorem UpdatePreProject_dichotomy (fault : Nat → Bool) (now : Nat) (s : Store)
    (preProject : PreProject) (advisorIDs studentIDs discussantIDs : List UUID) :
    (UpdatePreProject fault now s preProject advisorIDs studentIDs discussantIDs =
        UpdatePreProject noFault now s preProject advisorIDs studentIDs discussantIDs ∧
      (UpdatePreProject fault now s preProject advisorIDs studentIDs discussantIDs).1 = none) ∨
    (∃ e, UpdatePreProject fault now s preProject advisorIDs studentIDs discussantIDs =
        (some e, s)) := by
  by_cases h0 : fault 0 = true
  · right
    exact ⟨"failed to start transaction", by simp only [UpdatePreProject, h0, if_true]⟩
  have hn0 : noFault 0 = false := rfl
  simp only [UpdatePreProject, h0, hn0, Bool.false_eq_true, if_false]
  rcases Exec_dichotomy fault ⟨s, false, 1⟩ lockPreProject rfl with
    ⟨n1, tx1, h1, h1', hf1⟩ | ⟨tx1, h1, hf1⟩
  swap
  · right
    exact ⟨"failed to lock pre-project", by simp only [h1]⟩
  simp only [h1, h1']
  have hdb1 : tx1.db = s := by
    simp only [Tx.Exec, noFault, Bool.or_self, Bool.false_eq_true, if_false, lockPreProject,
      Prod.mk.injEq] at h1'
    rw [← h1'.2]
  rcases Exec_dichotomy fault tx1 (updatePreProjectRow now preProject) hf1 with
    ⟨n2, tx2, h2, h2', hf2⟩ | ⟨tx2, h2, hf2⟩
  swap
  · right
    exact ⟨"failed to update pre-project", by simp only [h2]⟩
  simp only [h2, h2']
  by_cases hrows : n2 = 0
  · right
    refine ⟨"no pre-project found to update", ?_⟩
    simp only [hrows, if_true, Tx.Commit, hf2, Bool.false_eq_true, if_false, Prod.mk.injEq,
      true_and]
    simp only [Tx.Exec, hf1, noFault, Bool.or_self, Bool.false_eq_true, if_false,
      updatePreProjectRow, Prod.mk.injEq, Option.some.injEq] at h2'
    obtain ⟨hn, htx⟩ := h2'
    rw [← htx, hdb1]
    simp only
    rw [updatedProjects_of_no_row now preProject s.pre_project (by rw [← hdb1, hn, hrows])]
  simp only [hrows, if_false]
  rcases replaceRows_dichotomy fault s tx2 studentIDs (deleteStudents preProject.ID)
      (insertStudentRow preProject.ID) "failed to remove existing students"
      "failed to insert student" hf2 with ⟨tx3, h3, h3', hf3⟩ | ⟨e, h3⟩
  swap
  · right
    exact ⟨e, by simp only [h3]⟩
  simp only [h3, h3']
  rcases replaceRows_dichotomy fault s tx3 discussantIDs (deleteDiscussants preProject.ID)
      (insertDiscussantRow preProject.ID) "failed to remove existing discussants"
      "failed to insert discussant" hf3 with ⟨tx4, h4, h4', hf4⟩ | ⟨e, h4⟩
  swap
  · right
    exact ⟨e, by simp only [h4]⟩
  simp only [h4, h4']
  rcases replaceRows_dichotomy fault s tx4 advisorIDs (deleteResponses preProject.ID)
      (insertResponseRow now statusDefault preProject.ID) "failed to remove existing advisors"
      "failed to insert advisor" hf4 with ⟨tx5, h5, h5', hf5⟩ | ⟨e, h5⟩
  swap
  · right
    exact ⟨e, by simp only [h5]⟩
  simp only [h5, h5']
  left
  exact ⟨trivial, trivial⟩

/-! ## Update and the discussants -/

/-- C14: project 1 of `exampleDiscussed` has discussant 30.  An Update request
that supplies only a year, so that the discussant field is empty, is answered
with success and leaves the project without discussants; an Update request
whose discussant field is supplied with zero entries (only blank ones) is
answered with success and leaves discussant 30 in place. -/
theorem update_without_discussant_field_removes_them :
    exampleDiscussed.discussantIDs 1 = [30] ∧
      (∃ agg, (UpdatePreProjectHandler "http://localhost" noFault 12 2026 exampleDiscussed 1
          (UpdateForm.yearOnly (some []) 2028)).1 =
            .SendJSONResponse http.StatusOK "" (some agg)) ∧
      (UpdatePreProjectHandler "http://localhost" noFault 12 2026 exampleDiscussed 1
          (UpdateForm.yearOnly (some []) 2028)).2.discussantIDs 1 = [] ∧
      (∃ agg, (UpdatePreProjectHandler "http://localhost" noFault 12 2026 exampleDiscussed 1
          { UpdateForm.yearOnly (some []) 2028 with discutants := .value [] }).1 =
            .SendJSONResponse http.StatusOK "" (some agg)) ∧
      (UpdatePreProjectHandler "http://localhost" noFault 12 2026 exampleDiscussed 1
          { UpdateForm.yearOnly (some []) 2028 with discutants := .value [] }).2.discussantIDs
        1 = [30] :=
  ⟨by decide, ⟨_, rfl⟩, by decide, ⟨_, rfl⟩, by decide⟩

/-- C16: project 1 of `exampleDiscussed` has discussant 30.  An Update request
that supplies only the year 2020 in the year 2026 fails validation, and an
Update request that supplies only the year 2028 fails in `UpdatePreProject`
at the insert of the first student row; after each of them the project has no
discussant left.  `UpdatePreProject` itself leaves the store as it was
whenever it returns an error. -/
theorem failed_update_has_removed_the_discussants :
    exampleDiscussed.discussantIDs 1 = [30] ∧
      (∃ errors, (UpdatePreProjectHandler "http://localhost" noFault 12 2026 exampleDiscussed 1
          (UpdateForm.yearOnly (some []) 2020)).1 = .failedValidationResponse errors) ∧
      (UpdatePreProjectHandler "http://localhost" noFault 12 2026 exampleDiscussed 1
          (UpdateForm.yearOnly (some []) 2020)).2.discussantIDs 1 = [] ∧
      (UpdatePreProjectHandler "http://localhost" (fun n => decide (n = 7)) 12 2026
          exampleDiscussed 1 (UpdateForm.yearOnly (some []) 2028)).1 =
        .serverErrorResponse "failed to insert student" ∧
      (UpdatePreProjectHandler "http://localhost" (fun n => decide (n = 7)) 12 2026
          exampleDiscussed 1 (UpdateForm.yearOnly (some []) 2028)).2.discussantIDs 1 = [] ∧
      ∀ (fault : Nat → Bool) (now : Nat) (s : Store) (preProject : PreProject)
        (advisorIDs studentIDs discussantIDs : List UUID),
        (UpdatePreProject fault now s preProject advisorIDs studentIDs discussantIDs).1 = none ∨
          (UpdatePreProject fault now s preProject advisorIDs studentIDs discussantIDs).2 =
            s := by
  refine ⟨by decide, ⟨_, rfl⟩, by decide, by decide, by decide, ?_⟩
  intro fault now s preProject advisorIDs studentIDs discussantIDs
  rcases UpdatePreProject_dichotomy fault now s preProject advisorIDs studentIDs
    discussantIDs with h | ⟨e, h⟩
  · exact Or.inl h.2
  · exact Or.inr (by rw [h])

/-! ## Update that supplies only a year -/

theorem mem_leftJoin {α β : Type} (x : α × Option β) (l : List α) (r : List β)
    (cond : α → β → Bool) (hx : x ∈ leftJoin l r cond) :
    x.1 ∈ l ∧ ∀ b, x.2 = some b → b ∈ r ∧ cond x.1 b = true := by
  unfold leftJoin at hx
  rw [List.mem_flatMap] at hx
  obtain ⟨a, ha, hxa⟩ := hx
  cases h : r.filter (cond a) with
  | nil =>
    rw [h] at hxa
    simp only [List.mem_singleton] at hxa
    subst hxa
    exact ⟨ha, fun b hb => by cases hb⟩
  | cons b0 bs =>
    rw [h] at hxa
    simp only [List.mem_map] at hxa
    obtain ⟨b, hb, rfl⟩ := hxa
    rw [← h] at hb
    refine ⟨ha, fun b' hb' => ?_⟩
    simp only [Option.some.injEq] at hb'
    subst hb'
    exact ⟨(List.mem_filter.mp hb).1, (List.mem_filter.mp hb).2⟩

/-- A joined row carries a student id and an advisor id of the project, or nil. -/
theorem preProjectJoin_ids (s : Store) (P : UUID) (row : JoinRow)
    (hrow : row ∈ preProjectJoin s P) :
    (row.StudentID ≠ uuid.Nil → row.StudentID ∈ s.studentIDs P) ∧
      (row.AdvisorID ≠ uuid.Nil → row.AdvisorID ∈ s.advisorIDs P) := by
  unfold preProjectJoin at hrow
  simp only [List.mem_map] at hrow
  obtain ⟨x7, h7, rfl⟩ := hrow
  obtain ⟨h6, -⟩ := mem_leftJoin _ _ _ _ h7
  obtain ⟨h5, -⟩ := mem_leftJoin _ _ _ _ h6
  obtain ⟨h4, -⟩ := mem_leftJoin _ _ _ _ h5
  obtain ⟨h3, -⟩ := mem_leftJoin _ _ _ _ h4
  obtain ⟨h2, c3⟩ := mem_leftJoin _ _ _ _ h3
  obtain ⟨h1, -⟩ := mem_leftJoin _ _ _ _ h2
  obtain ⟨h0, c1⟩ := mem_leftJoin _ _ _ _ h1
  have hP : x7.1.1.1.1.1.1.1.ID = P := by
    simpa using (List.mem_filter.mp h0).2
  obtain ⟨⟨⟨⟨⟨⟨⟨pp, ar⟩, u⟩, pps⟩, student⟩, accepted⟩, ppd⟩, discussant⟩ := x7
  simp only at hP c1 c3
  constructor
  · intro hne
    cases pps with
    | none => exact absurd rfl hne
    | some row =>
      obtain ⟨hmem, hc⟩ := c3 row rfl
      simp only [decide_eq_true_eq] at hc
      simp only [Store.studentIDs, List.mem_map, List.mem_filter, decide_eq_true_eq]
      exact ⟨row, ⟨hmem, hc.trans hP⟩, rfl⟩
  · intro hne
    cases ar with
    | none => exact absurd rfl hne
    | some row =>
      obtain ⟨hmem, hc⟩ := c1 row rfl
      simp only [decide_eq_true_eq] at hc
      simp only [Store.advisorIDs, Store.responses, List.mem_map, List.mem_filter,
        decide_eq_true_eq]
      exact ⟨row, ⟨hmem, hc.trans hP⟩, rfl⟩

/-- Every membership row of the project shows up as the student of a joined row. -/
theorem preProjectJoin_student (s : Store) (P : UUID) (p : PreProject) (r : StudentRow)
    (hp : s.project P = some p) (hr : r ∈ s.pre_project_students) (hrP : r.PreProjectID = P) :
    ∃ row ∈ preProjectJoin s P, row.StudentID = r.StudentID := by
  obtain ⟨hmem, hid⟩ := project_mem hp
  have h0 : p ∈ s.pre_project.filter (fun pp => decide (pp.ID = P)) :=
    List.mem_filter.mpr ⟨hmem, by simp [hid]⟩
  obtain ⟨x1, h1, e1⟩ := leftJoin_left_total _ _ s.advisor_responses
    (fun pp ar => decide (ar.PreProjectID = pp.ID)) h0
  obtain ⟨x2, h2, e2⟩ := leftJoin_left_total _ _ s.users
    (fun x u => decide (x.2.map (·.AdvisorID) = some u.ID)) h1
  have h3 := mem_leftJoin_some x2 r _ s.pre_project_students
    (fun x pps => decide (pps.PreProjectID = x.1.1.ID)) h2 hr (by simp [hrP, e2, e1, hid])
  obtain ⟨x4, h4, e4⟩ := leftJoin_left_total _ _ s.users
    (fun x u => decide (x.2.map (·.StudentID) = some u.ID)) h3
  obtain ⟨x5, h5, e5⟩ := leftJoin_left_total _ _ s.users
    (fun x u => decide (x.1.1.1.1.AcceptedAdvisor = some u.ID)) h4
  obtain ⟨x6, h6, e6⟩ := leftJoin_left_total _ _ s.pre_project_discussants
    (fun x ppd => decide (ppd.PreProjectID = x.1.1.1.1.1.ID)) h5
  obtain ⟨x7, h7, e7⟩ := leftJoin_left_total _ _ s.users
    (fun x u => decide (x.2.map (·.DiscussantID) = some u.ID)) h6
  refine ⟨preProjectJoinColumns x7, List.mem_map.mpr ⟨x7, h7, rfl⟩, ?_⟩
  obtain ⟨⟨⟨⟨⟨⟨⟨pp, ar⟩, u⟩, pps⟩, student⟩, accepted⟩, ppd⟩, discussant⟩ := x7
  simp only at e7
  subst e7
  simp only at e6
  subst e6
  simp only at e5
  subst e5
  simp only [Prod.mk.injEq] at e4
  obtain ⟨rfl, rfl⟩ := e4
  rfl

/-- What `GetPreProjectWithAdvisorDetails` returns for an existing project
whose stored student and advisor ids are not nil: the project row, and student
and advisor lists without repeats that hold exactly the stored ids. -/
theorem GetPreProjectWithAdvisorDetails_ids (s : Store) (P : UUID) (p : PreProject)
    (hp : s.project P = some p) (hstudents : uuid.Nil ∉ s.studentIDs P)
    (hadvisors : uuid.Nil ∉ s.advisorIDs P) :
    ∃ agg, GetPreProjectWithAdvisorDetails false s P = .ok agg ∧ agg.PreProject = p ∧
      (∀ a, a ∈ agg.Students.map (·.StudentID) ↔ a ∈ s.studentIDs P) ∧
      (∀ a, a ∈ agg.Advisors.map (·.AdvisorID) ↔ a ∈ s.advisorIDs P) ∧
      (agg.Advisors.map (·.AdvisorID)).Nodup := by
  obtain ⟨row, rest, hrows, hrow⟩ := preProjectJoin_head s P p hp
  obtain ⟨hdec, hproj⟩ := decode_cons row rest
  rw [← hrows] at hdec hproj
  obtain ⟨hA, hS, -⟩ := decodeRows_ids (preProjectJoin s P)
  refine ⟨_, by simp [GetPreProjectWithAdvisorDetails, hdec], hproj.trans hrow, ?_, ?_, ?_⟩
  · intro a
    rw [hS, mem_removeRepeats]
    simp only [columnIds, List.mem_filter, List.mem_map, decide_eq_true_eq]
    constructor
    · rintro ⟨⟨jr, hjr, rfl⟩, hne⟩
      exact (preProjectJoin_ids s P jr hjr).1 hne
    · intro ha
      have hne : a ≠ uuid.Nil := fun h => hstudents (h ▸ ha)
      simp only [Store.studentIDs, List.mem_map, List.mem_filter, decide_eq_true_eq] at ha
      obtain ⟨r, ⟨hr, hrP⟩, rfl⟩ := ha
      exact ⟨preProjectJoin_student s P p r hp hr hrP, hne⟩
  · intro a
    rw [hA, mem_removeRepeats]
    simp only [columnIds, List.mem_filter, List.mem_map, decide_eq_true_eq]
    constructor
    · rintro ⟨⟨jr, hjr, rfl⟩, hne⟩
      exact (preProjectJoin_ids s P jr hjr).2 hne
    · intro ha
      have hne : a ≠ uuid.Nil := fun h => hadvisors (h ▸ ha)
      simp only [Store.advisorIDs, Store.responses, List.mem_map, List.mem_filter,
        decide_eq_true_eq] at ha
      obtain ⟨r, ⟨hr, hrP⟩, rfl⟩ := ha
      exact ⟨preProjectJoin_advisor s P p r hp hr hrP, hne⟩
  · rw [hA]
    exact nodup_removeRepeats _

theorem merge_yearOnly (Domain : String) (now : Nat) (P : UUID)
    (agg : PreProjectWithAdvisorDetails) (isAdmin : Bool) (roles : Option (List String))
    (year : Int) :
    UpdatePreProjectHandler.merge Domain now P agg isAdmin (UpdateForm.yearOnly roles year) =
      .ok ({ ID := P, Name := agg.PreProject.Name, Description := agg.PreProject.Description,
             File := agg.PreProject.File.map fun f => strings.TrimPrefix f (Domain ++ "/"),
             FileDescription := agg.PreProject.FileDescription,
             ProjectOwner := agg.PreProject.ProjectOwner, AcceptedAdvisor := none,
             Year := year, Season := agg.PreProject.Season,
             CanUpdate := agg.PreProject.CanUpdate, Degree := agg.PreProject.Degree,
             CreatedAt := 0, UpdatedAt := now },
           agg.Students.map (·.StudentID), agg.Advisors.map (·.AdvisorID),
           agg.Discussants.map (·.DiscussantID)) := by
  cases isAdmin <;> rfl

theorem find?_updatedProjects (now : Nat) (preProject : PreProject)
    (projects : List PreProject) (p : PreProject)
    (hp : projects.find? (fun q => decide (q.ID = preProject.ID)) = some p) :
    (updatedProjects now preProject projects).find?
        (fun q => decide (q.ID = preProject.ID)) =
      some { p with Name := preProject.Name, Description := preProject.Description,
                    FileDescription := preProject.FileDescription, File := preProject.File,
                    Year := preProject.Year, Season := preProject.Season, UpdatedAt := now,
                    CanUpdate := preProject.CanUpdate, Degree := preProject.Degree } := by
  induction projects with
  | nil => simp at hp
  | cons q qs ih =>
    by_cases hq : q.ID = preProject.ID
    · have : q = p := by simpa [List.find?, hq] using hp
      subst this
      simp [updatedProjects, List.find?, hq]
    · have hrest : qs.find? (fun q => decide (q.ID = preProject.ID)) = some p := by
        simpa [List.find?, hq] using hp
      have := ih hrest
      simp only [updatedProjects] at this ⊢
      simp [List.find?, hq, this]

theorem UpdatePreProject_error_store (fault : Nat → Bool) (now : Nat) (s s' : Store)
    (preProject : PreProject) (advisorIDs studentIDs discussantIDs : List UUID) (err : String)
    (h : UpdatePreProject fault now s preProject advisorIDs studentIDs discussantIDs =
      (some err, s')) : s' = s := by
  rcases UpdatePreProject_dichotomy fault now s preProject advisorIDs studentIDs
    discussantIDs with hd | ⟨e, hd⟩
  · rw [h] at hd
    exact absurd hd.2 (by simp)
  · rw [h] at hd
    exact (Prod.mk.injEq _ _ _ _ ▸ hd).2

theorem UpdatePreProject_success_store (fault : Nat → Bool) (now : Nat) (s s' : Store)
    (preProject : PreProject) (advisorIDs studentIDs discussantIDs : List UUID)
    (h : UpdatePreProject fault now s preProject advisorIDs studentIDs discussantIDs =
      (none, s')) :
    s' = (UpdatePreProject noFault now s preProject advisorIDs studentIDs discussantIDs).2 := by
  rcases UpdatePreProject_dichotomy fault now s preProject advisorIDs studentIDs
    discussantIDs with hd | ⟨e, hd⟩
  · rw [← hd.1, h]
  · rw [h] at hd
    simp at hd

/-- The committed store after an Update request that supplies only a year, on
an existing project whose stored student and advisor ids are not nil: either
the three tables the request may write are as before and the response is not
the success one, or they are what the fault-free `UpdatePreProject` leaves for
the merged candidate and the ids read back. -/
theorem UpdatePreProjectHandler_yearOnly (Domain : String) (fault : Nat → Bool) (now : Nat)
    (currentYear : Int) (s : Store) (P : UUID) (p : PreProject)
    (roles : Option (List String)) (year : Int)
    (hp : s.project P = some p) (hstudents : uuid.Nil ∉ s.studentIDs P)
    (hadvisors : uuid.Nil ∉ s.advisorIDs P) :
    (((UpdatePreProjectHandler Domain fault now currentYear s P
          (UpdateForm.yearOnly roles year)).2.pre_project = s.pre_project ∧
        (UpdatePreProjectHandler Domain fault now currentYear s P
          (UpdateForm.yearOnly roles year)).2.pre_project_students = s.pre_project_students ∧
        (UpdatePreProjectHandler Domain fault now currentYear s P
          (UpdateForm.yearOnly roles year)).2.advisor_responses = s.advisor_responses) ∧
      ∀ agg, (UpdatePreProjectHandler Domain fault now currentYear s P
          (UpdateForm.yearOnly roles year)).1 ≠ .SendJSONResponse http.StatusOK "" (some agg)) ∨
    (∃ studentIDs advisorIDs : List UUID,
      (∀ a, a ∈ studentIDs ↔ a ∈ s.studentIDs P) ∧
      (∀ a, a ∈ advisorIDs ↔ a ∈ s.advisorIDs P) ∧
      (UpdatePreProjectHandler Domain fault now currentYear s P
          (UpdateForm.yearOnly roles year)).2.pre_project =
        updatedProjects now
          { ID := P, Name := p.Name, Description := p.Description,
            File := p.File.map fun f => strings.TrimPrefix f (Domain ++ "/"),
            FileDescription := p.FileDescription, ProjectOwner := p.ProjectOwner,
            AcceptedAdvisor := none, Year := year, Season := p.Season,
            CanUpdate := p.CanUpdate, Degree := p.Degree, CreatedAt := 0, UpdatedAt := now }
          s.pre_project ∧
      (UpdatePreProjectHandler Domain fault now currentYear s P
          (UpdateForm.yearOnly roles year)).2.pre_project_students =
        (if studentIDs.length > 0 then
          s.pre_project_students.filter (fun r => decide (r.PreProjectID ≠ P)) ++
            studentIDs.map fun a => ⟨P, a⟩
         else s.pre_project_students) ∧
      (UpdatePreProjectHandler Domain fault now currentYear s P
          (UpdateForm.yearOnly roles year)).2.advisor_responses =
        (if advisorIDs.length > 0 then
          s.advisor_responses.filter (fun r => decide (r.PreProjectID ≠ P)) ++
            advisorIDs.map fun a => ⟨P, a, statusDefault, now, now⟩
         else s.advisor_responses)) := by
  obtain ⟨agg, hget, hproj, hS, hA, hnd⟩ :=
    GetPreProjectWithAdvisorDetails_ids s P p hp hstudents hadvisors
  have hdisc : ∀ r, (UpdateForm.yearOnly r year).discutants = .absent := fun _ => rfl
  cases roles with
  | none =>
    left
    simp [UpdatePreProjectHandler, UpdateForm.yearOnly]
  | some userRoles =>
    have hform : (UpdateForm.yearOnly (some userRoles) year).roles = some userRoles := rfl
    simp only [UpdatePreProjectHandler, hform, hdisc, merge_yearOnly, ne_eq, not_true_eq_false,
      decide_False, Bool.false_eq_true, if_false]
    by_cases h0 : fault 0 = true
    · left
      simp [h0, GetPreProjectWithAdvisorDetails]
    have h0' : fault 0 = false := by simpa using h0
    simp only [h0', hget, hproj]
    by_cases h1 : fault 1 = true
    · left
      simp [h1, RemoveAllDiscussants]
    have h1' : fault 1 = false := by simpa using h1
    simp only [h1', RemoveAllDiscussants, Bool.false_eq_true, if_false]
    split
    · left
      simp
    · split
      · left
        simp
      · split
        · rename_i err s' heq
          have hs' := UpdatePreProject_error_store _ _ _ _ _ _ _ _ _ heq
          subst hs'
          left
          simp
        · rename_i s' heq
          have hex : ∃ q ∈ s.pre_project, q.ID = P :=
            ⟨p, (project_mem hp).1, (project_mem hp).2⟩
          have hs' := UpdatePreProject_success_store _ _ _ _ _ _ _ _ heq
          rw [UpdatePreProject_noFault _ _ _ _ _ _ hex hnd] at hs'
          simp only at hs'
          subst hs'
          right
          refine ⟨_, _, hS, hA, ?_, ?_, ?_⟩ <;> split <;> rfl

theorem mem_replaced_studentIDs (rows : List StudentRow) (P : UUID) (ids : List UUID)
    (a : UUID) :
    a ∈ ((rows.filter (fun r => decide (r.PreProjectID ≠ P)) ++
          ids.map fun a => (⟨P, a⟩ : StudentRow)).filter
            (fun r => decide (r.PreProjectID = P))).map (·.StudentID) ↔ a ∈ ids := by
  simp only [List.mem_map, List.mem_filter, List.mem_append, decide_eq_true_eq]
  constructor
  · rintro ⟨r, ⟨⟨hr, hne⟩ | ⟨b, hb, rfl⟩, hP⟩, rfl⟩
    · exact absurd hP hne
    · exact hb
  · intro ha
    exact ⟨⟨P, a⟩, ⟨Or.inr ⟨a, ha, rfl⟩, rfl⟩, rfl⟩

theorem mem_replaced_advisorIDs (rows : List AdvisorResponse) (P : UUID) (ids : List UUID)
    (status : String) (now : Nat) (a : UUID) :
    a ∈ ((rows.filter (fun r => decide (r.PreProjectID ≠ P)) ++
          ids.map fun a => (⟨P, a, status, now, now⟩ : AdvisorResponse)).filter
            (fun r => decide (r.PreProjectID = P))).map (·.AdvisorID) ↔ a ∈ ids := by
  simp only [List.mem_map, List.mem_filter, List.mem_append, decide_eq_true_eq]
  constructor
  · rintro ⟨r, ⟨⟨hr, hne⟩ | ⟨b, hb, rfl⟩, hP⟩, rfl⟩
    · exact absurd hP hne
    · exact hb
  · intro ha
    exact ⟨⟨P, a, status, now, now⟩, ⟨Or.inr ⟨a, ha, rfl⟩, rfl⟩, rfl⟩

/-- C15: for every existing project whose stored file reference does not begin
with the URL prefix the handler strips and whose stored student and advisor
ids are not nil, an Update request that supplies only a year leaves a project
row with the same name, description, file reference and season, the same set
of student ids and the same set of advisor ids, whatever the outcome of the
request; of the project row only the year and `updated_at` may differ, and
they are the supplied year and the time of the request when the request is
answered with success. -/
theorem update_of_year_only_keeps_the_rest (Domain : String) (fault : Nat → Bool) (now : Nat)
    (currentYear : Int) (s : Store) (P : UUID) (p : PreProject)
    (roles : Option (List String)) (year : Int)
    (hp : s.project P = some p)
    (hfile : ∀ f, p.File = some f → strings.TrimPrefix f (Domain ++ "/") = f)
    (hstudents : uuid.Nil ∉ s.studentIDs P) (hadvisors : uuid.Nil ∉ s.advisorIDs P) :
    ∃ p', (UpdatePreProjectHandler Domain fault now currentYear s P
          (UpdateForm.yearOnly roles year)).2.project P = some p' ∧
      p'.Name = p.Name ∧ p'.Description = p.Description ∧ p'.File = p.File ∧
      p'.Season = p.Season ∧
      (∀ a, a ∈ (UpdatePreProjectHandler Domain fault now currentYear s P
          (UpdateForm.yearOnly roles year)).2.studentIDs P ↔ a ∈ s.studentIDs P) ∧
      (∀ a, a ∈ (UpdatePreProjectHandler Domain fault now currentYear s P
          (UpdateForm.yearOnly roles year)).2.advisorIDs P ↔ a ∈ s.advisorIDs P) ∧
      { p' with Year := p.Year, UpdatedAt := p.UpdatedAt } = p ∧
      ((∃ agg, (UpdatePreProjectHandler Domain fault now currentYear s P
          (UpdateForm.yearOnly roles year)).1 = .SendJSONResponse http.StatusOK "" (some agg)) →
        p'.Year = year ∧ p'.UpdatedAt = now) := by
  rcases UpdatePreProjectHandler_yearOnly Domain fault now currentYear s P p roles year hp
    hstudents hadvisors with ⟨⟨h1, h2, h3⟩, hresp⟩ | ⟨studentIDs, advisorIDs, hS, hA, h1, h2, h3⟩
  · refine ⟨p, ?_, rfl, rfl, rfl, rfl, ?_, ?_, rfl, ?_⟩
    · simp only [Store.project, h1]
      exact hp
    · intro a
      simp only [Store.studentIDs, h2]
    · intro a
      simp only [Store.advisorIDs, Store.responses, h3]
    · rintro ⟨agg, hagg⟩
      exact absurd hagg (hresp agg)
  · have hF : p.File.map (fun f => strings.TrimPrefix f (Domain ++ "/")) = p.File := by
      cases hf : p.File with
      | none => rfl
      | some f => simp only [Option.map, hfile f hf]
    have hfind := find?_updatedProjects now
      { ID := P, Name := p.Name, Description := p.Description,
        File := p.File.map fun f => strings.TrimPrefix f (Domain ++ "/"),
        FileDescription := p.FileDescription, ProjectOwner := p.ProjectOwner,
        AcceptedAdvisor := none, Year := year, Season := p.Season,
        CanUpdate := p.CanUpdate, Degree := p.Degree, CreatedAt := 0, UpdatedAt := now }
      s.pre_project p hp
    simp only [hF] at hfind h1
    refine ⟨{ p with Year := year, UpdatedAt := now }, ?_, rfl, rfl, rfl, rfl, ?_, ?_, rfl,
      fun _ => ⟨rfl, rfl⟩⟩
    · simp only [Store.project, h1]
      exact hfind
    · intro a
      simp only [Store.studentIDs, h2]
      by_cases hlen : studentIDs.length > 0
      · simp only [hlen, if_true]
        rw [mem_replaced_studentIDs]
        exact hS a
      · simp only [hlen, if_false]
    · intro a
      simp only [Store.advisorIDs, Store.responses, h3]
      by_cases hlen : advisorIDs.length > 0
      · simp only [hlen, if_true]
        rw [mem_replaced_advisorIDs]
        exact hA a
      · simp only [hlen, if_false]

theorem update_of_year_only_keeps_the_rest_witness :
    (∃ agg, (UpdatePreProjectHandler "http://localhost" noFault 12 2026 exampleUpdated 1
        (UpdateForm.yearOnly (some []) 2028)).1 =
          .SendJSONResponse http.StatusOK "" (some agg)) ∧
    ∃ p', (UpdatePreProjectHandler "http://localhost" noFault 12 2026 exampleUpdated 1
          (UpdateForm.yearOnly (some []) 2028)).2.project 1 = some p' ∧
      p'.Name = "Campus navigation" ∧ p'.Description = some "Indoor navigation for the campus" ∧
      p'.File = none ∧ p'.Season = "fall" ∧
      (∀ a, a ∈ (UpdatePreProjectHandler "http://localhost" noFault 12 2026 exampleUpdated 1
          (UpdateForm.yearOnly (some []) 2028)).2.studentIDs 1 ↔
        a ∈ exampleUpdated.studentIDs 1) ∧
      (∀ a, a ∈ (UpdatePreProjectHandler "http://localhost" noFault 12 2026 exampleUpdated 1
          (UpdateForm.yearOnly (some []) 2028)).2.advisorIDs 1 ↔
        a ∈ exampleUpdated.advisorIDs 1) ∧
      { p' with Year := 2027, UpdatedAt := 9 } =
        { exampleGraded with
          ID := 1, AcceptedAdvisor := some 20, Year := 2027, CreatedAt := 5, UpdatedAt := 9 } ∧
      ((∃ agg, (UpdatePreProjectHandler "http://localhost" noFault 12 2026 exampleUpdated 1
          (UpdateForm.yearOnly (some []) 2028)).1 =
            .SendJSONResponse http.StatusOK "" (some agg)) →
        p'.Year = 2028 ∧ p'.UpdatedAt = 12) :=
  ⟨⟨_, rfl⟩,
    update_of_year_only_keeps_the_rest "http://localhost" noFault 12 2026 exampleUpdated 1
      { exampleGraded with
        ID := 1, AcceptedAdvisor := some 20, Year := 2027, CreatedAt := 5, UpdatedAt := 9 }
      (some []) 2028 (by decide) (fun f hf => by cases hf) (by decide) (by decide)⟩

/-! ## Validation of an advisor response -/

/-- The fields `ValidateAdvisorResponse` reports, starting from an empty
validator. -/
theorem ValidateAdvisorResponse_keys (A : UUID) (status : String) (advisors : List UUID) :
    ("status" ∈ (ValidateAdvisorResponse validator.New A status advisors).keys ↔
        status ∉ ["pending", "accepted", "rejected"]) ∧
      ("advisor" ∈ (ValidateAdvisorResponse validator.New A status advisors).keys ↔
        A ∉ advisors) ∧
      (∀ key ∈ (ValidateAdvisorResponse validator.New A status advisors).keys,
        key = "status" ∨ key = "advisor") ∧
      ((ValidateAdvisorResponse validator.New A status advisors).Valid = true ↔
        status ∈ ["pending", "accepted", "rejected"] ∧ A ∈ advisors) := by
  have hin : validator.In status ["pending", "accepted", "rejected"] = false ↔
      status ∉ ["pending", "accepted", "rejected"] := by
    simp [validator.In]
  have hinu : validator.InUUID A advisors = false ↔ A ∉ advisors := by
    simp [validator.InUUID]
  have hkey : ∀ key, key ∈ (ValidateAdvisorResponse validator.New A status advisors).keys ↔
      (status ∉ ["pending", "accepted", "rejected"] ∧ key = "status") ∨
        (A ∉ advisors ∧ key = "advisor") := by
    intro key
    simp only [ValidateAdvisorResponse, mem_keys_Check, keys_New, List.not_mem_nil, false_or,
      hin, hinu]
  refine ⟨?_, ?_, ?_, ?_⟩
  · rw [hkey]
    simp
  · rw [hkey]
    simp
  · intro key hk
    rcases (hkey key).mp hk with h | h
    · exact Or.inl h.2
    · exact Or.inr h.2
  · rw [Valid_iff_keys, List.eq_nil_iff_forall_not_mem]
    constructor
    · intro h
      constructor
      · by_contra hs
        exact h "status" ((hkey _).mpr (Or.inl ⟨hs, rfl⟩))
      · by_contra ha
        exact h "advisor" ((hkey _).mpr (Or.inr ⟨ha, rfl⟩))
    · rintro ⟨hs, ha⟩ key hk
      rcases (hkey key).mp hk with h | h
      · exact h.1 hs
      · exact h.1 ha

/-- C21: `ValidateAdvisorResponse`, started on an empty validator, yields an
empty error mapping exactly when the status is one of "pending", "accepted",
"rejected" and the advisor is in the list; it has a `status` entry exactly
when the status is none of the three, an `advisor` entry exactly when the
advisor is not in the list, and no other entry.  A Submit response request
that reaches validation (its status is not empty, the project loads, and the
advisor is not the one who holds the project) and fails it is answered with
the error mapping, and the store is as before; a request with an empty status
is refused before that with `400`. -/
theorem submit_validation_reports_status_and_advisor (fault : Nat → Bool) (now : Nat)
    (s : Store) (A P : UUID) (status : String) (advisors : List UUID)
    (agg : PreProjectWithAdvisorDetails) (hstatus : status ≠ "")
    (hget : GetPreProjectWithAdvisorDetails (fault 0) s P = .ok agg)
    (hself : agg.PreProject.AcceptedAdvisor ≠ some A) :
    ((ValidateAdvisorResponse validator.New A status advisors).Valid = true ↔
        status ∈ ["pending", "accepted", "rejected"] ∧ A ∈ advisors) ∧
      ("status" ∈ (ValidateAdvisorResponse validator.New A status advisors).keys ↔
        status ∉ ["pending", "accepted", "rejected"]) ∧
      ("advisor" ∈ (ValidateAdvisorResponse validator.New A status advisors).keys ↔
        A ∉ advisors) ∧
      (∀ key ∈ (ValidateAdvisorResponse validator.New A status advisors).keys,
        key = "status" ∨ key = "advisor") ∧
      (¬ (status ∈ ["pending", "accepted", "rejected"] ∧
            A ∈ agg.Advisors.map (·.AdvisorID)) →
        RespondToPreProjectHandler fault now s A P status =
          (.failedValidationResponse
            (ValidateAdvisorResponse validator.New A status
              (agg.Advisors.map (·.AdvisorID))).Errors, s)) ∧
      RespondToPreProjectHandler fault now s A P "" =
        (.errorResponse http.StatusBadRequest "Status is required", s) := by
  obtain ⟨h1, h2, h3, h4⟩ := ValidateAdvisorResponse_keys A status advisors
  refine ⟨h4, h1, h2, h3, ?_, by simp only [RespondToPreProjectHandler, if_true]⟩
  intro hbad
  have hinvalid : (ValidateAdvisorResponse validator.New A status
      (agg.Advisors.map (·.AdvisorID))).Valid = false := by
    cases hv : (ValidateAdvisorResponse validator.New A status
      (agg.Advisors.map (·.AdvisorID))).Valid
    · rfl
    · exact absurd ((ValidateAdvisorResponse_keys A status _).2.2.2.mp hv) hbad
  unfold RespondToPreProjectHandler
  rw [if_neg hstatus, hget]
  simp only [hself, if_false, hinvalid, Bool.not_false, if_true]

theorem submit_validation_reports_status_and_advisor_witness :
    ((ValidateAdvisorResponse validator.New 22 "maybe" [20, 21]).Valid = true ↔
        "maybe" ∈ ["pending", "accepted", "rejected"] ∧ 22 ∈ [20, 21]) ∧
      ("status" ∈ (ValidateAdvisorResponse validator.New 22 "maybe" [20, 21]).keys ↔
        "maybe" ∉ ["pending", "accepted", "rejected"]) ∧
      ("advisor" ∈ (ValidateAdvisorResponse validator.New 22 "maybe" [20, 21]).keys ↔
        22 ∉ [20, 21]) ∧
      RespondToPreProjectHandler noFault 8 exampleCreated 22 1 "maybe" =
        (.failedValidationResponse
          (ValidateAdvisorResponse validator.New 22 "maybe" [20, 21]).Errors,
          exampleCreated) :=
  have h := submit_validation_reports_status_and_advisor noFault 8 exampleCreated 22 1 "maybe"
    [20, 21] _ (by decide) rfl (by decide)
  ⟨h.1, h.2.1, h.2.2.1, h.2.2.2.2.1 (by decide)⟩

/-! ## Submit response without an accept -/

theorem find?_map_of_pred {α : Type} (l : List α) (f : α → α) (q : α → Bool)
    (hq : ∀ a, q (f a) = q a) : (l.map f).find? q = (l.find? q).map f := by
  induction l with
  | nil => rfl
  | cons a l ih =>
    by_cases ha : q a = true
    · simp [List.find?, hq, ha]
    · have ha' : q a = false := by simpa using ha
      simp only [List.map_cons, List.find?, hq, ha', ih]

theorem find?_isSome_of_mem_pair (rows : List AdvisorResponse) (P A : UUID)
    (h : ∃ r ∈ rows, r.PreProjectID = P ∧ r.AdvisorID = A) :
    ∃ r, rows.find? (fun r => decide (r.PreProjectID = P ∧ r.AdvisorID = A)) = some r := by
  obtain ⟨r, hr, hrP⟩ := h
  cases hf : rows.find? (fun r => decide (r.PreProjectID = P ∧ r.AdvisorID = A)) with
  | some r' => exact ⟨r', rfl⟩
  | none =>
    have := List.find?_eq_none.mp hf r hr
    simp only [decide_eq_true_eq] at this
    exact absurd hrP this

/-- The fault-free `InsertAdvisorResponse` with a status other than
"accepted" on a project whose slot is empty, for an advisor with a row. -/
theorem InsertAdvisorResponse_no_accept_eq (now : Nat) (s : Store) (P A : UUID)
    (p : PreProject) (status : String) (hp : s.project P = some p)
    (hslot : p.AcceptedAdvisor = none)
    (hsol : ∃ r ∈ s.advisor_responses, r.PreProjectID = P ∧ r.AdvisorID = A)
    (hst : status ≠ "accepted") :
    InsertAdvisorResponse noFault now s P A status =
      (none, { s with advisor_responses := s.advisor_responses.map fun r =>
          if r.PreProjectID = P ∧ r.AdvisorID = A then
            { r with Status := status, UpdatedAt := now }
          else r }) := by
  have hsel : selectAcceptedAdvisor s P = uuid.Nil := by
    rw [selectAcceptedAdvisor_eq hp, hslot]
    rfl
  unfold InsertAdvisorResponse
  rw [InsertAdvisorResponseRC_noFault]
  simp only [hsel, ne_eq, not_true_eq_false, if_false, hst, upsertRows_of_mem now P A status _ hsol]

/-- C24: for every project with an empty accepted-advisor slot and every
advisor with a response row for it, the fault-free `InsertAdvisorResponse`
with status "pending" or "rejected" returns no error and changes the store in
one place only: the advisor's row of the project gets the submitted status
(and the time of the call as `updated_at`), every other response row, the
project row with its empty slot, and the other tables are as before.  Under
statement failures the call either runs like that or returns an error and
changes nothing.  With status "accepted" the slot is claimed.  Through the
handler the request of a non-nil advisor is answered with `200`. -/
theorem submit_without_accept_only_sets_its_row (now : Nat) (s : Store) (P A : UUID)
    (p : PreProject) (status : String) (hp : s.project P = some p)
    (hslot : p.AcceptedAdvisor = none)
    (hsol : ∃ r ∈ s.advisor_responses, r.PreProjectID = P ∧ r.AdvisorID = A)
    (hst : status = "pending" ∨ status = "rejected") :
    InsertAdvisorResponse noFault now s P A status =
        (none, { s with advisor_responses := s.advisor_responses.map fun r =>
          if r.PreProjectID = P ∧ r.AdvisorID = A then
            { r with Status := status, UpdatedAt := now }
          else r }) ∧
      (InsertAdvisorResponse noFault now s P A status).2.project P = some p ∧
      (InsertAdvisorResponse noFault now s P A status).2.status P A = some status ∧
      (∀ fault : Nat → Bool,
        InsertAdvisorResponse fault now s P A status =
            InsertAdvisorResponse noFault now s P A status ∨
          ((InsertAdvisorResponse fault now s P A status).1 ≠ none ∧
            (InsertAdvisorResponse fault now s P A status).2 = s)) ∧
      (InsertAdvisorResponse noFault now s P A "accepted").2.project P =
        some { p with AcceptedAdvisor := some A, UpdatedAt := now } ∧
      (A ≠ uuid.Nil →
        RespondToPreProjectHandler noFault now s A P status =
          (.SendJSONResponse http.StatusOK "Advisor response recorded successfully" none,
            (InsertAdvisorResponse noFault now s P A status).2)) := by
  have hne : status ≠ "accepted" := by
    rcases hst with h | h <;> rw [h] <;> decide
  have hempty : status ≠ "" := by
    rcases hst with h | h <;> rw [h] <;> decide
  have heq := InsertAdvisorResponse_no_accept_eq now s P A p status hp hslot hsol hne
  refine ⟨heq, ?_, ?_, ?_, project_after_accept now s P A p hp hslot hsol, ?_⟩
  · rw [heq]
    exact hp
  · rw [heq]
    obtain ⟨r, hr⟩ := find?_isSome_of_mem_pair s.advisor_responses P A hsol
    have hpair : r.PreProjectID = P ∧ r.AdvisorID = A := by
      simpa using List.find?_some hr
    simp only [Store.status]
    rw [find?_map_of_pred _ _ _ (by
      intro a
      by_cases ha : a.PreProjectID = P ∧ a.AdvisorID = A
      · simp [ha]
      · simp [ha]), hr]
    simp [hpair]
  · intro fault
    exact InsertAdvisorResponseRC_fault fault now s s P A status
  · intro hAnil
    obtain ⟨agg, hagg, hproj, hadv⟩ := GetPreProjectWithAdvisorDetails_ok s P p hp
    obtain ⟨r, hr, hrP, hrA⟩ := hsol
    have hmem : A ∈ agg.Advisors.map (·.AdvisorID) := hrA ▸ hadv r hr hrP (hrA ▸ hAnil)
    have hvalid : (ValidateAdvisorResponse validator.New A status
        (agg.Advisors.map (·.AdvisorID))).Valid = true :=
      (ValidateAdvisorResponse_keys A status _).2.2.2.mpr
        ⟨by rcases hst with h | h <;> rw [h] <;> decide, hmem⟩
    have hother : ¬ (agg.PreProject.AcceptedAdvisor = some A) := by
      rw [hproj, hslot]
      intro h
      cases h
    have hfault : (fun n => noFault (n + 1)) = noFault := rfl
    unfold RespondToPreProjectHandler
    rw [if_neg hempty]
    have hq : GetPreProjectWithAdvisorDetails (noFault 0) s P = .ok agg := hagg
    rw [hq]
    simp only [hother, if_false, hvalid, Bool.not_true, Bool.false_eq_true, hfault, heq, hne]

theorem submit_without_accept_only_sets_its_row_witness :
    InsertAdvisorResponse noFault 8 exampleCreated 1 21 "rejected" =
        (none, { exampleCreated with advisor_responses :=
          exampleCreated.advisor_responses.map fun r =>
            if r.PreProjectID = 1 ∧ r.AdvisorID = 21 then
              { r with Status := "rejected", UpdatedAt := 8 }
            else r }) ∧
      (InsertAdvisorResponse noFault 8 exampleCreated 1 21 "rejected").2.project 1 =
        some { exampleProject with ID := 1, CreatedAt := 5, UpdatedAt := 5 } ∧
      (InsertAdvisorResponse noFault 8 exampleCreated 1 21 "rejected").2.status 1 21 =
        some "rejected" :=
  have h := submit_without_accept_only_sets_its_row 8 exampleCreated 1 21
    { exampleProject with ID := 1, CreatedAt := 5, UpdatedAt := 5 } "rejected"
    (by decide) rfl (by decide) (Or.inr rfl)
  ⟨h.1, h.2.1, h.2.2.1⟩

/-! ## Submissions for a project that is taken -/

theorem submitInOrder_taken (calls : List SubmitCall) (s : Store) (P X : UUID) (p : PreProject)
    (hp : s.project P = some p) (hX : p.AcceptedAdvisor = some X) (hXnil : X ≠ uuid.Nil) :
    submitInOrder P calls s = s := by
  induction calls with
  | nil => rfl
  | cons c calls ih =>
    simp only [submitInOrder]
    rw [(InsertAdvisorResponse_taken c.fault c.now s P c.advisorUUID X c.status p hp hX hXnil).1]
    exact ih

/-- After a fault-free `ResetPreProjectAdvisors` the project row has an empty
slot. -/
theorem project_after_reset (s : Store) (P : UUID) (p : PreProject)
    (hp : s.project P = some p) :
    (ResetPreProjectAdvisors noFault s P).2.project P =
      some { p with AcceptedAdvisor := none } := by
  rw [ResetPreProjectAdvisors_noFault]
  simp only [Store.project]
  rw [find?_map_of_pred _ _ _ (by
    intro a
    by_cases ha : a.ID = P
    · simp [ha]
    · simp [ha])]
  have hp' : s.pre_project.find? (fun p => decide (p.ID = P)) = some p := hp
  rw [hp']
  simp [(project_mem hp).2]

/-- After a fault-free `ResetPreProjectAdvisors` a fault-free submission for
the project returns no error. -/
theorem InsertAdvisorResponse_after_reset (now : Nat) (s : Store) (P A : UUID)
    (p : PreProject) (status : String) (hp : s.project P = some p) :
    (InsertAdvisorResponse noFault now (ResetPreProjectAdvisors noFault s P).2 P A status).1 =
      none := by
  have hproj := project_after_reset s P p hp
  have hsel : selectAcceptedAdvisor (ResetPreProjectAdvisors noFault s P).2 P = uuid.Nil := by
    rw [selectAcceptedAdvisor_eq hproj]
    rfl
  have hcount : claimCount P (ResetPreProjectAdvisors noFault s P).2.pre_project ≠ 0 :=
    claimCount_pos P _ _ hproj rfl
  unfold InsertAdvisorResponse
  rw [InsertAdvisorResponseRC_noFault]
  simp only [hsel, ne_eq, not_true_eq_false, if_false, hcount]
  split_ifs <;> rfl

/-- C25: for every project whose accepted advisor is set (to a non-nil id),
`InsertAdvisorResponse` for that project, for any advisor and any status,
returns an error and leaves the store as it was, whatever fails; when the
transaction starts and the check query runs the error is "pre-project has
already been accepted by another advisor", which the handler maps to `409`.
Any sequence of such calls leaves the store as it was.  After a fault-free
Reset advisors a fault-free submission returns no error again. -/
theorem taken_project_refuses_every_submission (fault : Nat → Bool) (now : Nat) (s : Store)
    (P A X : UUID) (status : String) (p : PreProject) (hp : s.project P = some p)
    (hX : p.AcceptedAdvisor = some X) (hXnil : X ≠ uuid.Nil) :
    (InsertAdvisorResponse fault now s P A status).2 = s ∧
      (InsertAdvisorResponse fault now s P A status).1 ≠ none ∧
      (fault 0 = false → fault 1 = false →
        (InsertAdvisorResponse fault now s P A status).1 = some errAlreadyAccepted) ∧
      RespondToPreProjectHandler.report errAlreadyAccepted =
        .errorResponse http.StatusConflict
          "Pre-project has already been accepted by another advisor" ∧
      (∀ calls : List SubmitCall, submitInOrder P calls s = s) ∧
      (InsertAdvisorResponse noFault now (ResetPreProjectAdvisors noFault s P).2 P A
        status).1 = none := by
  obtain ⟨h1, h2, h3⟩ := InsertAdvisorResponse_taken fault now s P A X status p hp hX hXnil
  exact ⟨h1, h2, h3, report_errAlreadyAccepted,
    fun calls => submitInOrder_taken calls s P X p hp hX hXnil,
    InsertAdvisorResponse_after_reset now s P A p status hp⟩

theorem taken_project_refuses_every_submission_witness :
    (InsertAdvisorResponse noFault 9 exampleAccepted 1 21 "pending").2 = exampleAccepted ∧
      (InsertAdvisorResponse noFault 9 exampleAccepted 1 21 "pending").1 =
        some errAlreadyAccepted ∧
      (InsertAdvisorResponse noFault 9 (ResetPreProjectAdvisors noFault exampleAccepted 1).2
        1 21 "pending").1 = none :=
  have h := taken_project_refuses_every_submission noFault 9 exampleAccepted 1 21 20
    "pending"
    { exampleProject with ID := 1, CreatedAt := 5, AcceptedAdvisor := some 20, UpdatedAt := 7 }
    (by decide) rfl (by decide)
  ⟨h.1, h.2.2.1 rfl rfl, h.2.2.2.2.2⟩

/-! ## Promote to book without an accepted advisor -/

/-- `MovePreProjectToBookHandler` on an existing project with no accepted
advisor ends in the nil dereference, whatever the book model is, once the load
works; neither the store nor the book tables change. -/
theorem MovePreProjectToBookHandler_absent (Domain : String) (m : BookModel)
    (fault : Nat → Bool) (newID now : Nat) (s : Store) (books : List BookRecord) (P : UUID)
    (p : PreProject) (hp : s.project P = some p) (hslot : p.AcceptedAdvisor = none)
    (h0 : fault 0 = false) :
    MovePreProjectToBookHandler Domain m fault newID now s books P =
      (.response .nilDereference, s, books) := by
  obtain ⟨agg, hagg, hproj, -⟩ := GetPreProjectWithAdvisorDetails_ok s P p hp
  have hacc : agg.PreProject.AcceptedAdvisor = none := by rw [hproj, hslot]
  simp only [MovePreProjectToBookHandler, h0, hagg, hacc]

/-- With the snapshot book model, the promotion of project 1 of
`exampleAccepted`, whose accepted advisor is advisor 20, is answered with
`201`, stores one book and removes the project row. -/
theorem MovePreProjectToBookHandler_accepted_example :
    ∃ book books,
      MovePreProjectToBookHandler "http://localhost" BookModel.snapshot noFault 2 9
          exampleAccepted [] 1 =
        (.SendJSONBook http.StatusCreated "Pre-project successfully moved to book" book,
          { exampleAccepted with pre_project := [] }, books) ∧
      books = [book] ∧ book.advisors = [20] ∧ book.students = [10] :=
  ⟨_, _, rfl, rfl, rfl, rfl⟩

/-- C22: project 1 of `exampleCreated` has no accepted advisor, and its
promotion ends in a nil dereference, whatever the book model and the book
tables are: no error response is written.  Neither the store nor the book
tables change. -/
theorem promote_without_accepted_advisor_is_a_nil_dereference :
    (exampleCreated.project 1).map (·.AcceptedAdvisor) = some none ∧
      ∀ (m : BookModel) (books : List BookRecord),
        MovePreProjectToBookHandler "http://localhost" m noFault 2 9 exampleCreated books 1 =
          (.response .nilDereference, exampleCreated, books) := by
  refine ⟨by decide, fun m books => ?_⟩
  exact MovePreProjectToBookHandler_absent "http://localhost" m noFault 2 9 exampleCreated
    books 1 _ (by decide : exampleCreated.project 1 = some
      { exampleProject with ID := 1, CreatedAt := 5, UpdatedAt := 5 }) rfl rfl

/-! ## Delete of a project that does not exist -/

theorem any_of_project_none (s : Store) (P : UUID) (h : s.project P = none) :
    s.pre_project.any (fun p => decide (p.ID = P)) = false := by
  rw [List.any_eq_false]
  intro q hq
  have := List.find?_eq_none.mp h q hq
  simpa using this

/-- `DeletePreProject` on an id with no project row leaves the store as it
was, and reports "pre-project not found" when its first three steps run. -/
theorem DeletePreProject_missing (fault : Nat → Bool) (s : Store) (P requester : UUID)
    (h : s.project P = none) :
    (DeletePreProject fault s P requester).2 = s ∧
      (DeletePreProject fault s P requester).1 ≠ none ∧
      (fault 0 = false → fault 1 = false → fault 2 = false →
        DeletePreProject fault s P requester = (some "pre-project not found", s)) := by
  have hany := any_of_project_none s P h
  by_cases h0 : fault 0 = true
  · simp [DeletePreProject, h0]
  by_cases h1 : fault 1 = true
  · simp [DeletePreProject, h0, h1, Tx.Exec]
  by_cases h2 : fault 2 = true
  · simp [DeletePreProject, h0, h1, h2, Tx.Exec, lockPreProject]
  simp [DeletePreProject, h0, h1, h2, Tx.Exec, lockPreProject, hany, Tx.Commit]

/-- C23: for every store, requester and project id with no project row,
Delete leaves the store unchanged whatever fails, and when the transaction
starts and the lock and existence queries run, `DeletePreProject` returns
"pre-project not found" and `DeletePreProjectHandler` answers `404` with
"Pre-project not found". -/
theorem delete_of_missing_project_is_not_found (fault : Nat → Bool) (s : Store)
    (requester P : UUID) (hmissing : s.project P = none) :
    (DeletePreProjectHandler fault s requester P).2 = s ∧
      (∀ message, (DeletePreProjectHandler fault s requester P).1 ≠
        .SendJSONResponse http.StatusOK message none) ∧
      (fault 0 = false → fault 1 = false → fault 2 = false →
        DeletePreProject fault s P requester = (some "pre-project not found", s) ∧
        DeletePreProjectHandler fault s requester P =
          (.errorResponse http.StatusNotFound "Pre-project not found", s)) := by
  obtain ⟨hs, herr, hnf⟩ := DeletePreProject_missing fault s P requester hmissing
  refine ⟨?_, ?_, ?_⟩
  · simp only [DeletePreProjectHandler]
    rcases hres : DeletePreProject fault s P requester with ⟨_ | err, s'⟩
    · rw [hres] at herr
      exact absurd rfl herr
    · rw [hres] at hs
      exact hs
  · intro message
    simp only [DeletePreProjectHandler]
    rcases hres : DeletePreProject fault s P requester with ⟨_ | err, s'⟩
    · rw [hres] at herr
      exact absurd rfl herr
    · simp only [DeletePreProjectHandler.report]
      split_ifs <;> intro hc <;> cases hc
  · intro h0 h1 h2
    have hdel := hnf h0 h1 h2
    refine ⟨hdel, ?_⟩
    simp only [DeletePreProjectHandler, hdel]
    have : DeletePreProjectHandler.report "pre-project not found" =
        .errorResponse http.StatusNotFound "Pre-project not found" := by decide
    rw [this]

theorem delete_of_missing_project_is_not_found_witness :
    (DeletePreProjectHandler noFault exampleCreated 10 3).2 = exampleCreated ∧
      (∀ message, (DeletePreProjectHandler noFault exampleCreated 10 3).1 ≠
        .SendJSONResponse http.StatusOK message none) ∧
      (noFault 0 = false → noFault 1 = false → noFault 2 = false →
        DeletePreProject noFault exampleCreated 3 10 =
          (some "pre-project not found", exampleCreated) ∧
        DeletePreProjectHandler noFault exampleCreated 10 3 =
          (.errorResponse http.StatusNotFound "Pre-project not found", exampleCreated)) :=
  delete_of_missing_project_is_not_found noFault exampleCreated 10 3 (by decide)

end CollegeProject
